import Mathlib

/-!
# CDC 1700 I/O framework (`cdc1700_iofw.c`)

A shallow embedding of the generic peripheral I/O framework: the once-only
initialization (`fw_init`), register dispatch (`fw_doIO`, `fw_doBDCIO`), the
interrupt status aggregator (`fw_IOintr` and the completion / underway policies
built on it), the forced status bits (`fw_setForced`, `fw_clearForced`), the
generic reject check (`fw_reject`) and the channel device locator
(`fw_findChanDevice`).

Conventions of the embedding.

* Machine integers are natural numbers.  A compound assignment to a `uint16`
  lvalue (`x &= e`, `x |= e`) stores `u16 (x op e)`; an assignment to a `uint8`
  local stores the value modulo 256.  `~e` is the complement of the 32-bit
  `int` the operand is promoted to (`cnot`).
* The header `cdc1700_defs.h` is not among the sources.  The bit constants it
  defines are the fields of a parameter `k : Defs`, and theorems state what
  they assume of them; `cdc1700_defs` is one assignment, for concrete instances.
* Pointers to descriptors and devices are natural numbers (`Option Nat` where the
  pointer may be `NULL`).
* The callbacks of a descriptor are collected in `Backend`; the framework
  functions return, next to the new state, the list of collaborator and callback
  invocations they made, in order (`Call`).
* A register bank is `uint16 [8]`; an access with an index of 8 or more, and a
  call through a `NULL` function pointer, end the run with a `Fault`.
-/

namespace CDC1700

/-! ## Declarations of `cdc1700_defs.h` -/

/-- Modelled from the spec: `enum IOstatus` is declared in cdc1700_defs.h, which is
not among the sources.  The framework itself produces `IO_REPLY` and `IO_REJECT`;
every other enumerator is a status only a backend produces. -/
inductive IOstatus where
  | IO_REPLY
  | IO_REJECT
  | backend (code : Nat)
  deriving DecidableEq, Repr

/-- Modelled from the spec: the bit constants of cdc1700_defs.h (not among the
sources) that the framework names.  Their values are parameters of the
embedding: the I/O address fields, the standard status bits, the standard
director (interrupt request) bits, the debug control flags and the device
flags. -/
structure Defs where
  IO_W : Nat
  IO_EQUIPMENT : Nat
  IO_ST_ALARM : Nat
  IO_ST_EOP : Nat
  IO_ST_DATA : Nat
  IO_ST_INT : Nat
  IO_ST_BUSY : Nat
  IO_ST_READY : Nat
  IO_DIR_ALARM : Nat
  IO_DIR_EOP : Nat
  IO_DIR_DATA : Nat
  DBG_DSTATE : Nat
  DBG_DINTR : Nat
  DEV_INDEV : Nat
  DEV_OUTDEV : Nat
  deriving DecidableEq, Repr

/-- Modelled from the spec: one assignment of the constants of cdc1700_defs.h, each
status and director constant a single bit of a 16-bit word, used wherever a
concrete instance is evaluated. -/
def cdc1700_defs : Defs where
  IO_W := 0x7800
  IO_EQUIPMENT := 0x0780
  IO_ST_ALARM := 0x0020
  IO_ST_EOP := 0x0010
  IO_ST_DATA := 0x0008
  IO_ST_INT := 0x0004
  IO_ST_BUSY := 0x0002
  IO_ST_READY := 0x0001
  IO_DIR_ALARM := 0x0010
  IO_DIR_EOP := 0x0008
  IO_DIR_DATA := 0x0004
  DBG_DSTATE := 0x0002
  DBG_DINTR := 0x0004
  DEV_INDEV := 0x20000
  DEV_OUTDEV := 0x40000

/-- Modelled from the spec: `MASK_REGISTER1` (cdc1700_defs.h) is bit 1, the bit of
the function/status register in a register bitmap. -/
def MASK_REGISTER1 : Nat := 0x02

/-- Device flag "device is buffered data channel" (`#define DEVICE_DC 0x02`). -/
def DEVICE_DC : Nat := 0x02

/-- Truncation to `uint16`. -/
def u16 (x : Nat) : Nat := x % 65536

/-- Truncation to `uint8`. -/
def u8 (x : Nat) : Nat := x % 256

/-- C's `~m` on an operand promoted to a 32-bit `int`, as a bit pattern. -/
def cnot (m : Nat) : Nat := 0xFFFFFFFF ^^^ m

/-! ## Data model -/

/-- A unit of a device; `up8` is the unit's pointer to a descriptor context. -/
structure UNIT where
  up8 : Option Nat
  deriving DecidableEq, Repr

/-- The fields of the simulator's `DEVICE` the framework reads: `numunits` is
`units.length`, `ctxt` points to the descriptor. -/
structure DEVICE where
  name : String
  flags : Nat
  dctrl : Nat
  ctxt : Option Nat
  units : List UNIT
  deriving DecidableEq, Repr

/-- The data fields of `IO_DEVICE` the framework uses (the callbacks are in
`Backend`; the device-specific `iod_private*` fields are not touched by the
framework). -/
structure IO_DEVICE where
  iod_equip : Nat
  iod_station : Nat
  iod_interrupt : Nat
  iod_dcbase : Nat
  iod_indev : Option Nat
  iod_outdev : Option Nat
  iod_ienable : Nat
  iod_oldienable : Nat
  iod_imask : Nat
  iod_dmask : Nat
  iod_smask : Nat
  iod_cmask : Nat
  iod_rmask : Nat
  iod_regs : Nat
  iod_validmask : Nat
  iod_readmap : Nat
  iod_rejmapR : Nat
  iod_rejmapW : Nat
  iod_flags : Nat
  iod_dc : Nat
  iod_readR : Fin 8 → Nat
  iod_writeR : Fin 8 → Nat
  iod_prevR : Fin 8 → Nat
  iod_forced : Nat

/-- The descriptor together with the processor globals the dispatch functions
use (`Areg`, `IOAreg`, `IOQreg`). -/
structure IOState where
  iod : IO_DEVICE
  Areg : Nat
  IOAreg : Nat
  IOQreg : Nat

/-- The callbacks of a descriptor (`NULL` is `none`).  The two checks
(`iod_reject`, `iod_intr`) answer a question about the state they are given; the
read and write routines return a status and the state they leave; `iod_state`
only prints, so its presence is all that is recorded. -/
structure Backend where
  iod_reject : Option (IOState → Bool → Nat → Bool)
  iod_IOread : Option (IOState → Nat → IOstatus × IOState)
  iod_IOwrite : Option (IOState → Nat → IOstatus × IOState)
  iod_BDCread : Option (IOState → Nat → Nat → IOstatus × IOState × Nat)
  iod_BDCwrite : Option (IOState → Nat → Nat → IOstatus × IOState × Nat)
  iod_state : Bool
  iod_intr : Option (IO_DEVICE → Bool)

/-- One invocation of a callback or of an external collaborator, with the
arguments (and the state) it was given. -/
inductive Call where
  | reject (s : IOState) (output : Bool) (reg : Nat)
  | IOread (s : IOState) (reg : Nat)
  | IOwrite (s : IOState) (reg : Nat)
  | BDCread (s : IOState) (data : Nat) (reg : Nat)
  | BDCwrite (s : IOState) (data : Nat) (reg : Nat)
  | state (label : String) (s : IOState)
  | intr (iod : IO_DEVICE)
  | rebuildPending (iod : IO_DEVICE)
  | fprintf (why : String) (iod : IO_DEVICE)
  | RaiseExternalInterrupt (iod : IO_DEVICE)
  | buildIOtable
  | buildDCtables

/-- What ends a run other than a return. -/
inductive Fault where
  | outOfBounds
  | nullCall
  | nullDeref
  deriving DecidableEq, Repr

/-- What a register dispatch returns: the status, the state left, the calls made. -/
structure Result where
  status : IOstatus
  s : IOState
  calls : List Call

/-- What a buffered-channel dispatch returns: as `Result`, with the data slot. -/
structure BDCResult where
  status : IOstatus
  s : IOState
  data : Nat
  calls : List Call

/-- Read of element `i` of a register bank `uint16 [8]`. -/
def bankGet (b : Fin 8 → Nat) (i : Nat) : Except Fault Nat :=
  if h : i < 8 then .ok (b ⟨i, h⟩) else .error Fault.outOfBounds

/-- Write of element `i` of a register bank `uint16 [8]`. -/
def bankSet (b : Fin 8 → Nat) (i : Nat) (v : Nat) : Except Fault (Fin 8 → Nat) :=
  if h : i < 8 then .ok (Function.update b ⟨i, h⟩ v) else .error Fault.outOfBounds

/-- Modelled from the spec: the macro `DEVSTATUS(iod)` of cdc1700_defs.h (not among
the sources); the device status is read register 1, the function/status
register. -/
def DEVSTATUS (iod : IO_DEVICE) : Nat := iod.iod_readR 1

/-- Assignment to `DEVSTATUS(iod)`. -/
def setDEVSTATUS (iod : IO_DEVICE) (v : Nat) : IO_DEVICE :=
  { iod with iod_readR := Function.update iod.iod_readR 1 v }

/-- Modelled from the spec: the macro `ISENABLED(iod, mask)` of cdc1700_defs.h (not
among the sources); some interrupt of `mask` is enabled in `iod_ienable`. -/
def ISENABLED (iod : IO_DEVICE) (mask : Nat) : Bool :=
  iod.iod_ienable &&& mask != 0

/-- Modelled from the spec: the macro `CHANGED(iod, n)` of cdc1700_defs.h (not among
the sources); the bits of write register `n` its last write changed. -/
def CHANGED (iod : IO_DEVICE) (n : Fin 8) : Nat :=
  iod.iod_writeR n ^^^ iod.iod_prevR n

/-! ## Register dispatch -/

/-- The register index `fw_doIO` decodes from the pending I/O address (the
`uint8 reg` local). -/
def decodeReg (k : Defs) (iod : IO_DEVICE) (IOQreg : Nat) : Nat :=
  if iod.iod_flags &&& DEVICE_DC != 0 then
    (((((IOQreg &&& k.IO_W : Nat) : Int) - (iod.iod_dcbase : Int)) >>> (11 : Nat)) % 256).toNat
  else u8 (IOQreg &&& iod.iod_rmask)

/-- The `uint8 rej` local of the dispatch functions: the static rejection bitmap
of the direction, without the bit of register 1. -/
def rejmap (iod : IO_DEVICE) (output : Bool) : Nat :=
  u8 ((if output then iod.iod_rejmapW else iod.iod_rejmapR) &&& cnot MASK_REGISTER1)

/-- The calls made by the dynamic reject check of a dispatch. -/
def rejectCalls (cb : Backend) (s : IOState) (output : Bool) (reg : Nat) : List Call :=
  match cb.iod_reject with
  | some _ => [Call.reject s output reg]
  | none => []

/-- The answer of the dynamic reject check (`false` without a callback). -/
def rejectCheck (cb : Backend) (s : IOState) (output : Bool) (reg : Nat) : Bool :=
  match cb.iod_reject with
  | some f => f s output reg
  | none => false

/-- The part of `fw_doIO` after the address check and the static rejection check
(from the dynamic reject check to the end), for register index `reg`. -/
def ioDispatch (cb : Backend) (s : IOState) (output : Bool) (reg : Nat) :
    Except Fault Result :=
  let iod := s.iod
  if rejectCheck cb s output reg then
    .ok { status := IOstatus.IO_REJECT, s := s, calls := rejectCalls cb s output reg }
  else if output then do
    let old ← bankGet iod.iod_writeR reg
    let prevR ← bankSet iod.iod_prevR reg old
    let writeR ← bankSet iod.iod_writeR reg s.Areg
    let s1 : IOState := { s with iod := { iod with iod_prevR := prevR, iod_writeR := writeR } }
    match cb.iod_IOwrite with
    | none => .error Fault.nullCall
    | some w =>
      .ok { status := (w s1 reg).1, s := (w s1 reg).2,
            calls := rejectCalls cb s output reg ++ [Call.IOwrite s1 reg] }
  else if iod.iod_readmap &&& (1 <<< reg) != 0 then do
    let v ← bankGet iod.iod_readR reg
    .ok { status := IOstatus.IO_REPLY, s := { s with Areg := v },
          calls := rejectCalls cb s output reg }
  else
    match cb.iod_IOread with
    | none => .error Fault.nullCall
    | some r =>
      .ok { status := (r s reg).1, s := (r s reg).2,
            calls := rejectCalls cb s output reg ++ [Call.IOread s reg] }

/-- Perform I/O operation - called directly from the IN/OUT instruction
processing.  `s.iod` is the descriptor `dptr->ctxt`. -/
def fw_doIO (k : Defs) (cb : Backend) (s : IOState) (output : Bool) :
    Except Fault Result :=
  let iod := s.iod
  let rej := rejmap iod output
  let reg := decodeReg k iod s.IOQreg
  if reg ≥ iod.iod_regs then
    .ok { status := IOstatus.IO_REJECT, s := s, calls := [] }
  else if rej &&& (1 <<< reg) != 0 then
    .ok { status := IOstatus.IO_REJECT, s := s, calls := [] }
  else ioDispatch cb s output reg

/-- The calls of the state-dump hook of `fw_doBDCIO` at one of its three places. -/
def stateCalls (k : Defs) (cb : Backend) (dptr : DEVICE) (label : String) (s : IOState) :
    List Call :=
  if dptr.dctrl &&& k.DBG_DSTATE != 0 then
    if cb.iod_state then [Call.state label s] else []
  else []

/-- The part of `fw_doBDCIO` after the address check and the static rejection
check (from the dynamic reject check to the end); `s0` is the state after
`IOAreg = *data`. -/
def bdcDispatch (k : Defs) (cb : Backend) (dptr : DEVICE) (s0 : IOState) (data : Nat)
    (output : Bool) (reg : Nat) : Except Fault BDCResult :=
  let iod := s0.iod
  if rejectCheck cb s0 output reg then
    .ok { status := IOstatus.IO_REJECT, s := s0, data := data,
          calls := rejectCalls cb s0 output reg }
  else
    let c0 := rejectCalls cb s0 output reg ++ stateCalls k cb dptr "before BDC I/O" s0
    if output then do
      let old ← bankGet iod.iod_writeR reg
      let prevR ← bankSet iod.iod_prevR reg old
      let writeR ← bankSet iod.iod_writeR reg data
      let s1 : IOState := { s0 with iod := { iod with iod_prevR := prevR, iod_writeR := writeR } }
      match cb.iod_BDCwrite with
      | none => .error Fault.nullCall
      | some w =>
        .ok { status := (w s1 data reg).1, s := (w s1 data reg).2.1, data := (w s1 data reg).2.2,
              calls := c0 ++ [Call.BDCwrite s1 data reg] ++
                stateCalls k cb dptr "after BDC I/O" (w s1 data reg).2.1 }
    else if iod.iod_readmap &&& (1 <<< reg) != 0 then do
      let v ← bankGet iod.iod_readR reg
      .ok { status := IOstatus.IO_REPLY, s := s0, data := v,
            calls := c0 ++ stateCalls k cb dptr "after cached BDC I/O" s0 }
    else
      match cb.iod_BDCread with
      | none => .error Fault.nullCall
      | some rd =>
        .ok { status := (rd s0 data reg).1, s := (rd s0 data reg).2.1, data := (rd s0 data reg).2.2,
              calls := c0 ++ [Call.BDCread s0 data reg] ++
                stateCalls k cb dptr "after BDC I/O" (rd s0 data reg).2.1 }

/-- Perform I/O operation - called from the buffered data channel controller.
`s.iod` is the descriptor, `dptr` the device `iod->iod_indev` points to, `data`
the contents of the caller's data slot. -/
def fw_doBDCIO (k : Defs) (cb : Backend) (dptr : DEVICE) (s : IOState) (data : Nat)
    (output : Bool) (reg : Nat) : Except Fault BDCResult :=
  let iod := s.iod
  let rej := rejmap iod output
  let s0 : IOState := { s with IOAreg := data }
  if reg ≥ iod.iod_regs then
    .ok { status := IOstatus.IO_REJECT, s := s0, data := data, calls := [] }
  else if rej &&& (1 <<< reg) != 0 then
    .ok { status := IOstatus.IO_REJECT, s := s0, data := data, calls := [] }
  else bdcDispatch k cb dptr s0 data output reg

/-! ## Interrupt status aggregation -/

/-- The standard interrupt condition of `fw_IOintr`: an enabled standard
interrupt (ALARM, EOP, DATA) whose status bit is set. -/
def stdIntr (k : Defs) (iod : IO_DEVICE) : Bool :=
  (ISENABLED iod k.IO_DIR_ALARM && (DEVSTATUS iod &&& k.IO_ST_ALARM != 0)) ||
  (ISENABLED iod k.IO_DIR_EOP && (DEVSTATUS iod &&& k.IO_ST_EOP != 0)) ||
  (ISENABLED iod k.IO_DIR_DATA && (DEVSTATUS iod &&& k.IO_ST_DATA != 0))

/-- The device-specific interrupt check of `fw_IOintr`: asked only when `other`
is set and the callback exists. -/
def otherIntr (cb : Backend) (other : Bool) (iod : IO_DEVICE) : Bool :=
  if other then
    match cb.iod_intr with
    | some f => f iod
    | none => false
  else false

/-- The calls made by the device-specific interrupt check. -/
def otherCalls (cb : Backend) (other : Bool) (iod : IO_DEVICE) : List Call :=
  if other then
    match cb.iod_intr with
    | some _ => [Call.intr iod]
    | none => []
  else []

/-- The descriptor after the first three statements of `fw_IOintr`: the requested
status bits cleared and set, the result masked. -/
def intrStatus (k : Defs) (iod : IO_DEVICE) (set clr mask : Nat) : IO_DEVICE :=
  let iod1 := setDEVSTATUS iod (u16 (DEVSTATUS iod &&& cnot (clr ||| k.IO_ST_INT)))
  let iod2 := setDEVSTATUS iod1 (u16 (DEVSTATUS iod1 ||| (set ||| iod1.iod_forced)))
  setDEVSTATUS iod2 (u16 (DEVSTATUS iod2 &&& (mask &&& iod2.iod_smask)))

/-- Set and clear status bits and keep the single active interrupt flag
`IO_ST_INT` in step with the enabled interrupt sources.  `why` is `none` for a
`NULL` reason. -/
def fw_IOintr (k : Defs) (cb : Backend) (other : Bool) (dev : DEVICE) (iod : IO_DEVICE)
    (set clr mask : Nat) (why : Option String) : IO_DEVICE × List Call :=
  let iod3 := intrStatus k iod set clr mask
  let c0 := [Call.rebuildPending iod3]
  if ISENABLED iod3 iod3.iod_imask then
    let intr := stdIntr k iod3 || otherIntr cb other iod3
    let c1 := c0 ++ otherCalls cb other iod3
    if intr then
      let iod4 := setDEVSTATUS iod3 (u16 (DEVSTATUS iod3 ||| k.IO_ST_INT))
      match why with
      | some w =>
        (iod4, c1 ++ (if dev.dctrl &&& k.DBG_DINTR != 0 then [Call.fprintf w iod4] else []) ++
          [Call.RaiseExternalInterrupt iod4])
      | none => (iod4, c1 ++ [Call.rebuildPending iod4])
    else (iod3, c1)
  else (iod3, c0)

/-- Devices which use `IO_ST_DATA` to signal end of processing: I/O underway. -/
def fw_IOunderwayData (k : Defs) (iod : IO_DEVICE) (clr : Nat) : IO_DEVICE :=
  let iod1 := setDEVSTATUS iod
    (u16 (DEVSTATUS iod &&& cnot (clr ||| k.IO_ST_READY ||| k.IO_ST_DATA)))
  let iod2 := setDEVSTATUS iod1 (u16 (DEVSTATUS iod1 ||| k.IO_ST_BUSY))
  let iod3 := setDEVSTATUS iod2 (u16 (DEVSTATUS iod2 ||| iod2.iod_forced))
  setDEVSTATUS iod3 (u16 (DEVSTATUS iod3 &&& iod3.iod_smask))

/-- Devices which use `IO_ST_DATA` to signal end of processing: I/O complete. -/
def fw_IOcompleteData (k : Defs) (cb : Backend) (other : Bool) (dev : DEVICE)
    (iod : IO_DEVICE) (mask : Nat) (why : Option String) : IO_DEVICE × List Call :=
  fw_IOintr k cb other dev iod (k.IO_ST_READY ||| k.IO_ST_DATA) k.IO_ST_BUSY mask why

/-- Devices which use `IO_ST_EOP` to signal end of processing: I/O underway. -/
def fw_IOunderwayEOP (k : Defs) (iod : IO_DEVICE) (clr : Nat) : IO_DEVICE :=
  let iod1 := setDEVSTATUS iod
    (u16 (DEVSTATUS iod &&& cnot (clr ||| k.IO_ST_READY ||| k.IO_ST_EOP)))
  let iod2 := setDEVSTATUS iod1 (u16 (DEVSTATUS iod1 ||| k.IO_ST_BUSY))
  let iod3 := setDEVSTATUS iod2 (u16 (DEVSTATUS iod2 ||| iod2.iod_forced))
  setDEVSTATUS iod3 (u16 (DEVSTATUS iod3 &&& iod3.iod_smask))

/-- Devices which use `IO_ST_EOP` to signal end of processing: I/O complete. -/
def fw_IOcompleteEOP (k : Defs) (cb : Backend) (other : Bool) (dev : DEVICE)
    (iod : IO_DEVICE) (mask : Nat) (why : Option String) : IO_DEVICE × List Call :=
  fw_IOintr k cb other dev iod (k.IO_ST_READY ||| k.IO_ST_EOP) k.IO_ST_BUSY mask why

/-- Devices which use `IO_ST_EOP` to signal end of processing, but do not drop
`IO_ST_READY` while I/O is in progress: I/O underway. -/
def fw_IOunderwayEOP2 (k : Defs) (iod : IO_DEVICE) (clr : Nat) : IO_DEVICE :=
  let iod1 := setDEVSTATUS iod (u16 (DEVSTATUS iod &&& cnot (clr ||| k.IO_ST_EOP)))
  let iod2 := setDEVSTATUS iod1 (u16 (DEVSTATUS iod1 ||| k.IO_ST_BUSY))
  let iod3 := setDEVSTATUS iod2 (u16 (DEVSTATUS iod2 ||| iod2.iod_forced))
  setDEVSTATUS iod3 (u16 (DEVSTATUS iod3 &&& iod3.iod_smask))

/-- Devices which use `IO_ST_EOP` to signal end of processing, but do not drop
`IO_ST_READY` while I/O is in progress: I/O complete. -/
def fw_IOcompleteEOP2 (k : Defs) (cb : Backend) (other : Bool) (dev : DEVICE)
    (iod : IO_DEVICE) (mask : Nat) (why : Option String) : IO_DEVICE × List Call :=
  fw_IOintr k cb other dev iod k.IO_ST_EOP k.IO_ST_BUSY mask why

/-- Raise the alarm status. -/
def fw_IOalarm (k : Defs) (cb : Backend) (other : Bool) (dev : DEVICE)
    (iod : IO_DEVICE) (why : Option String) : IO_DEVICE × List Call :=
  fw_IOintr k cb other dev iod k.IO_ST_ALARM k.IO_ST_BUSY 0xFFFF why

/-! ## Forced status bits -/

/-- Force status bits to 1. -/
def fw_setForced (iod : IO_DEVICE) (mask : Nat) : IO_DEVICE :=
  let iod1 := { iod with iod_forced := u16 (iod.iod_forced ||| mask) }
  setDEVSTATUS iod1 (u16 (DEVSTATUS iod1 ||| (mask &&& iod1.iod_smask)))

/-- Stop forcing status bits. -/
def fw_clearForced (iod : IO_DEVICE) (mask : Nat) : IO_DEVICE :=
  let iod1 := { iod with iod_forced := u16 (iod.iod_forced &&& cnot mask) }
  setDEVSTATUS iod1 (u16 (DEVSTATUS iod1 &&& cnot mask))

/-! ## Generic reject check -/

/-- Generic device reject check. If the device is not ready, reject all OUTs
unless it is to the director function register (register 1). -/
def fw_reject (k : Defs) (iod : IO_DEVICE) (output : Bool) (reg : Nat) : Bool :=
  if output && reg != 1 then
    DEVSTATUS iod &&& k.IO_ST_READY == 0
  else false

/-! ## Channel device locator -/

/-- The loop of `fw_findChanDevice` over the units of the owning device: `true`
when it reaches a unit whose `up8` is the context `ctxt`. -/
def scanUnits (ctxt : Option Nat) : List UNIT → Bool
  | [] => false
  | uptr :: rest => if uptr.up8 = ctxt then true else scanUnits ctxt rest

/-- Find a buffered data channel device which supports a specified I/O address.
`IOdev` is the device table indexed by equipment number ( `none` for a `NULL`
entry), `dptr` the device `iod->iod_indev` points to; the result is the pointer
`target->ctxt` returned, `none` for `NULL`. -/
def fw_findChanDevice (k : Defs) (IOdev : Nat → Option DEVICE) (dptr : DEVICE)
    (addr : Nat) : Option Nat :=
  match IOdev ((addr &&& k.IO_EQUIPMENT) >>> 7) with
  | some target => if scanUnits target.ctxt dptr.units then target.ctxt else none
  | none => none

/-! ## Once-only initialization -/

/-- The memory `fw_init` works on: the descriptors by address, and the flag
`IOFWinitialized`. -/
structure FWState where
  heap : Nat → IO_DEVICE
  IOFWinitialized : Bool

/-- The body of the loop of `fw_init` for the device `dptr`, entry `i` of
`sim_devices` (the pointer to the device is its index `i` ). -/
def fw_init_dev (k : Defs) (heap : Nat → IO_DEVICE) (i : Nat) (dptr : DEVICE) :
    Except Fault (Nat → IO_DEVICE) :=
  match dptr.ctxt with
  | none => .error Fault.nullDeref
  | some p =>
    let iod := heap p
    let interrupt := iod.iod_equip
    let iod1 := if dptr.flags &&& k.DEV_INDEV != 0 then { iod with iod_indev := some i } else iod
    let iod2 :=
      if dptr.flags &&& k.DEV_OUTDEV != 0 then { iod1 with iod_outdev := some i } else iod1
    .ok (Function.update heap p { iod2 with iod_interrupt := u16 (1 <<< interrupt) })

/-- The loop of `fw_init` over the entries of `sim_devices` from entry `i` on. -/
def fw_init_loop (k : Defs) : List DEVICE → Nat → (Nat → IO_DEVICE) →
    Except Fault (Nat → IO_DEVICE)
  | [], _, heap => .ok heap
  | dptr :: rest, i, heap =>
    match fw_init_dev k heap i dptr with
    | .error e => .error e
    | .ok heap1 => fw_init_loop k rest (i + 1) heap1

/-- Once-only initialization routine. `sim_devices` holds the entries of the
device table before its terminating `NULL`. -/
def fw_init (k : Defs) (sim_devices : List DEVICE) (st : FWState) :
    Except Fault (FWState × List Call) :=
  match fw_init_loop k sim_devices 0 st.heap with
  | .error e => .error e
  | .ok heap =>
    .ok ({ heap := heap, IOFWinitialized := true }, [Call.buildIOtable, Call.buildDCtables])

/-! ## Kinds of calls -/

/-- The call is an invocation of `rebuildPending`. -/
def Call.isRebuild : Call → Bool
  | Call.rebuildPending _ => true
  | _ => false

/-- The call is an invocation of the state dump `iod_state`. -/
def Call.isState : Call → Bool
  | Call.state _ _ => true
  | _ => false

/-- The call is an invocation of the dynamic reject check `iod_reject`. -/
def Call.isReject : Call → Bool
  | Call.reject _ _ _ => true
  | _ => false

/-- The call is an invocation of a backend read routine. -/
def Call.isRead : Call → Bool
  | Call.IOread _ _ => true
  | Call.BDCread _ _ _ => true
  | _ => false

/-- The call is an invocation of a backend write routine. -/
def Call.isWrite : Call → Bool
  | Call.IOwrite _ _ => true
  | Call.BDCwrite _ _ _ => true
  | _ => false

/-- What a buffered-channel dispatch leaves apart from the calls: the status,
the state and the data slot. -/
def BDCResult.outcome (r : BDCResult) : IOstatus × IOState × Nat :=
  (r.status, r.s, r.data)

/-! ## Sequences of status updates -/

/-- One framework operation on the status of a descriptor, with its arguments. -/
inductive Op where
  | IOintr (other : Bool) (set clr mask : Nat) (why : Option String)
  | IOcompleteData (other : Bool) (mask : Nat) (why : Option String)
  | IOcompleteEOP (other : Bool) (mask : Nat) (why : Option String)
  | IOcompleteEOP2 (other : Bool) (mask : Nat) (why : Option String)
  | IOalarm (other : Bool) (why : Option String)
  | IOunderwayData (clr : Nat)
  | IOunderwayEOP (clr : Nat)
  | IOunderwayEOP2 (clr : Nat)
  | setForced (mask : Nat)
  | clearForced (mask : Nat)

/-- The descriptor an operation leaves. -/
def applyOp (k : Defs) (cb : Backend) (dev : DEVICE) (iod : IO_DEVICE) : Op → IO_DEVICE
  | Op.IOintr other set clr mask why => (fw_IOintr k cb other dev iod set clr mask why).1
  | Op.IOcompleteData other mask why => (fw_IOcompleteData k cb other dev iod mask why).1
  | Op.IOcompleteEOP other mask why => (fw_IOcompleteEOP k cb other dev iod mask why).1
  | Op.IOcompleteEOP2 other mask why => (fw_IOcompleteEOP2 k cb other dev iod mask why).1
  | Op.IOalarm other why => (fw_IOalarm k cb other dev iod why).1
  | Op.IOunderwayData clr => fw_IOunderwayData k iod clr
  | Op.IOunderwayEOP clr => fw_IOunderwayEOP k iod clr
  | Op.IOunderwayEOP2 clr => fw_IOunderwayEOP2 k iod clr
  | Op.setForced mask => fw_setForced iod mask
  | Op.clearForced mask => fw_clearForced iod mask

/-- The descriptor a sequence of operations leaves, the first of the list first. -/
def applyOps (k : Defs) (cb : Backend) (dev : DEVICE) (iod : IO_DEVICE) (ops : List Op) :
    IO_DEVICE :=
  ops.foldl (applyOp k cb dev) iod

/-- Bit `b` is in the keep mask of the operation, where it takes one, and is not
asked to be unforced: `fw_IOalarm` keeps all sixteen bits, the underway policies
and `fw_setForced` take no keep mask. -/
def Op.keeps (b : Nat) : Op → Bool
  | Op.IOintr _ _ _ mask _ => mask.testBit b
  | Op.IOcompleteData _ mask _ => mask.testBit b
  | Op.IOcompleteEOP _ mask _ => mask.testBit b
  | Op.IOcompleteEOP2 _ mask _ => mask.testBit b
  | Op.IOalarm _ _ => true
  | Op.IOunderwayData _ => true
  | Op.IOunderwayEOP _ => true
  | Op.IOunderwayEOP2 _ => true
  | Op.setForced _ => true
  | Op.clearForced mask => !mask.testBit b

/-- The call is an invocation of `RaiseExternalInterrupt`. -/
def Call.isRaise : Call → Bool
  | Call.RaiseExternalInterrupt _ => true
  | _ => false

/-- The standard status constants are non-empty, pairwise disjoint sets of bits of
a 16-bit word, and the standard director constants are non-empty. -/
structure Defs.WF (k : Defs) : Prop where
  alarm_pos : 0 < k.IO_ST_ALARM
  alarm_lt : k.IO_ST_ALARM < 65536
  eop_pos : 0 < k.IO_ST_EOP
  eop_lt : k.IO_ST_EOP < 65536
  data_pos : 0 < k.IO_ST_DATA
  data_lt : k.IO_ST_DATA < 65536
  int_pos : 0 < k.IO_ST_INT
  int_lt : k.IO_ST_INT < 65536
  busy_pos : 0 < k.IO_ST_BUSY
  busy_lt : k.IO_ST_BUSY < 65536
  ready_pos : 0 < k.IO_ST_READY
  ready_lt : k.IO_ST_READY < 65536
  disjoint : List.Pairwise (fun a b => a &&& b = 0)
    [k.IO_ST_ALARM, k.IO_ST_EOP, k.IO_ST_DATA, k.IO_ST_INT, k.IO_ST_BUSY, k.IO_ST_READY]
  dir_alarm_pos : 0 < k.IO_DIR_ALARM
  dir_eop_pos : 0 < k.IO_DIR_EOP
  dir_data_pos : 0 < k.IO_DIR_DATA

/-- No status bit is set outside the descriptor's valid-status mask:
`DEVSTATUS(iod) & ~iod_smask == 0`. -/
def validStatus (iod : IO_DEVICE) : Prop :=
  DEVSTATUS iod &&& cnot iod.iod_smask = 0

/-- No status bit other than those of `extra` is set outside the descriptor's
valid-status mask: `DEVSTATUS(iod) & ~(iod_smask | extra) == 0`. -/
def validStatusBut (extra : Nat) (iod : IO_DEVICE) : Prop :=
  DEVSTATUS iod &&& cnot (iod.iod_smask ||| extra) = 0

/-- The forced bit `b` is a valid status bit, is forced, and is set in the status. -/
def forcedInv (b : Nat) (iod : IO_DEVICE) : Prop :=
  iod.iod_forced.testBit b = true ∧ iod.iod_smask.testBit b = true ∧
    (DEVSTATUS iod).testBit b = true

instance (iod : IO_DEVICE) : Decidable (validStatus iod) := by
  unfold validStatus
  infer_instance

instance (extra : Nat) (iod : IO_DEVICE) : Decidable (validStatusBut extra iod) := by
  unfold validStatusBut
  infer_instance

instance (b : Nat) (iod : IO_DEVICE) : Decidable (forcedInv b iod) := by
  unfold forcedInv
  infer_instance

/-- The descriptor a write of `v` to register `r` hands to the backend: the
statements `iod_prevR[reg] = iod_writeR[reg]; iod_writeR[reg] = v;`. -/
def storeWrite (iod : IO_DEVICE) (r : Fin 8) (v : Nat) : IO_DEVICE :=
  { iod with
    iod_prevR := Function.update iod.iod_prevR r (iod.iod_writeR r),
    iod_writeR := Function.update iod.iod_writeR r v }

/-! ## Sample data -/

/-- A sample descriptor: two registers, register 0 read from the framework,
every status bit valid, the data interrupt enabled, status `IO_ST_BUSY`. -/
def exIod : IO_DEVICE where
  iod_equip := 1
  iod_station := 0
  iod_interrupt := 2
  iod_dcbase := 0
  iod_indev := some 0
  iod_outdev := some 0
  iod_ienable := 0x0004
  iod_oldienable := 0
  iod_imask := 0x001C
  iod_dmask := 0x007F
  iod_smask := 0xFFFF
  iod_cmask := 0x0038
  iod_rmask := 0x00FF
  iod_regs := 2
  iod_validmask := 0x03
  iod_readmap := 0x01
  iod_rejmapR := 0
  iod_rejmapW := 0
  iod_flags := 0
  iod_dc := 0
  iod_readR := fun i => if i = 1 then 0x0002 else 0x00AA
  iod_writeR := fun _ => 0x0055
  iod_prevR := fun _ => 0
  iod_forced := 0

/-- A sample backend: no reject check, read and write routines that reply and
leave the state as it is, a state dump, no interrupt check. -/
def exBackend : Backend where
  iod_reject := none
  iod_IOread := some (fun s _ => (IOstatus.IO_REPLY, s))
  iod_IOwrite := some (fun s _ => (IOstatus.IO_REPLY, s))
  iod_BDCread := some (fun s d _ => (IOstatus.IO_REPLY, s, d))
  iod_BDCwrite := some (fun s d _ => (IOstatus.IO_REPLY, s, d))
  iod_state := true
  iod_intr := none

/-- A sample state: descriptor `iod`, pending I/O address `q`. -/
def exState (iod : IO_DEVICE) (q : Nat) : IOState where
  iod := iod
  Areg := 0x1234
  IOAreg := 0
  IOQreg := q

/-- A sample device with the debug flags `dctrl`. -/
def exDev (dctrl : Nat) : DEVICE where
  name := "DEV"
  flags := 0
  dctrl := dctrl
  ctxt := some 0
  units := []

/-- The sample descriptor declared with nine registers, one more than a register
bank holds. -/
def exIod9 : IO_DEVICE := { exIod with iod_regs := 9 }

/-- The sample descriptor with the bit of register 1 set in both static rejection
bitmaps. -/
def exIodRej : IO_DEVICE := { exIod with iod_rejmapR := 0x02, iod_rejmapW := 0x02 }

/-- The sample descriptor with no interrupt enabled and status 0. -/
def exIodOff : IO_DEVICE := { exIod with iod_ienable := 0, iod_readR := fun _ => 0 }

/-- The sample descriptor with the data interrupt enabled but no interrupt valid
( `iod_imask = 0` ), status 0. -/
def exIodNoMask : IO_DEVICE := { exIod with iod_imask := 0, iod_readR := fun _ => 0 }

/-- The sample backend with an interrupt check that always reports an interrupt. -/
def exBackendIntr : Backend := { exBackend with iod_intr := some (fun _ => true) }

/-- The sample descriptor with `IO_ST_DATA` as its only valid status bit (so
`IO_ST_INT` is not a valid status bit), status 0. -/
def exIodData : IO_DEVICE := { exIod with iod_smask := 0x0008, iod_readR := fun _ => 0 }

/-- The sample descriptor with the low byte as valid status bits and a status
that has bit 15 set. -/
def exIodHigh : IO_DEVICE := { exIod with iod_smask := 0x00FF, iod_readR := fun _ => 0x8000 }

/-- The sample descriptor without `IO_ST_READY` (bit 0) among its valid status
bits. -/
def exIodNoReady : IO_DEVICE := { exIod with iod_smask := 0xFFFE }

/-- The sample descriptor with only the alarm interrupt enabled (status
`IO_ST_BUSY`, the data interrupt not enabled). -/
def exIodAlarm : IO_DEVICE := { exIod with iod_ienable := 0x0010 }

/-- The sample descriptor with the data and alarm interrupts enabled and only the
alarm interrupt valid in `iod_imask` (status `IO_ST_BUSY` ). -/
def exIodMasked : IO_DEVICE := { exIod with iod_ienable := 0x0014, iod_imask := 0x0010 }

/-- The sample descriptor with no interrupt enabled (status `IO_ST_BUSY` ). -/
def exIodQuiet : IO_DEVICE := { exIod with iod_ienable := 0 }

/-- A sample context pointer: the descriptor of the target device. -/
def exCtxt : Nat := 7

/-- A sample target device, whose context is `exCtxt`. -/
def exTarget : DEVICE where
  name := "TGT"
  flags := 0
  dctrl := 0
  ctxt := some exCtxt
  units := []

/-- A sample device table: the target device at equipment number 3, no other
entry. -/
def exIOdev (equip : Nat) : Option DEVICE :=
  if equip = 3 then some exTarget else none

/-- A sample owning device with the units `units`. -/
def exOwner (units : List UNIT) : DEVICE where
  name := "DC"
  flags := 0
  dctrl := 0
  ctxt := some 0
  units := units

/-- A sample entry of `sim_devices`: a device with the device flags `flags` whose
context is the descriptor at address `ctxt`. -/
def exSimDev (flags ctxt : Nat) : DEVICE where
  name := "DEV"
  flags := flags
  dctrl := 0
  ctxt := some ctxt
  units := []

/-- The sample descriptor with equipment number 16. -/
def exIod16 : IO_DEVICE := { exIod with iod_equip := 16 }

/-- A sample memory before initialization: the descriptor `iod` at every address,
`IOFWinitialized` false. -/
def exFW (iod : IO_DEVICE) : FWState where
  heap := fun _ => iod
  IOFWinitialized := false

/-- The sample descriptor with `IO_ST_READY` forced (status `IO_ST_BUSY` ). -/
def exIodForcedReady : IO_DEVICE := { exIod with iod_forced := 0x0001 }

/-- The sample descriptor without `IO_ST_BUSY` (bit 1) among its valid status
bits. -/
def exIodNoBusy : IO_DEVICE := { exIod with iod_smask := 0xFFFD }

/-- The sample backend with an interrupt check for "ready and not busy". -/
def exBackendReady : Backend :=
  { exBackend with iod_intr := some (fun iod => DEVSTATUS iod &&& 0x0003 == 0x0001) }

/-- The sample backend with the generic reject check `fw_reject` as its dynamic
reject check. -/
def exBackendReject : Backend :=
  { exBackend with iod_reject := some (fun s output reg => fw_reject cdc1700_defs s.iod output reg) }

/-- The sample descriptor with a register mask of sixteen bits. -/
def exIodWide : IO_DEVICE := { exIod with iod_rmask := 0xFFFF }

/-- A sample buffered data channel descriptor: channel base `0x1000`, 255
registers declared, no register read from the framework. -/
def exIodDC : IO_DEVICE :=
  { exIod with iod_flags := 0x02, iod_dcbase := 0x1000, iod_regs := 255, iod_readmap := 0 }

/-- A sample buffered data channel descriptor with two registers and channel base
`0x1000`. -/
def exIodDC2 : IO_DEVICE := { exIod with iod_flags := 0x02, iod_dcbase := 0x1000 }

/-! ## Bit-level lemmas -/

theorem testBit_u16 (x i : Nat) : (u16 x).testBit i = (decide (i < 16) && x.testBit i) := by
  have h : (65536 : Nat) = 2 ^ 16 := by norm_num
  unfold u16
  rw [h, Nat.testBit_mod_two_pow]

theorem testBit_cnot (m i : Nat) : (cnot m).testBit i = (decide (i < 32) ^^ m.testBit i) := by
  have h : (0xFFFFFFFF : Nat) = 2 ^ 32 - 1 := by norm_num
  unfold cnot
  rw [h, Nat.testBit_xor, Nat.testBit_two_pow_sub_one]

theorem ne_zero_iff_testBit (x : Nat) : x ≠ 0 ↔ ∃ i, x.testBit i = true := by
  constructor
  · exact Nat.ne_zero_implies_bit_true
  · rintro ⟨i, hi⟩ h
    simp [h] at hi

theorem eq_zero_iff_testBit (x : Nat) : x = 0 ↔ ∀ i, x.testBit i = false := by
  constructor
  · intro h i
    simp [h]
  · intro h
    apply Nat.eq_of_testBit_eq
    intro i
    simp [h i]

theorem testBit_lt_16 {x i : Nat} (hx : x < 65536) (h : x.testBit i = true) : i < 16 := by
  by_contra hi
  have h2 : x < 2 ^ i := lt_of_lt_of_le hx
    (by
      have : (65536 : Nat) = 2 ^ 16 := by norm_num
      rw [this]
      exact Nat.pow_le_pow_right (by norm_num) (by omega))
  rw [Nat.testBit_lt_two_pow h2] at h
  exact Bool.noConfusion h

theorem u16_of_lt {x : Nat} (hx : x < 65536) : u16 x = x := Nat.mod_eq_of_lt hx

theorem testBit_u8 (x i : Nat) : (u8 x).testBit i = (decide (i < 8) && x.testBit i) := by
  have h : (256 : Nat) = 2 ^ 8 := by norm_num
  unfold u8
  rw [h, Nat.testBit_mod_two_pow]

theorem testBit_two (i : Nat) : (2 : Nat).testBit i = decide (1 = i) := by
  have h : (2 : Nat) = 2 ^ 1 := by norm_num
  rw [h, Nat.testBit_two_pow]

theorem rejmap_register1 (iod : IO_DEVICE) (output : Bool) :
    rejmap iod output &&& (1 <<< 1) = 0 := by
  rw [eq_zero_iff_testBit]
  intro i
  have h : (1 <<< 1 : Nat) = 2 := by decide
  rw [h]
  simp only [rejmap, MASK_REGISTER1, Nat.testBit_and, testBit_u8, testBit_cnot, testBit_two]
  by_cases hi : 1 = i
  · subst hi
    simp
  · simp [hi]

/-! ## Register dispatch: address check -/

theorem fw_doIO_reject_of_le (k : Defs) (cb : Backend) (s : IOState) (output : Bool)
    (h : s.iod.iod_regs ≤ decodeReg k s.iod s.IOQreg) :
    fw_doIO k cb s output = .ok { status := IOstatus.IO_REJECT, s := s, calls := [] } := by
  unfold fw_doIO
  simp only [ge_iff_le, h, if_true]

theorem fw_doBDCIO_reject_of_le (k : Defs) (cb : Backend) (dptr : DEVICE) (s : IOState)
    (data : Nat) (output : Bool) (reg : Nat) (h : s.iod.iod_regs ≤ reg) :
    fw_doBDCIO k cb dptr s data output reg =
      .ok { status := IOstatus.IO_REJECT, s := { s with IOAreg := data },
            data := data, calls := [] } := by
  unfold fw_doBDCIO
  simp only [ge_iff_le, h, if_true]

/-- C1. An access whose register index is not below `iod_regs` is rejected by
both dispatch paths ( `fw_doIO` with the index it decodes, `fw_doBDCIO` with the
index it is given): the status is `IO_REJECT`, no callback is invoked (the call
list is empty) and the descriptor, with its three register banks, is the one the
call started with. -/
theorem fw_dispatch_reject_out_of_range (k : Defs) (cb : Backend) (dptr : DEVICE)
    (s : IOState) (data : Nat) (output : Bool) (reg : Nat) :
    (s.iod.iod_regs ≤ decodeReg k s.iod s.IOQreg →
      fw_doIO k cb s output =
        .ok { status := IOstatus.IO_REJECT, s := s, calls := [] }) ∧
    (s.iod.iod_regs ≤ reg →
      fw_doBDCIO k cb dptr s data output reg =
        .ok { status := IOstatus.IO_REJECT, s := { s with IOAreg := data },
              data := data, calls := [] }) := by
  exact ⟨fw_doIO_reject_of_le k cb s output, fw_doBDCIO_reject_of_le k cb dptr s data output reg⟩

/-- Witness of C1: the sample descriptor has two registers; address 5 decodes to
register 5, and the channel asks for register 2. -/
theorem fw_dispatch_reject_out_of_range_witness :
    (exIod.iod_regs ≤ decodeReg cdc1700_defs exIod 5 ∧
      fw_doIO cdc1700_defs exBackend (exState exIod 5) true =
        .ok { status := IOstatus.IO_REJECT, s := exState exIod 5, calls := [] }) ∧
    (exIod.iod_regs ≤ 2 ∧
      fw_doBDCIO cdc1700_defs exBackend (exDev 2) (exState exIod 5) 7 false 2 =
        .ok { status := IOstatus.IO_REJECT, s := { exState exIod 5 with IOAreg := 7 },
              data := 7, calls := [] }) :=
  ⟨⟨by decide, (fw_dispatch_reject_out_of_range cdc1700_defs exBackend (exDev 2)
      (exState exIod 5) 7 true 2).1 (by decide)⟩,
   ⟨by decide, (fw_dispatch_reject_out_of_range cdc1700_defs exBackend (exDev 2)
      (exState exIod 5) 7 false 2).2 (by decide)⟩⟩

/-! ## Register dispatch: bank indices -/

theorem ioDispatch_no_overrun (cb : Backend) (s : IOState) (output : Bool) (reg : Nat)
    (h : reg < 8) : ioDispatch cb s output reg ≠ .error Fault.outOfBounds := by
  unfold ioDispatch
  simp only [bankGet, bankSet, h, dite_true, bind, Except.bind]
  split_ifs
  · simp
  · cases cb.iod_IOwrite <;> simp
  · simp
  · cases cb.iod_IOread <;> simp

theorem bdcDispatch_no_overrun (k : Defs) (cb : Backend) (dptr : DEVICE) (s : IOState)
    (data : Nat) (output : Bool) (reg : Nat) (h : reg < 8) :
    bdcDispatch k cb dptr s data output reg ≠ .error Fault.outOfBounds := by
  unfold bdcDispatch
  simp only [bankGet, bankSet, h, dite_true, bind, Except.bind]
  split_ifs
  · simp
  · cases cb.iod_BDCwrite <;> simp
  · simp
  · cases cb.iod_BDCread <;> simp

/-- C2 as stated fails: a descriptor declaring nine registers passes the address
check for register index 8, and the write then stores into `iod_prevR[8]` and
`iod_writeR[8]`, outside the banks of eight, instead of answering `IO_REJECT`
(direct and buffered-channel dispatch alike). -/
theorem fw_dispatch_bank_overrun :
    decodeReg cdc1700_defs exIod9 8 = 8 ∧
    fw_doIO cdc1700_defs exBackend (exState exIod9 8) true = .error Fault.outOfBounds ∧
    fw_doBDCIO cdc1700_defs exBackend (exDev 0) (exState exIod9 8) 0 true 8 =
      .error Fault.outOfBounds := by
  refine ⟨by decide, ?_, ?_⟩
  · rfl
  · rfl

/-- C2, amended. For a descriptor with `iod_regs ≤ 8`, no dispatch indexes a
register bank outside its eight elements (neither `fw_doIO` nor `fw_doBDCIO` ends
in an out-of-bounds fault), and a register index of 8 or more is answered with
`IO_REJECT`, without any call and with the descriptor untouched. -/
theorem fw_dispatch_bank_index_in_range (k : Defs) (cb : Backend) (dptr : DEVICE)
    (s : IOState) (data : Nat) (output : Bool) (reg : Nat) (h : s.iod.iod_regs ≤ 8) :
    fw_doIO k cb s output ≠ .error Fault.outOfBounds ∧
    fw_doBDCIO k cb dptr s data output reg ≠ .error Fault.outOfBounds ∧
    (8 ≤ decodeReg k s.iod s.IOQreg →
      fw_doIO k cb s output =
        .ok { status := IOstatus.IO_REJECT, s := s, calls := [] }) ∧
    (8 ≤ reg →
      fw_doBDCIO k cb dptr s data output reg =
        .ok { status := IOstatus.IO_REJECT, s := { s with IOAreg := data },
              data := data, calls := [] }) := by
  refine ⟨?_, ?_, ?_, ?_⟩
  · unfold fw_doIO
    by_cases h1 : decodeReg k s.iod s.IOQreg ≥ s.iod.iod_regs
    · simp only [h1, if_true]
      simp
    · simp only [h1, if_false]
      split_ifs
      · simp
      · exact ioDispatch_no_overrun cb s output _ (by omega)
  · unfold fw_doBDCIO
    by_cases h1 : reg ≥ s.iod.iod_regs
    · simp only [h1, if_true]
      simp
    · simp only [h1, if_false]
      split_ifs
      · simp
      · exact bdcDispatch_no_overrun k cb dptr _ data output reg (by omega)
  · intro h8
    exact fw_doIO_reject_of_le k cb s output (le_trans h h8)
  · intro h8
    exact fw_doBDCIO_reject_of_le k cb dptr s data output reg (le_trans h h8)

/-- Witness of C2 (amended): the sample descriptor has two registers; address 9
decodes to register 9, and the channel asks for register 8. -/
theorem fw_dispatch_bank_index_in_range_witness :
    exIod.iod_regs ≤ 8 ∧ 8 ≤ decodeReg cdc1700_defs exIod 9 ∧
    fw_doIO cdc1700_defs exBackend (exState exIod 9) true ≠ .error Fault.outOfBounds ∧
    fw_doBDCIO cdc1700_defs exBackend (exDev 0) (exState exIod 9) 3 true 8 ≠
      .error Fault.outOfBounds ∧
    fw_doIO cdc1700_defs exBackend (exState exIod 9) true =
      .ok { status := IOstatus.IO_REJECT, s := exState exIod 9, calls := [] } ∧
    fw_doBDCIO cdc1700_defs exBackend (exDev 0) (exState exIod 9) 3 true 8 =
      .ok { status := IOstatus.IO_REJECT, s := { exState exIod 9 with IOAreg := 3 },
            data := 3, calls := [] } :=
  have w := fw_dispatch_bank_index_in_range cdc1700_defs exBackend (exDev 0)
    (exState exIod 9) 3 true 8 (by decide)
  ⟨by decide, by decide, w.1, w.2.1, w.2.2.1 (by decide), w.2.2.2 (by decide)⟩

/-! ## Register dispatch: the function/status register -/

theorem ioDispatch_reject_calls (cb : Backend) (s : IOState) (output : Bool) (reg : Nat)
    (r : Result) (h : ioDispatch cb s output reg = .ok r)
    (hr : r.status = IOstatus.IO_REJECT) : r.calls ≠ [] := by
  unfold ioDispatch at h
  by_cases hc : rejectCheck cb s output reg = true
  · simp only [hc, if_true, Except.ok.injEq] at h
    subst h
    unfold rejectCheck at hc
    unfold rejectCalls
    cases hf : cb.iod_reject with
    | none => simp [hf] at hc
    | some f => simp
  · simp only [hc, Bool.false_eq_true, if_false] at h
    by_cases ho : output = true
    · simp only [ho, if_true, bankGet, bankSet, bind, Except.bind] at h
      by_cases h8 : reg < 8
      · simp only [h8, dite_true] at h
        cases hw : cb.iod_IOwrite with
        | none => simp [hw] at h
        | some w =>
          simp only [hw, Except.ok.injEq] at h
          subst h
          simp
      · simp [h8] at h
    · simp only [ho, Bool.false_eq_true, if_false] at h
      by_cases hm : (s.iod.iod_readmap &&& (1 <<< reg) != 0) = true
      · simp only [hm, if_true, bankGet, bind, Except.bind] at h
        by_cases h8 : reg < 8
        · simp only [h8, dite_true, Except.ok.injEq] at h
          subst h
          simp at hr
        · simp [h8] at h
      · simp only [hm, Bool.false_eq_true, if_false] at h
        cases hw : cb.iod_IOread with
        | none => simp [hw] at h
        | some w =>
          simp only [hw, Except.ok.injEq] at h
          subst h
          simp

theorem bdcDispatch_reject_calls (k : Defs) (cb : Backend) (dptr : DEVICE) (s : IOState)
    (data : Nat) (output : Bool) (reg : Nat) (r : BDCResult)
    (h : bdcDispatch k cb dptr s data output reg = .ok r)
    (hr : r.status = IOstatus.IO_REJECT) : r.calls ≠ [] := by
  unfold bdcDispatch at h
  by_cases hc : rejectCheck cb s output reg = true
  · simp only [hc, if_true, Except.ok.injEq] at h
    subst h
    unfold rejectCheck at hc
    unfold rejectCalls
    cases hf : cb.iod_reject with
    | none => simp [hf] at hc
    | some f => simp
  · simp only [hc, Bool.false_eq_true, if_false] at h
    by_cases ho : output = true
    · simp only [ho, if_true, bankGet, bankSet, bind, Except.bind] at h
      by_cases h8 : reg < 8
      · simp only [h8, dite_true] at h
        cases hw : cb.iod_BDCwrite with
        | none => simp [hw] at h
        | some w =>
          simp only [hw, Except.ok.injEq] at h
          subst h
          simp
      · simp [h8] at h
    · simp only [ho, Bool.false_eq_true, if_false] at h
      by_cases hm : (s.iod.iod_readmap &&& (1 <<< reg) != 0) = true
      · simp only [hm, if_true, bankGet, bind, Except.bind] at h
        by_cases h8 : reg < 8
        · simp only [h8, dite_true, Except.ok.injEq] at h
          subst h
          simp at hr
        · simp [h8] at h
      · simp only [hm, Bool.false_eq_true, if_false] at h
        cases hw : cb.iod_BDCread with
        | none => simp [hw] at h
        | some w =>
          simp only [hw, Except.ok.injEq] at h
          subst h
          simp

/-- C3. For a descriptor with `iod_regs > 1`, an access to register 1 is never
rejected by the static rejection bitmap, whatever `iod_rejmapR` / `iod_rejmapW`
hold: the bit of register 1 is never set in the bitmap the dispatch tests, so
both `fw_doIO` (when the address decodes to register 1) and `fw_doBDCIO` continue
with the dynamic reject check and the backend, exactly as `ioDispatch` /
`bdcDispatch` (which do not read the bitmaps) do; and when such an access is
answered `IO_REJECT`, a callback was invoked to decide it. -/
theorem fw_dispatch_register1_static_exempt (k : Defs) (cb : Backend) (dptr : DEVICE)
    (s : IOState) (data : Nat) (output : Bool) (h : 1 < s.iod.iod_regs) :
    rejmap s.iod output &&& (1 <<< 1) = 0 ∧
    (decodeReg k s.iod s.IOQreg = 1 →
      fw_doIO k cb s output = ioDispatch cb s output 1 ∧
      ∀ r, fw_doIO k cb s output = .ok r → r.status = IOstatus.IO_REJECT → r.calls ≠ []) ∧
    fw_doBDCIO k cb dptr s data output 1 =
      bdcDispatch k cb dptr { s with IOAreg := data } data output 1 ∧
    ∀ r, fw_doBDCIO k cb dptr s data output 1 = .ok r →
      r.status = IOstatus.IO_REJECT → r.calls ≠ [] := by
  have hio : decodeReg k s.iod s.IOQreg = 1 →
      fw_doIO k cb s output = ioDispatch cb s output 1 := by
    intro hd
    unfold fw_doIO
    simp only [hd, ge_iff_le, Nat.not_le.mpr h, if_false, rejmap_register1]
    simp
  have hbdc : fw_doBDCIO k cb dptr s data output 1 =
      bdcDispatch k cb dptr { s with IOAreg := data } data output 1 := by
    unfold fw_doBDCIO
    simp only [ge_iff_le, Nat.not_le.mpr h, if_false, rejmap_register1]
    simp
  refine ⟨rejmap_register1 _ _, ?_, hbdc, ?_⟩
  · intro hd
    refine ⟨hio hd, ?_⟩
    intro r hr
    rw [hio hd] at hr
    exact ioDispatch_reject_calls cb s output 1 r hr
  · intro r hr
    rw [hbdc] at hr
    exact bdcDispatch_reject_calls k cb dptr _ data output 1 r hr

/-- Witness of C3: the sample descriptor with bit 1 set in both rejection bitmaps;
address 1 decodes to register 1. -/
theorem fw_dispatch_register1_static_exempt_witness :
    1 < exIodRej.iod_regs ∧ decodeReg cdc1700_defs exIodRej 1 = 1 ∧
    rejmap exIodRej true &&& (1 <<< 1) = 0 ∧
    fw_doIO cdc1700_defs exBackend (exState exIodRej 1) true =
      ioDispatch exBackend (exState exIodRej 1) true 1 ∧
    fw_doBDCIO cdc1700_defs exBackend (exDev 0) (exState exIodRej 1) 6 true 1 =
      bdcDispatch cdc1700_defs exBackend (exDev 0)
        { exState exIodRej 1 with IOAreg := 6 } 6 true 1 :=
  have w := fw_dispatch_register1_static_exempt cdc1700_defs exBackend (exDev 0)
    (exState exIodRej 1) 6 true (by decide)
  ⟨by decide, by decide, w.1, (w.2.1 (by decide)).1, w.2.2.1⟩

/-! ## Register dispatch: writes -/

/-- C4. A write dispatch to register `r` that passes the address check, the static
bitmap and the dynamic reject check hands the backend write routine (its
invocation is the last call made) a descriptor in which `iod_prevR[r]` is the
value `iod_writeR[r]` held before the call and `iod_writeR[r]` is the new value
( `Areg` for `fw_doIO`, `*data` for `fw_doBDCIO`), so that `CHANGED(iod, r)` is the
new value XOR the old one; the dispatch returns what the routine returns. -/
theorem fw_dispatch_write_snapshot (k : Defs) (cb : Backend) (dptr : DEVICE)
    (s : IOState) (data : Nat) (r : Fin 8)
    (w : IOState → Nat → IOstatus × IOState)
    (wb : IOState → Nat → Nat → IOstatus × IOState × Nat)
    (hreg : r.val < s.iod.iod_regs)
    (hstat : rejmap s.iod true &&& (1 <<< r.val) = 0) :
    (cb.iod_IOwrite = some w → decodeReg k s.iod s.IOQreg = r.val →
      rejectCheck cb s true r.val = false →
      fw_doIO k cb s true =
        .ok { status := (w { s with iod := storeWrite s.iod r s.Areg } r.val).1,
              s := (w { s with iod := storeWrite s.iod r s.Areg } r.val).2,
              calls := rejectCalls cb s true r.val ++
                [Call.IOwrite { s with iod := storeWrite s.iod r s.Areg } r.val] }) ∧
    (cb.iod_BDCwrite = some wb → rejectCheck cb { s with IOAreg := data } true r.val = false →
      fw_doBDCIO k cb dptr s data true r.val =
        .ok { status := (wb { s with IOAreg := data, iod := storeWrite s.iod r data } data r.val).1,
              s := (wb { s with IOAreg := data, iod := storeWrite s.iod r data } data r.val).2.1,
              data := (wb { s with IOAreg := data, iod := storeWrite s.iod r data } data r.val).2.2,
              calls := rejectCalls cb { s with IOAreg := data } true r.val ++
                stateCalls k cb dptr "before BDC I/O" { s with IOAreg := data } ++
                [Call.BDCwrite { s with IOAreg := data, iod := storeWrite s.iod r data }
                  data r.val] ++
                stateCalls k cb dptr "after BDC I/O"
                  (wb { s with IOAreg := data, iod := storeWrite s.iod r data } data r.val).2.1 }) ∧
    ∀ v, (storeWrite s.iod r v).iod_prevR r = s.iod.iod_writeR r ∧
      (storeWrite s.iod r v).iod_writeR r = v ∧
      CHANGED (storeWrite s.iod r v) r = v ^^^ s.iod.iod_writeR r := by
  have h8 : r.val < 8 := r.isLt
  refine ⟨?_, ?_, ?_⟩
  · intro hw hd hc
    unfold fw_doIO
    simp only [hd, ge_iff_le, Nat.not_le.mpr hreg, if_false, hstat]
    unfold ioDispatch
    simp [hc, bankGet, bankSet, h8, bind, Except.bind, hw, storeWrite]
  · intro hwb hc
    unfold fw_doBDCIO
    simp only [ge_iff_le, Nat.not_le.mpr hreg, if_false, hstat]
    unfold bdcDispatch
    simp [hc, bankGet, bankSet, h8, bind, Except.bind, hwb, storeWrite]
  · intro v
    simp [storeWrite, CHANGED]

/-- Witness of C4: a write of `Areg = 0x1234` to register 0 of the sample
descriptor, whose write register 0 holds `0x0055`. -/
theorem fw_dispatch_write_snapshot_witness :
    (0 : Fin 8).val < exIod.iod_regs ∧
    rejmap exIod true &&& (1 <<< (0 : Fin 8).val) = 0 ∧
    fw_doIO cdc1700_defs exBackend (exState exIod 0) true =
      .ok { status := IOstatus.IO_REPLY,
            s := { exState exIod 0 with iod := storeWrite exIod 0 0x1234 },
            calls := [Call.IOwrite { exState exIod 0 with iod := storeWrite exIod 0 0x1234 } 0] } ∧
    (storeWrite exIod 0 0x1234).iod_prevR 0 = 0x0055 ∧
    (storeWrite exIod 0 0x1234).iod_writeR 0 = 0x1234 ∧
    CHANGED (storeWrite exIod 0 0x1234) 0 = 0x1234 ^^^ 0x0055 :=
  have w := fw_dispatch_write_snapshot cdc1700_defs exBackend (exDev 0) (exState exIod 0) 7 0
    (fun s _ => (IOstatus.IO_REPLY, s)) (fun s d _ => (IOstatus.IO_REPLY, s, d))
    (by decide) (by decide)
  ⟨by decide, by decide, w.1 rfl (by decide) rfl, (w.2.2 0x1234).1, (w.2.2 0x1234).2.1,
    (w.2.2 0x1234).2.2⟩

/-! ## Register dispatch: cached reads -/

/-- C5. A read of a register `r` marked in `iod_readmap` that passes the address
check, the static bitmap and the dynamic reject check returns `IO_REPLY` with the
value `iod_readR[r]` (in `Areg` for `fw_doIO`, in the data slot for `fw_doBDCIO`),
makes no call to a backend read routine (the calls are those of the reject check
and, for the channel, of the state dump) and leaves the descriptor as it was; so
a second read, from the state the first one left, returns the same value. -/
theorem fw_dispatch_cached_read (k : Defs) (cb : Backend) (dptr : DEVICE)
    (s : IOState) (data : Nat) (r : Fin 8)
    (hreg : r.val < s.iod.iod_regs)
    (hstat : rejmap s.iod false &&& (1 <<< r.val) = 0)
    (hmap : s.iod.iod_readmap &&& (1 <<< r.val) ≠ 0) :
    (decodeReg k s.iod s.IOQreg = r.val → rejectCheck cb s false r.val = false →
      fw_doIO k cb s false =
        .ok { status := IOstatus.IO_REPLY, s := { s with Areg := s.iod.iod_readR r },
              calls := rejectCalls cb s false r.val } ∧
      (rejectCheck cb { s with Areg := s.iod.iod_readR r } false r.val = false →
        fw_doIO k cb { s with Areg := s.iod.iod_readR r } false =
          .ok { status := IOstatus.IO_REPLY, s := { s with Areg := s.iod.iod_readR r },
                calls := rejectCalls cb { s with Areg := s.iod.iod_readR r } false r.val })) ∧
    (rejectCheck cb { s with IOAreg := data } false r.val = false →
      fw_doBDCIO k cb dptr s data false r.val =
        .ok { status := IOstatus.IO_REPLY, s := { s with IOAreg := data },
              data := s.iod.iod_readR r,
              calls := rejectCalls cb { s with IOAreg := data } false r.val ++
                stateCalls k cb dptr "before BDC I/O" { s with IOAreg := data } ++
                stateCalls k cb dptr "after cached BDC I/O" { s with IOAreg := data } } ∧
      (rejectCheck cb { s with IOAreg := s.iod.iod_readR r } false r.val = false →
        fw_doBDCIO k cb dptr { s with IOAreg := data } (s.iod.iod_readR r) false r.val =
          .ok { status := IOstatus.IO_REPLY, s := { s with IOAreg := s.iod.iod_readR r },
                data := s.iod.iod_readR r,
                calls := rejectCalls cb { s with IOAreg := s.iod.iod_readR r } false r.val ++
                  stateCalls k cb dptr "before BDC I/O" { s with IOAreg := s.iod.iod_readR r } ++
                  stateCalls k cb dptr "after cached BDC I/O"
                    { s with IOAreg := s.iod.iod_readR r } })) := by
  have h8 : r.val < 8 := r.isLt
  have hio : ∀ s2 : IOState, s2.iod = s.iod → decodeReg k s2.iod s2.IOQreg = r.val →
      rejectCheck cb s2 false r.val = false →
      fw_doIO k cb s2 false =
        .ok { status := IOstatus.IO_REPLY, s := { s2 with Areg := s.iod.iod_readR r },
              calls := rejectCalls cb s2 false r.val } := by
    intro s2 hs hd hc
    rw [hs] at hd
    unfold fw_doIO
    simp only [hs, hd, ge_iff_le, Nat.not_le.mpr hreg, if_false, hstat]
    unfold ioDispatch
    simp [hc, hs, bankGet, h8, bind, Except.bind, hmap]
  have hbdc : ∀ (s2 : IOState) (d : Nat), s2.iod = s.iod →
      rejectCheck cb { s2 with IOAreg := d } false r.val = false →
      fw_doBDCIO k cb dptr s2 d false r.val =
        .ok { status := IOstatus.IO_REPLY, s := { s2 with IOAreg := d },
              data := s.iod.iod_readR r,
              calls := rejectCalls cb { s2 with IOAreg := d } false r.val ++
                stateCalls k cb dptr "before BDC I/O" { s2 with IOAreg := d } ++
                stateCalls k cb dptr "after cached BDC I/O" { s2 with IOAreg := d } } := by
    intro s2 d hs hc
    rw [hs] at hc
    unfold fw_doBDCIO
    simp only [hs, ge_iff_le, Nat.not_le.mpr hreg, if_false, hstat]
    unfold bdcDispatch
    simp [hc, hs, bankGet, h8, bind, Except.bind, hmap]
  refine ⟨?_, ?_⟩
  · intro hd hc
    refine ⟨hio s rfl hd hc, ?_⟩
    intro hc2
    exact hio { s with Areg := s.iod.iod_readR r } rfl hd hc2
  · intro hc
    refine ⟨hbdc s data rfl hc, ?_⟩
    intro hc2
    exact hbdc { s with IOAreg := data } (s.iod.iod_readR r) rfl hc2

/-- Witness of C5: register 0 of the sample descriptor is read from the framework
and holds `0x00AA`. -/
theorem fw_dispatch_cached_read_witness :
    (0 : Fin 8).val < exIod.iod_regs ∧
    rejmap exIod false &&& (1 <<< (0 : Fin 8).val) = 0 ∧
    exIod.iod_readmap &&& (1 <<< (0 : Fin 8).val) ≠ 0 ∧
    fw_doIO cdc1700_defs exBackend (exState exIod 0) false =
      .ok { status := IOstatus.IO_REPLY, s := { exState exIod 0 with Areg := 0x00AA },
            calls := [] } ∧
    fw_doBDCIO cdc1700_defs exBackend (exDev 0) (exState exIod 0) 7 false 0 =
      .ok { status := IOstatus.IO_REPLY, s := { exState exIod 0 with IOAreg := 7 },
            data := 0x00AA, calls := [] } :=
  have w := fw_dispatch_cached_read cdc1700_defs exBackend (exDev 0) (exState exIod 0) 7 0
    (by decide) (by decide) (by decide)
  ⟨by decide, by decide, by decide, (w.1 (by decide) rfl).1, (w.2 rfl).1⟩

/-! ## Interrupt status aggregation: the status after an update -/

@[simp] theorem DEVSTATUS_setDEVSTATUS (iod : IO_DEVICE) (v : Nat) :
    DEVSTATUS (setDEVSTATUS iod v) = v := by
  simp [DEVSTATUS, setDEVSTATUS]

@[simp] theorem setDEVSTATUS_forced (iod : IO_DEVICE) (v : Nat) :
    (setDEVSTATUS iod v).iod_forced = iod.iod_forced := rfl

@[simp] theorem setDEVSTATUS_smask (iod : IO_DEVICE) (v : Nat) :
    (setDEVSTATUS iod v).iod_smask = iod.iod_smask := rfl

@[simp] theorem setDEVSTATUS_ienable (iod : IO_DEVICE) (v : Nat) :
    (setDEVSTATUS iod v).iod_ienable = iod.iod_ienable := rfl

@[simp] theorem setDEVSTATUS_imask (iod : IO_DEVICE) (v : Nat) :
    (setDEVSTATUS iod v).iod_imask = iod.iod_imask := rfl

theorem DEVSTATUS_intrStatus (k : Defs) (iod : IO_DEVICE) (set clr mask : Nat) :
    DEVSTATUS (intrStatus k iod set clr mask) =
      u16 (u16 (u16 (DEVSTATUS iod &&& cnot (clr ||| k.IO_ST_INT)) ||| (set ||| iod.iod_forced))
        &&& (mask &&& iod.iod_smask)) := by
  simp [intrStatus]

@[simp] theorem intrStatus_forced (k : Defs) (iod : IO_DEVICE) (set clr mask : Nat) :
    (intrStatus k iod set clr mask).iod_forced = iod.iod_forced := rfl

@[simp] theorem intrStatus_smask (k : Defs) (iod : IO_DEVICE) (set clr mask : Nat) :
    (intrStatus k iod set clr mask).iod_smask = iod.iod_smask := rfl

@[simp] theorem intrStatus_ienable (k : Defs) (iod : IO_DEVICE) (set clr mask : Nat) :
    (intrStatus k iod set clr mask).iod_ienable = iod.iod_ienable := rfl

@[simp] theorem intrStatus_imask (k : Defs) (iod : IO_DEVICE) (set clr mask : Nat) :
    (intrStatus k iod set clr mask).iod_imask = iod.iod_imask := rfl

theorem testBit_intrStatus (k : Defs) (iod : IO_DEVICE) (set clr mask i : Nat) :
    (DEVSTATUS (intrStatus k iod set clr mask)).testBit i =
      (decide (i < 16) &&
        (((DEVSTATUS iod).testBit i && !(clr.testBit i || k.IO_ST_INT.testBit i)) ||
          set.testBit i || iod.iod_forced.testBit i) &&
        mask.testBit i && iod.iod_smask.testBit i) := by
  rw [DEVSTATUS_intrStatus]
  simp only [testBit_u16, Nat.testBit_and, Nat.testBit_or, testBit_cnot]
  by_cases hi : i < 16
  · have h32 : i < 32 := by omega
    simp only [hi, h32, decide_True, Bool.true_and, Bool.true_xor]
    cases (DEVSTATUS iod).testBit i <;> cases clr.testBit i <;> cases k.IO_ST_INT.testBit i <;>
      cases set.testBit i <;> cases iod.iod_forced.testBit i <;> cases mask.testBit i <;>
      cases iod.iod_smask.testBit i <;> rfl
  · simp [hi]

/-- The status `fw_IOintr` leaves: that of the mask step, with `IO_ST_INT` OR-ed in
when some interrupt of `iod_imask` is enabled and the interrupt condition holds. -/
theorem fw_IOintr_status (k : Defs) (cb : Backend) (other : Bool) (dev : DEVICE)
    (iod : IO_DEVICE) (set clr mask : Nat) (why : Option String) :
    (fw_IOintr k cb other dev iod set clr mask why).1 =
      if ISENABLED iod iod.iod_imask &&
          (stdIntr k (intrStatus k iod set clr mask) ||
            otherIntr cb other (intrStatus k iod set clr mask)) then
        setDEVSTATUS (intrStatus k iod set clr mask)
          (u16 (DEVSTATUS (intrStatus k iod set clr mask) ||| k.IO_ST_INT))
      else intrStatus k iod set clr mask := by
  unfold fw_IOintr
  have h : ISENABLED (intrStatus k iod set clr mask) (intrStatus k iod set clr mask).iod_imask =
      ISENABLED iod iod.iod_imask := rfl
  simp only [h]
  cases hen : ISENABLED iod iod.iod_imask
  · simp
  · cases hi : (stdIntr k (intrStatus k iod set clr mask) ||
        otherIntr cb other (intrStatus k iod set clr mask))
    · simp [hi]
    · cases why <;> simp [hi]

/-! ## Interrupt status aggregation: the aggregated interrupt bit -/

/-- C6 as stated fails in both directions. (1) With no interrupt enabled, a call
that permits the device-specific check, whose callback exists and reports an
interrupt, leaves `IO_ST_INT` clear (the callback is not even asked). (2) With the
data interrupt enabled in `iod_ienable` but `iod_ienable & iod_imask = 0`, an
active data source leaves `IO_ST_INT` clear. (3) A call that names `IO_ST_INT`
among its set bits leaves it set although no source is active. -/
theorem fw_IOintr_interrupt_bit_counterexample :
    (otherIntr exBackendIntr true (intrStatus cdc1700_defs exIodOff 0 0 0xFFFF) = true ∧
      DEVSTATUS (fw_IOintr cdc1700_defs exBackendIntr true (exDev 0) exIodOff
        0 0 0xFFFF (some "intr")).1 &&& cdc1700_defs.IO_ST_INT = 0) ∧
    (stdIntr cdc1700_defs (intrStatus cdc1700_defs exIodNoMask 0x0008 0 0xFFFF) = true ∧
      DEVSTATUS (fw_IOintr cdc1700_defs exBackend false (exDev 0) exIodNoMask
        0x0008 0 0xFFFF (some "data")).1 &&& cdc1700_defs.IO_ST_INT = 0) ∧
    (stdIntr cdc1700_defs (intrStatus cdc1700_defs exIodOff 0x0004 0 0xFFFF) = false ∧
      otherIntr exBackend false (intrStatus cdc1700_defs exIodOff 0x0004 0 0xFFFF) = false ∧
      DEVSTATUS (fw_IOintr cdc1700_defs exBackend false (exDev 0) exIodOff
        0x0004 0 0xFFFF none).1 &&& cdc1700_defs.IO_ST_INT ≠ 0) := by
  refine ⟨⟨by decide, by decide⟩, ⟨by decide, by decide⟩, ⟨by decide, by decide, by decide⟩⟩

theorem and_INT_intrStatus (k : Defs) (iod : IO_DEVICE) (set clr mask : Nat)
    (h16 : k.IO_ST_INT < 65536) :
    DEVSTATUS (intrStatus k iod set clr mask) &&& k.IO_ST_INT =
      (set ||| iod.iod_forced) &&& (mask &&& iod.iod_smask) &&& k.IO_ST_INT := by
  apply Nat.eq_of_testBit_eq
  intro i
  simp only [Nat.testBit_and, Nat.testBit_or, testBit_intrStatus]
  cases hI : k.IO_ST_INT.testBit i
  · simp
  · have hi : i < 16 := testBit_lt_16 h16 hI
    simp only [hi, decide_True, Bool.true_and]
    cases (DEVSTATUS iod).testBit i <;> cases clr.testBit i <;>
      cases set.testBit i <;> cases iod.iod_forced.testBit i <;> cases mask.testBit i <;>
      cases iod.iod_smask.testBit i <;> rfl

theorem or_INT_and_INT (x c : Nat) (h16 : c < 65536) : u16 (x ||| c) &&& c = c := by
  apply Nat.eq_of_testBit_eq
  intro i
  simp only [Nat.testBit_and, Nat.testBit_or, testBit_u16]
  cases hI : c.testBit i
  · simp
  · have hi : i < 16 := testBit_lt_16 h16 hI
    simp [hi]

/-- C6, amended. After `fw_IOintr`, `IO_ST_INT` is set in the status if and only if
either some interrupt of `iod_imask` is enabled ( `iod_ienable & iod_imask ≠ 0` )
and a source is active - an enabled standard source (ALARM, EOP or DATA enabled
in `iod_ienable` with its status bit set in the updated status) or, when `other`
is true and `iod_intr` exists, the device-specific check returning true - or
`IO_ST_INT` is itself among the set bits or forced bits the masks keep. In every
other case it is clear. -/
theorem fw_IOintr_interrupt_bit (k : Defs) (cb : Backend) (other : Bool) (dev : DEVICE)
    (iod : IO_DEVICE) (set clr mask : Nat) (why : Option String)
    (h0 : k.IO_ST_INT ≠ 0) (h16 : k.IO_ST_INT < 65536) :
    DEVSTATUS (fw_IOintr k cb other dev iod set clr mask why).1 &&& k.IO_ST_INT ≠ 0 ↔
      (ISENABLED iod iod.iod_imask = true ∧
        (stdIntr k (intrStatus k iod set clr mask) = true ∨
          otherIntr cb other (intrStatus k iod set clr mask) = true)) ∨
      (set ||| iod.iod_forced) &&& (mask &&& iod.iod_smask) &&& k.IO_ST_INT ≠ 0 := by
  rw [fw_IOintr_status]
  by_cases hc : (ISENABLED iod iod.iod_imask &&
      (stdIntr k (intrStatus k iod set clr mask) ||
        otherIntr cb other (intrStatus k iod set clr mask))) = true
  · rw [if_pos hc, DEVSTATUS_setDEVSTATUS, or_INT_and_INT _ _ h16]
    simp only [Bool.and_eq_true, Bool.or_eq_true] at hc
    exact ⟨fun _ => Or.inl hc, fun _ => h0⟩
  · rw [if_neg hc, and_INT_intrStatus k iod set clr mask h16]
    simp only [Bool.and_eq_true, Bool.or_eq_true] at hc
    exact ⟨fun h => Or.inr h, fun h => h.resolve_left hc⟩

/-- Witness of C6 (amended): the sample descriptor (data interrupt enabled and
valid, status `IO_ST_BUSY` ) with `IO_ST_DATA` among the set bits. -/
theorem fw_IOintr_interrupt_bit_witness :
    cdc1700_defs.IO_ST_INT ≠ 0 ∧ cdc1700_defs.IO_ST_INT < 65536 ∧
    (DEVSTATUS (fw_IOintr cdc1700_defs exBackend false (exDev 0) exIod
        0x0008 0 0xFFFF none).1 &&& cdc1700_defs.IO_ST_INT ≠ 0 ↔
      (ISENABLED exIod exIod.iod_imask = true ∧
        (stdIntr cdc1700_defs (intrStatus cdc1700_defs exIod 0x0008 0 0xFFFF) = true ∨
          otherIntr exBackend false (intrStatus cdc1700_defs exIod 0x0008 0 0xFFFF) = true)) ∨
      (0x0008 ||| exIod.iod_forced) &&& (0xFFFF &&& exIod.iod_smask) &&&
        cdc1700_defs.IO_ST_INT ≠ 0) :=
  ⟨by decide, by decide,
    fw_IOintr_interrupt_bit cdc1700_defs exBackend false (exDev 0) exIod 0x0008 0 0xFFFF none
      (by decide) (by decide)⟩

/-! ## The valid-status mask -/

theorem and_cnot_eq_zero (x m c : Nat)
    (h : ∀ i, i < 16 → x.testBit i = true → m.testBit i = true ∨ c.testBit i = true) :
    u16 x &&& cnot (m ||| c) = 0 := by
  rw [eq_zero_iff_testBit]
  intro i
  simp only [Nat.testBit_and, Nat.testBit_or, testBit_u16, testBit_cnot]
  by_cases hi : i < 16
  · have h32 : i < 32 := by omega
    simp only [hi, h32, decide_True, Bool.true_and, Bool.true_xor]
    cases hx : x.testBit i
    · simp
    · rcases h i hi hx with hm | hc
      · simp [hm]
      · simp [hc]
  · simp [hi]

theorem and_cnot_eq_zero_of_and (x m : Nat) : u16 (x &&& m) &&& cnot m = 0 := by
  have h := and_cnot_eq_zero (x &&& m) m 0 (by
    intro i _ hx
    simp only [Nat.testBit_and, Bool.and_eq_true] at hx
    exact Or.inl hx.2)
  simpa using h

theorem fw_IOintr_within_smask (k : Defs) (cb : Backend) (other : Bool) (dev : DEVICE)
    (iod : IO_DEVICE) (set clr mask : Nat) (why : Option String) :
    DEVSTATUS (fw_IOintr k cb other dev iod set clr mask why).1 &&&
      cnot ((fw_IOintr k cb other dev iod set clr mask why).1.iod_smask ||| k.IO_ST_INT) = 0 := by
  rw [fw_IOintr_status]
  split_ifs
  · rw [DEVSTATUS_setDEVSTATUS, setDEVSTATUS_smask, intrStatus_smask]
    apply and_cnot_eq_zero
    intro i _ hx
    simp only [Nat.testBit_or, Bool.or_eq_true, testBit_intrStatus, Bool.and_eq_true] at hx
    rcases hx with hx | hx
    · exact Or.inl hx.2
    · exact Or.inr hx
  · rw [intrStatus_smask, DEVSTATUS_intrStatus]
    apply and_cnot_eq_zero
    intro i _ hx
    simp only [Nat.testBit_and, Bool.and_eq_true] at hx
    exact Or.inl hx.2.2

theorem cnot_or_of_subset (x m c : Nat) (hc : c &&& cnot m = 0)
    (h : x &&& cnot (m ||| c) = 0) : x &&& cnot m = 0 := by
  rw [eq_zero_iff_testBit] at *
  intro i
  have h1 := hc i
  have h2 := h i
  simp only [Nat.testBit_and, Nat.testBit_or, testBit_cnot] at *
  cases hx : x.testBit i <;> cases hm : m.testBit i <;> cases hcc : c.testBit i <;>
    cases h32 : decide (i < 32) <;> simp_all

theorem underway_within_smask (iod : IO_DEVICE) (x : Nat) :
    validStatus (setDEVSTATUS iod (u16 (x &&& iod.iod_smask))) := by
  unfold validStatus
  rw [DEVSTATUS_setDEVSTATUS, setDEVSTATUS_smask]
  exact and_cnot_eq_zero_of_and x iod.iod_smask

theorem fw_IOintr_valid (k : Defs) (cb : Backend) (other : Bool) (dev : DEVICE)
    (iod : IO_DEVICE) (set clr mask : Nat) (why : Option String) :
    validStatusBut k.IO_ST_INT (fw_IOintr k cb other dev iod set clr mask why).1 ∧
    (k.IO_ST_INT &&& cnot iod.iod_smask = 0 →
      validStatus (fw_IOintr k cb other dev iod set clr mask why).1) := by
  have h := fw_IOintr_within_smask k cb other dev iod set clr mask why
  have hs : (fw_IOintr k cb other dev iod set clr mask why).1.iod_smask = iod.iod_smask := by
    rw [fw_IOintr_status]
    split_ifs <;> rfl
  refine ⟨h, ?_⟩
  intro hI
  unfold validStatus
  rw [hs] at h ⊢
  exact cnot_or_of_subset _ _ _ hI h

theorem fw_setForced_valid (iod : IO_DEVICE) (mask : Nat) (h : validStatus iod) :
    validStatus (fw_setForced iod mask) := by
  unfold validStatus at *
  unfold fw_setForced
  simp only [DEVSTATUS_setDEVSTATUS, setDEVSTATUS_smask]
  have h0 := and_cnot_eq_zero (DEVSTATUS iod ||| (mask &&& iod.iod_smask)) iod.iod_smask 0 (by
    intro i hi hx
    left
    simp only [Nat.testBit_or, Nat.testBit_and, Bool.or_eq_true, Bool.and_eq_true] at hx
    rcases hx with hx | hx
    · rw [eq_zero_iff_testBit] at h
      have hb := h i
      have h32 : i < 32 := by omega
      simp only [Nat.testBit_and, testBit_cnot, hx, h32, decide_True, Bool.true_and,
        Bool.true_xor] at hb
      simpa using hb
    · exact hx.2)
  simpa [DEVSTATUS] using h0

/-- C7 as stated fails. (1) `fw_IOintr` ORs `IO_ST_INT` into the status after the
mask step: with `IO_ST_DATA` the only valid status bit and the data interrupt
enabled, setting `IO_ST_DATA` leaves `IO_ST_INT`, a bit outside `iod_smask`, set.
(2) `fw_setForced` only ORs bits in: a status bit outside `iod_smask` that was set
before the call is still set after it. -/
theorem status_mask_counterexample :
    DEVSTATUS (fw_IOintr cdc1700_defs exBackend false (exDev 0) exIodData
      0x0008 0 0xFFFF none).1 &&& cnot exIodData.iod_smask = 0x0004 ∧
    DEVSTATUS (fw_setForced exIodHigh 0x0001) &&& cnot exIodHigh.iod_smask = 0x8000 := by
  refine ⟨by decide, by decide⟩

/-- C7, amended. After each of the underway policies ( `fw_IOunderwayData`,
`fw_IOunderwayEOP`, `fw_IOunderwayEOP2` ) no status bit is set outside `iod_smask`.
After `fw_IOintr` and the policies built on it ( `fw_IOcompleteData`,
`fw_IOcompleteEOP`, `fw_IOcompleteEOP2`, `fw_IOalarm` ) no status bit other than
`IO_ST_INT` is set outside `iod_smask`, and none at all when `IO_ST_INT` is a valid
status bit. `fw_setForced` leaves no status bit outside `iod_smask` when there
was none before the call. -/
theorem status_within_valid_mask (k : Defs) (cb : Backend) (other : Bool) (dev : DEVICE)
    (iod : IO_DEVICE) (set clr mask : Nat) (why : Option String) :
    (validStatus (fw_IOunderwayData k iod clr) ∧ validStatus (fw_IOunderwayEOP k iod clr) ∧
      validStatus (fw_IOunderwayEOP2 k iod clr)) ∧
    (validStatusBut k.IO_ST_INT (fw_IOintr k cb other dev iod set clr mask why).1 ∧
      validStatusBut k.IO_ST_INT (fw_IOcompleteData k cb other dev iod mask why).1 ∧
      validStatusBut k.IO_ST_INT (fw_IOcompleteEOP k cb other dev iod mask why).1 ∧
      validStatusBut k.IO_ST_INT (fw_IOcompleteEOP2 k cb other dev iod mask why).1 ∧
      validStatusBut k.IO_ST_INT (fw_IOalarm k cb other dev iod why).1) ∧
    (k.IO_ST_INT &&& cnot iod.iod_smask = 0 →
      validStatus (fw_IOintr k cb other dev iod set clr mask why).1 ∧
      validStatus (fw_IOcompleteData k cb other dev iod mask why).1 ∧
      validStatus (fw_IOcompleteEOP k cb other dev iod mask why).1 ∧
      validStatus (fw_IOcompleteEOP2 k cb other dev iod mask why).1 ∧
      validStatus (fw_IOalarm k cb other dev iod why).1) ∧
    (validStatus iod → validStatus (fw_setForced iod mask)) := by
  refine ⟨⟨?_, ?_, ?_⟩, ⟨?_, ?_, ?_, ?_, ?_⟩, ?_, fw_setForced_valid iod mask⟩
  · exact underway_within_smask _ _
  · exact underway_within_smask _ _
  · exact underway_within_smask _ _
  · exact (fw_IOintr_valid k cb other dev iod set clr mask why).1
  · exact (fw_IOintr_valid k cb other dev iod _ _ mask why).1
  · exact (fw_IOintr_valid k cb other dev iod _ _ mask why).1
  · exact (fw_IOintr_valid k cb other dev iod _ _ mask why).1
  · exact (fw_IOintr_valid k cb other dev iod _ _ _ why).1
  · intro hI
    exact ⟨(fw_IOintr_valid k cb other dev iod set clr mask why).2 hI,
      (fw_IOintr_valid k cb other dev iod _ _ mask why).2 hI,
      (fw_IOintr_valid k cb other dev iod _ _ mask why).2 hI,
      (fw_IOintr_valid k cb other dev iod _ _ mask why).2 hI,
      (fw_IOintr_valid k cb other dev iod _ _ _ why).2 hI⟩

/-- Witness of C7 (amended): in the sample descriptor every status bit is valid
and the status is `IO_ST_BUSY`. -/
theorem status_within_valid_mask_witness :
    cdc1700_defs.IO_ST_INT &&& cnot exIod.iod_smask = 0 ∧ validStatus exIod ∧
    validStatus (fw_IOintr cdc1700_defs exBackend false (exDev 0) exIod
      0x0008 0x0002 0xFFFF none).1 ∧
    validStatus (fw_setForced exIod 0x0001) :=
  have w := status_within_valid_mask cdc1700_defs exBackend false (exDev 0) exIod
    0x0008 0x0002 0xFFFF none
  have hv : validStatus exIod := by decide
  ⟨by decide, hv, (w.2.2.1 (by decide)).1, w.2.2.2 hv⟩

/-! ## Forced status bits -/

theorem fw_IOintr_forced_smask (k : Defs) (cb : Backend) (other : Bool) (dev : DEVICE)
    (iod : IO_DEVICE) (set clr mask : Nat) (why : Option String) :
    (fw_IOintr k cb other dev iod set clr mask why).1.iod_forced = iod.iod_forced ∧
    (fw_IOintr k cb other dev iod set clr mask why).1.iod_smask = iod.iod_smask := by
  rw [fw_IOintr_status]
  split_ifs
  · simp only [setDEVSTATUS_forced, setDEVSTATUS_smask, intrStatus_forced, intrStatus_smask,
      and_self]
  · simp only [intrStatus_forced, intrStatus_smask, and_self]

theorem forcedInv_IOintr (k : Defs) (cb : Backend) (other : Bool) (dev : DEVICE)
    (iod : IO_DEVICE) (set clr mask : Nat) (why : Option String) (b : Nat) (hb : b < 16)
    (hm : mask.testBit b = true) (h : forcedInv b iod) :
    forcedInv b (fw_IOintr k cb other dev iod set clr mask why).1 := by
  unfold forcedInv at *
  obtain ⟨hf, hs, _⟩ := h
  have h3 : (DEVSTATUS (intrStatus k iod set clr mask)).testBit b = true := by
    rw [testBit_intrStatus]
    simp [hb, hf, hs, hm]
  rw [(fw_IOintr_forced_smask k cb other dev iod set clr mask why).1,
    (fw_IOintr_forced_smask k cb other dev iod set clr mask why).2]
  refine ⟨hf, hs, ?_⟩
  rw [fw_IOintr_status]
  split_ifs
  · rw [DEVSTATUS_setDEVSTATUS, testBit_u16, Nat.testBit_or, h3]
    simp [hb]
  · exact h3

theorem forcedInv_underwayData (k : Defs) (iod : IO_DEVICE) (clr b : Nat) (hb : b < 16)
    (h : forcedInv b iod) : forcedInv b (fw_IOunderwayData k iod clr) := by
  unfold forcedInv at *
  obtain ⟨hf, hs, _⟩ := h
  unfold fw_IOunderwayData
  simp only [DEVSTATUS_setDEVSTATUS, setDEVSTATUS_forced, setDEVSTATUS_smask, testBit_u16,
    Nat.testBit_and, Nat.testBit_or, hf, hs, hb]
  simp

theorem forcedInv_underwayEOP (k : Defs) (iod : IO_DEVICE) (clr b : Nat) (hb : b < 16)
    (h : forcedInv b iod) : forcedInv b (fw_IOunderwayEOP k iod clr) := by
  unfold forcedInv at *
  obtain ⟨hf, hs, _⟩ := h
  unfold fw_IOunderwayEOP
  simp only [DEVSTATUS_setDEVSTATUS, setDEVSTATUS_forced, setDEVSTATUS_smask, testBit_u16,
    Nat.testBit_and, Nat.testBit_or, hf, hs, hb]
  simp

theorem forcedInv_underwayEOP2 (k : Defs) (iod : IO_DEVICE) (clr b : Nat) (hb : b < 16)
    (h : forcedInv b iod) : forcedInv b (fw_IOunderwayEOP2 k iod clr) := by
  unfold forcedInv at *
  obtain ⟨hf, hs, _⟩ := h
  unfold fw_IOunderwayEOP2
  simp only [DEVSTATUS_setDEVSTATUS, setDEVSTATUS_forced, setDEVSTATUS_smask, testBit_u16,
    Nat.testBit_and, Nat.testBit_or, hf, hs, hb]
  simp

theorem forcedInv_setForced (iod : IO_DEVICE) (mask b : Nat) (hb : b < 16)
    (h : forcedInv b iod) : forcedInv b (fw_setForced iod mask) := by
  unfold forcedInv at *
  obtain ⟨hf, hs, hst⟩ := h
  have e1 : (fw_setForced iod mask).iod_forced = u16 (iod.iod_forced ||| mask) := rfl
  have e2 : (fw_setForced iod mask).iod_smask = iod.iod_smask := rfl
  have e3 : DEVSTATUS (fw_setForced iod mask) =
      u16 (DEVSTATUS iod ||| (mask &&& iod.iod_smask)) := by
    simp [fw_setForced, DEVSTATUS, setDEVSTATUS]
  rw [e1, e2, e3]
  simp only [testBit_u16, Nat.testBit_or, Nat.testBit_and, hf, hs, hst, hb]
  simp

theorem forcedInv_clearForced (iod : IO_DEVICE) (mask b : Nat) (hb : b < 16)
    (hm : mask.testBit b = false) (h : forcedInv b iod) :
    forcedInv b (fw_clearForced iod mask) := by
  unfold forcedInv at *
  obtain ⟨hf, hs, hst⟩ := h
  have h32 : b < 32 := by omega
  have e1 : (fw_clearForced iod mask).iod_forced = u16 (iod.iod_forced &&& cnot mask) := rfl
  have e2 : (fw_clearForced iod mask).iod_smask = iod.iod_smask := rfl
  have e3 : DEVSTATUS (fw_clearForced iod mask) = u16 (DEVSTATUS iod &&& cnot mask) := by
    simp [fw_clearForced, DEVSTATUS, setDEVSTATUS]
  rw [e1, e2, e3]
  simp only [testBit_u16, Nat.testBit_and, testBit_cnot, hf, hs, hst, hb, h32, hm]
  simp

theorem forcedInv_applyOp (k : Defs) (cb : Backend) (dev : DEVICE) (iod : IO_DEVICE)
    (op : Op) (b : Nat) (hb : b < 16) (hk : op.keeps b = true) (h : forcedInv b iod) :
    forcedInv b (applyOp k cb dev iod op) := by
  cases op with
  | IOintr other set clr mask why => exact forcedInv_IOintr k cb other dev iod _ _ mask why b hb hk h
  | IOcompleteData other mask why =>
    exact forcedInv_IOintr k cb other dev iod _ _ mask why b hb hk h
  | IOcompleteEOP other mask why =>
    exact forcedInv_IOintr k cb other dev iod _ _ mask why b hb hk h
  | IOcompleteEOP2 other mask why =>
    exact forcedInv_IOintr k cb other dev iod _ _ mask why b hb hk h
  | IOalarm other why =>
    refine forcedInv_IOintr k cb other dev iod _ _ 0xFFFF why b hb ?_ h
    have h16 : (0xFFFF : Nat) = 2 ^ 16 - 1 := by norm_num
    rw [h16, Nat.testBit_two_pow_sub_one]
    simp [hb]
  | IOunderwayData clr => exact forcedInv_underwayData k iod clr b hb h
  | IOunderwayEOP clr => exact forcedInv_underwayEOP k iod clr b hb h
  | IOunderwayEOP2 clr => exact forcedInv_underwayEOP2 k iod clr b hb h
  | setForced mask => exact forcedInv_setForced iod mask b hb h
  | clearForced mask =>
    refine forcedInv_clearForced iod mask b hb ?_ h
    simpa [Op.keeps] using hk

theorem forcedInv_applyOps (k : Defs) (cb : Backend) (dev : DEVICE) (b : Nat) (hb : b < 16)
    (ops : List Op) : ∀ iod : IO_DEVICE, (∀ op ∈ ops, op.keeps b = true) → forcedInv b iod →
      forcedInv b (applyOps k cb dev iod ops) := by
  induction ops with
  | nil => intro iod _ h; exact h
  | cons op rest ih =>
    intro iod hk h
    have h1 := forcedInv_applyOp k cb dev iod op b hb (hk op (List.mem_cons_self _ _)) h
    exact ih _ (fun o ho => hk o (List.mem_cons_of_mem _ ho)) h1

/-- C8 as stated fails. (1) `fw_setForced` sets only the bits of the mask that are
valid status bits: with bit 0 not in `iod_smask`, status bit 0 is clear right
after `fw_setForced(1)`. (2) A later update whose keep mask lacks the bit clears
it, although its clear bits do not name it: after `fw_setForced(1)` on the sample
descriptor bit 0 is set, and `fw_IOintr` with clear bits 0 and keep mask `0xFFFE`
leaves it clear. -/
theorem forced_bit_counterexample :
    (DEVSTATUS (fw_setForced exIodNoReady 0x0001)).testBit 0 = false ∧
    (DEVSTATUS (fw_setForced exIod 0x0001)).testBit 0 = true ∧
    (DEVSTATUS (fw_IOintr cdc1700_defs exBackend false (exDev 0) (fw_setForced exIod 0x0001)
      0 0 0xFFFE none).1).testBit 0 = false := by
  refine ⟨by decide, by decide, by decide⟩

/-- C8, amended. For every mask `M` and every bit `b` of `M` that is a valid status
bit (set in `iod_smask` ): after `fw_setForced(M)` status bit `b` is set, and it is
still set after any sequence of later framework operations ( `fw_IOintr`, the
completion policies, `fw_IOalarm`, the underway policies, `fw_setForced`,
`fw_clearForced` ) in which every keep mask contains `b` and no `fw_clearForced`
names `b` - whatever the clear bits of the updates are. -/
theorem forced_bit_persists (k : Defs) (cb : Backend) (dev : DEVICE) (iod : IO_DEVICE)
    (M b : Nat) (ops : List Op) (hb : b < 16) (hM : M.testBit b = true)
    (hs : iod.iod_smask.testBit b = true) :
    (DEVSTATUS (fw_setForced iod M)).testBit b = true ∧
    ((∀ op ∈ ops, op.keeps b = true) →
      (DEVSTATUS (applyOps k cb dev (fw_setForced iod M) ops)).testBit b = true) := by
  have h0 : forcedInv b (fw_setForced iod M) := by
    unfold forcedInv
    have e1 : (fw_setForced iod M).iod_forced = u16 (iod.iod_forced ||| M) := rfl
    have e2 : (fw_setForced iod M).iod_smask = iod.iod_smask := rfl
    have e3 : DEVSTATUS (fw_setForced iod M) =
        u16 (DEVSTATUS iod ||| (M &&& iod.iod_smask)) := by
      simp [fw_setForced, DEVSTATUS, setDEVSTATUS]
    rw [e1, e2, e3]
    simp only [testBit_u16, Nat.testBit_or, Nat.testBit_and, hM, hs, hb]
    simp
  refine ⟨h0.2.2, ?_⟩
  intro hk
  exact (forcedInv_applyOps k cb dev b hb ops _ hk h0).2.2

/-- Witness of C8 (amended): `IO_ST_READY` (bit 0) forced on the sample descriptor,
then an underway policy naming `IO_ST_READY` in its clear bits, a data completion
and an alarm. -/
theorem forced_bit_persists_witness :
    0 < 16 ∧ (0x0001 : Nat).testBit 0 = true ∧ exIod.iod_smask.testBit 0 = true ∧
    (∀ op ∈ [Op.IOunderwayData 0x0001, Op.IOcompleteData false 0xFFFF (some "done"),
        Op.IOalarm false none], op.keeps 0 = true) ∧
    (DEVSTATUS (fw_setForced exIod 0x0001)).testBit 0 = true ∧
    (DEVSTATUS (applyOps cdc1700_defs exBackend (exDev 0) (fw_setForced exIod 0x0001)
      [Op.IOunderwayData 0x0001, Op.IOcompleteData false 0xFFFF (some "done"),
        Op.IOalarm false none])).testBit 0 = true :=
  have hk : ∀ op ∈ [Op.IOunderwayData 0x0001, Op.IOcompleteData false 0xFFFF (some "done"),
      Op.IOalarm false none], op.keeps 0 = true := by
    intro op hop
    simp only [List.mem_cons, List.mem_singleton, List.not_mem_nil, or_false] at hop
    rcases hop with h | h | h <;> subst h <;> decide
  have w := forced_bit_persists cdc1700_defs exBackend (exDev 0) exIod 0x0001 0
    [Op.IOunderwayData 0x0001, Op.IOcompleteData false 0xFFFF (some "done"),
      Op.IOalarm false none] (by decide) (by decide) (by decide)
  ⟨by decide, by decide, by decide, hk, w.1, w.2 hk⟩

/-! ## Forced status bits: `fw_setForced` and `fw_clearForced` -/

theorem or_lt_65536 {a b : Nat} (ha : a < 65536) (hb : b < 65536) : a ||| b < 65536 := by
  have h : (65536 : Nat) = 2 ^ 16 := by norm_num
  rw [h] at *
  exact Nat.or_lt_two_pow ha hb

theorem and_lt_65536 {a : Nat} (b : Nat) (ha : a < 65536) : a &&& b < 65536 :=
  lt_of_le_of_lt Nat.and_le_left ha

theorem and_cnot_and_self (a m : Nat) (hm : m < 65536) : a &&& cnot m &&& m = 0 := by
  rw [eq_zero_iff_testBit]
  intro i
  simp only [Nat.testBit_and, testBit_cnot]
  cases hI : m.testBit i
  · simp
  · have hi : i < 16 := testBit_lt_16 hm hI
    have h32 : i < 32 := by omega
    simp [h32]

/-- C9. For a descriptor whose forced bits and status are 16-bit values and a
16-bit mask: `fw_setForced(mask)` leaves `iod_forced | mask` in the forced bits and
`status | (mask & iod_smask)` in the status; `fw_clearForced(mask)` leaves
`iod_forced & ~mask` and `status & ~mask`; neither changes anything else in the
descriptor (the result is the descriptor with these two values replaced); and
after `fw_clearForced(mask)` no bit of the mask is left in the forced bits or in
the status. -/
theorem fw_forced_bits (iod : IO_DEVICE) (mask : Nat) (hm : mask < 65536)
    (hf : iod.iod_forced < 65536) (hst : DEVSTATUS iod < 65536) :
    fw_setForced iod mask =
      { iod with
        iod_forced := iod.iod_forced ||| mask,
        iod_readR := Function.update iod.iod_readR 1
          (DEVSTATUS iod ||| (mask &&& iod.iod_smask)) } ∧
    fw_clearForced iod mask =
      { iod with
        iod_forced := iod.iod_forced &&& cnot mask,
        iod_readR := Function.update iod.iod_readR 1 (DEVSTATUS iod &&& cnot mask) } ∧
    (fw_clearForced iod mask).iod_forced &&& mask = 0 ∧
    DEVSTATUS (fw_clearForced iod mask) &&& mask = 0 := by
  have e1 : u16 (iod.iod_forced ||| mask) = iod.iod_forced ||| mask :=
    u16_of_lt (or_lt_65536 hf hm)
  have e2 : u16 (DEVSTATUS iod ||| (mask &&& iod.iod_smask)) =
      DEVSTATUS iod ||| (mask &&& iod.iod_smask) :=
    u16_of_lt (or_lt_65536 hst (and_lt_65536 _ hm))
  have e3 : u16 (iod.iod_forced &&& cnot mask) = iod.iod_forced &&& cnot mask :=
    u16_of_lt (and_lt_65536 _ hf)
  have e4 : u16 (DEVSTATUS iod &&& cnot mask) = DEVSTATUS iod &&& cnot mask :=
    u16_of_lt (and_lt_65536 _ hst)
  have s1 : fw_setForced iod mask =
      { iod with
        iod_forced := iod.iod_forced ||| mask,
        iod_readR := Function.update iod.iod_readR 1
          (DEVSTATUS iod ||| (mask &&& iod.iod_smask)) } := by
    unfold fw_setForced setDEVSTATUS
    simp only [DEVSTATUS] at e2 ⊢
    rw [e1, e2]
  have s2 : fw_clearForced iod mask =
      { iod with
        iod_forced := iod.iod_forced &&& cnot mask,
        iod_readR := Function.update iod.iod_readR 1 (DEVSTATUS iod &&& cnot mask) } := by
    unfold fw_clearForced setDEVSTATUS
    simp only [DEVSTATUS] at e4 ⊢
    rw [e3, e4]
  refine ⟨s1, s2, ?_, ?_⟩
  · rw [s2]
    exact and_cnot_and_self _ _ hm
  · rw [s2]
    simp only [DEVSTATUS, Function.update_same]
    exact and_cnot_and_self _ _ hm

/-- Witness of C9: `IO_ST_READY | IO_ST_BUSY` forced on, then off, the sample
descriptor. -/
theorem fw_forced_bits_witness :
    (0x0003 : Nat) < 65536 ∧ exIod.iod_forced < 65536 ∧ DEVSTATUS exIod < 65536 ∧
    (fw_setForced exIod 0x0003).iod_forced = 0x0003 ∧
    DEVSTATUS (fw_setForced exIod 0x0003) = 0x0003 ∧
    (fw_clearForced exIod 0x0003).iod_forced &&& 0x0003 = 0 ∧
    DEVSTATUS (fw_clearForced exIod 0x0003) &&& 0x0003 = 0 :=
  have w := fw_forced_bits exIod 0x0003 (by decide) (by decide) (by decide)
  ⟨by decide, by decide, by decide, by rw [w.1]; decide, by rw [w.1]; decide,
    w.2.2.1, w.2.2.2⟩

/-! ## Data-signal completion -/

theorem testBit_of_and_eq {a c : Nat} (h : a &&& c = c) (i : Nat) (hc : c.testBit i = true) :
    a.testBit i = true := by
  have h1 : (a &&& c).testBit i = c.testBit i := by rw [h]
  rw [Nat.testBit_and, hc] at h1
  simpa using h1

theorem testBit_of_and_eq_zero {a c : Nat} (h : a &&& c = 0) (i : Nat)
    (ha : a.testBit i = true) : c.testBit i = false := by
  have h1 : (a &&& c).testBit i = false := by rw [h]; simp
  rw [Nat.testBit_and, ha] at h1
  simpa using h1

theorem and_eq_of_testBit {a c : Nat} (h : ∀ i, c.testBit i = true → a.testBit i = true) :
    a &&& c = c := by
  apply Nat.eq_of_testBit_eq
  intro i
  rw [Nat.testBit_and]
  cases hc : c.testBit i
  · simp
  · simp [h i hc]

theorem testBit_0xFFFF (i : Nat) : (0xFFFF : Nat).testBit i = decide (i < 16) := by
  have h16 : (0xFFFF : Nat) = 2 ^ 16 - 1 := by norm_num
  rw [h16, Nat.testBit_two_pow_sub_one]

/-- The calls of `fw_IOintr` with a reason, when some interrupt of `iod_imask` is
enabled and the interrupt condition holds. -/
theorem fw_IOintr_calls_raise (k : Defs) (cb : Backend) (other : Bool) (dev : DEVICE)
    (iod : IO_DEVICE) (set clr mask : Nat) (w : String)
    (hen : ISENABLED iod iod.iod_imask = true)
    (hi : (stdIntr k (intrStatus k iod set clr mask) ||
      otherIntr cb other (intrStatus k iod set clr mask)) = true) :
    (fw_IOintr k cb other dev iod set clr mask (some w)).2 =
      [Call.rebuildPending (intrStatus k iod set clr mask)] ++
        otherCalls cb other (intrStatus k iod set clr mask) ++
        (if dev.dctrl &&& k.DBG_DINTR != 0 then
          [Call.fprintf w (fw_IOintr k cb other dev iod set clr mask (some w)).1] else []) ++
        [Call.RaiseExternalInterrupt (fw_IOintr k cb other dev iod set clr mask (some w)).1] := by
  have h : ISENABLED (intrStatus k iod set clr mask) (intrStatus k iod set clr mask).iod_imask =
      ISENABLED iod iod.iod_imask := rfl
  unfold fw_IOintr
  simp only [h, hen, hi, if_true]

theorem countP_isRaise_otherCalls (cb : Backend) (other : Bool) (iod : IO_DEVICE) :
    (otherCalls cb other iod).countP Call.isRaise = 0 := by
  unfold otherCalls
  cases other
  · simp
  · cases cb.iod_intr <;> simp [Call.isRaise]

theorem cdc1700_defs_WF : cdc1700_defs.WF := by
  constructor <;> decide

/-- C10. Data-signal completion with the interrupt enabled. For a descriptor with
`iod_smask = 0xFFFF`, no forced bits, the data interrupt enabled
( `ISENABLED(iod, IO_DIR_DATA)` ) and valid ( `IO_DIR_DATA` in `iod_imask` ), and
any initial status, `fw_IOcompleteData` with keep mask `0xFFFF` and a reason leaves
`IO_ST_READY`, `IO_ST_DATA` and `IO_ST_INT` set and `IO_ST_BUSY` clear, and the calls
it makes contain exactly one `RaiseExternalInterrupt`. -/
theorem fw_IOcompleteData_enabled (k : Defs) (cb : Backend) (other : Bool) (dev : DEVICE)
    (iod : IO_DEVICE) (why : String) (hk : k.WF)
    (hs : iod.iod_smask = 0xFFFF) (hf : iod.iod_forced = 0)
    (hen : ISENABLED iod k.IO_DIR_DATA = true)
    (hval : iod.iod_imask &&& k.IO_DIR_DATA = k.IO_DIR_DATA) :
    DEVSTATUS (fw_IOcompleteData k cb other dev iod 0xFFFF (some why)).1 &&& k.IO_ST_READY =
      k.IO_ST_READY ∧
    DEVSTATUS (fw_IOcompleteData k cb other dev iod 0xFFFF (some why)).1 &&& k.IO_ST_DATA =
      k.IO_ST_DATA ∧
    DEVSTATUS (fw_IOcompleteData k cb other dev iod 0xFFFF (some why)).1 &&& k.IO_ST_BUSY = 0 ∧
    DEVSTATUS (fw_IOcompleteData k cb other dev iod 0xFFFF (some why)).1 &&& k.IO_ST_INT =
      k.IO_ST_INT ∧
    (fw_IOcompleteData k cb other dev iod 0xFFFF (some why)).2.countP Call.isRaise = 1 := by
  have hd := hk.disjoint
  simp only [List.pairwise_cons, List.mem_cons, List.mem_singleton, forall_eq_or_imp,
    forall_eq, List.not_mem_nil, false_implies, implies_true, List.Pairwise.nil, and_true] at hd
  obtain ⟨-, -, ⟨-, hDB, -⟩, ⟨hIB, -⟩, hBR⟩ := hd
  -- the status after the mask step
  have h3 : ∀ i, (DEVSTATUS (intrStatus k iod (k.IO_ST_READY ||| k.IO_ST_DATA) k.IO_ST_BUSY
      0xFFFF)).testBit i =
      (decide (i < 16) && (((DEVSTATUS iod).testBit i &&
        !(k.IO_ST_BUSY.testBit i || k.IO_ST_INT.testBit i)) ||
        (k.IO_ST_READY.testBit i || k.IO_ST_DATA.testBit i))) := by
    intro i
    rw [testBit_intrStatus, hs, hf, testBit_0xFFFF]
    by_cases hi : i < 16
    · simp [hi]
    · simp [hi]
  -- the gate and the interrupt condition
  have hgate : ISENABLED iod iod.iod_imask = true := by
    unfold ISENABLED at *
    simp only [bne_iff_ne, ne_eq] at *
    rw [← ne_eq, ne_zero_iff_testBit] at *
    obtain ⟨i, hi⟩ := hen
    rw [Nat.testBit_and, Bool.and_eq_true] at hi
    exact ⟨i, by rw [Nat.testBit_and, hi.1, testBit_of_and_eq hval i hi.2]; rfl⟩
  have hdata : DEVSTATUS (intrStatus k iod (k.IO_ST_READY ||| k.IO_ST_DATA) k.IO_ST_BUSY
      0xFFFF) &&& k.IO_ST_DATA = k.IO_ST_DATA := by
    apply and_eq_of_testBit
    intro i hc
    rw [h3, hc]
    simp [testBit_lt_16 hk.data_lt hc]
  have hstd : stdIntr k (intrStatus k iod (k.IO_ST_READY ||| k.IO_ST_DATA) k.IO_ST_BUSY
      0xFFFF) = true := by
    unfold stdIntr
    have e : ISENABLED (intrStatus k iod (k.IO_ST_READY ||| k.IO_ST_DATA) k.IO_ST_BUSY 0xFFFF)
        k.IO_DIR_DATA = ISENABLED iod k.IO_DIR_DATA := rfl
    rw [e, hen, hdata]
    have : (k.IO_ST_DATA != 0) = true := by
      simp only [bne_iff_ne, ne_eq]
      exact Nat.pos_iff_ne_zero.mp hk.data_pos
    simp [this]
  have hcond : (stdIntr k (intrStatus k iod (k.IO_ST_READY ||| k.IO_ST_DATA) k.IO_ST_BUSY
      0xFFFF) || otherIntr cb other (intrStatus k iod (k.IO_ST_READY ||| k.IO_ST_DATA)
      k.IO_ST_BUSY 0xFFFF)) = true := by
    rw [hstd]
    rfl
  -- the final status
  have h4 : ∀ i, (DEVSTATUS (fw_IOcompleteData k cb other dev iod 0xFFFF (some why)).1).testBit i =
      (decide (i < 16) && ((((DEVSTATUS iod).testBit i &&
        !(k.IO_ST_BUSY.testBit i || k.IO_ST_INT.testBit i)) ||
        (k.IO_ST_READY.testBit i || k.IO_ST_DATA.testBit i)) || k.IO_ST_INT.testBit i)) := by
    intro i
    unfold fw_IOcompleteData
    rw [fw_IOintr_status, hgate, hcond]
    simp only [Bool.and_self, if_true, DEVSTATUS_setDEVSTATUS, testBit_u16, Nat.testBit_or, h3]
    by_cases hi : i < 16
    · simp [hi]
    · simp [hi]
  refine ⟨?_, ?_, ?_, ?_, ?_⟩
  · apply and_eq_of_testBit
    intro i hc
    rw [h4, hc]
    simp [testBit_lt_16 hk.ready_lt hc]
  · apply and_eq_of_testBit
    intro i hc
    rw [h4, hc]
    simp [testBit_lt_16 hk.data_lt hc]
  · rw [eq_zero_iff_testBit]
    intro i
    rw [Nat.testBit_and, h4]
    cases hB : k.IO_ST_BUSY.testBit i
    · simp
    · have hR : k.IO_ST_READY.testBit i = false := testBit_of_and_eq_zero hBR i hB
      have hD : k.IO_ST_DATA.testBit i = false := by
        cases hD : k.IO_ST_DATA.testBit i
        · rfl
        · rw [testBit_of_and_eq_zero hDB i hD] at hB
          exact Bool.noConfusion hB
      have hI : k.IO_ST_INT.testBit i = false := by
        cases hI : k.IO_ST_INT.testBit i
        · rfl
        · rw [testBit_of_and_eq_zero hIB i hI] at hB
          exact Bool.noConfusion hB
      simp [hR, hD, hI]
  · apply and_eq_of_testBit
    intro i hc
    rw [h4, hc]
    simp [testBit_lt_16 hk.int_lt hc]
  · unfold fw_IOcompleteData
    rw [fw_IOintr_calls_raise k cb other dev iod _ _ _ why hgate hcond]
    simp only [List.countP_append, countP_isRaise_otherCalls]
    by_cases hdbg : (dev.dctrl &&& k.DBG_DINTR != 0) = true
    · simp [hdbg, Call.isRaise]
    · simp [hdbg, Call.isRaise]

/-- Witness of C10: the scenario of the specification - every status bit valid,
the data interrupt enabled, status `IO_ST_BUSY`; the status left is
`IO_ST_READY | IO_ST_INT | IO_ST_DATA`. -/
theorem fw_IOcompleteData_enabled_witness :
    cdc1700_defs.WF ∧ exIod.iod_smask = 0xFFFF ∧ exIod.iod_forced = 0 ∧
    ISENABLED exIod cdc1700_defs.IO_DIR_DATA = true ∧
    exIod.iod_imask &&& cdc1700_defs.IO_DIR_DATA = cdc1700_defs.IO_DIR_DATA ∧
    DEVSTATUS exIod = cdc1700_defs.IO_ST_BUSY ∧
    DEVSTATUS (fw_IOcompleteData cdc1700_defs exBackend false (exDev 0) exIod 0xFFFF
      (some "complete")).1 = 0x000D ∧
    (fw_IOcompleteData cdc1700_defs exBackend false (exDev 0) exIod 0xFFFF
      (some "complete")).2.countP Call.isRaise = 1 :=
  have w := fw_IOcompleteData_enabled cdc1700_defs exBackend false (exDev 0) exIod "complete"
    cdc1700_defs_WF (by decide) (by decide) (by decide) (by decide)
  ⟨cdc1700_defs_WF, by decide, by decide, by decide, by decide, by decide, by decide,
    w.2.2.2.2⟩

/-! ## Data-signal completion with the interrupt disabled -/

theorem or_and_cnot (y c : Nat) : u16 (u16 y ||| c) &&& cnot c = u16 y &&& cnot c := by
  apply Nat.eq_of_testBit_eq
  intro i
  simp only [Nat.testBit_and, Nat.testBit_or, testBit_u16, testBit_cnot]
  by_cases hi : i < 16
  · have h32 : i < 32 := by omega
    simp only [hi, h32, decide_True, Bool.true_and, Bool.true_xor]
    cases y.testBit i <;> cases c.testBit i <;> rfl
  · simp [hi]

/-- The status bits other than `IO_ST_INT` that `fw_IOintr` leaves are those of the
mask step. -/
theorem fw_IOintr_status_but_INT (k : Defs) (cb : Backend) (other : Bool) (dev : DEVICE)
    (iod : IO_DEVICE) (set clr mask : Nat) (why : Option String) :
    DEVSTATUS (fw_IOintr k cb other dev iod set clr mask why).1 &&& cnot k.IO_ST_INT =
      u16 (u16 (u16 (DEVSTATUS iod &&& cnot (clr ||| k.IO_ST_INT)) |||
        (set ||| iod.iod_forced)) &&& (mask &&& iod.iod_smask)) &&& cnot k.IO_ST_INT := by
  rw [fw_IOintr_status]
  split_ifs
  · rw [DEVSTATUS_setDEVSTATUS, DEVSTATUS_intrStatus, or_and_cnot]
  · rw [DEVSTATUS_intrStatus]

/-- The calls of `fw_IOintr` when no interrupt of `iod_imask` is enabled or the
interrupt condition does not hold: no `RaiseExternalInterrupt` among them. -/
theorem fw_IOintr_calls_no_raise (k : Defs) (cb : Backend) (other : Bool) (dev : DEVICE)
    (iod : IO_DEVICE) (set clr mask : Nat) (why : Option String)
    (h : (ISENABLED iod iod.iod_imask &&
      (stdIntr k (intrStatus k iod set clr mask) ||
        otherIntr cb other (intrStatus k iod set clr mask))) = false) :
    (fw_IOintr k cb other dev iod set clr mask why).2.countP Call.isRaise = 0 := by
  have he : ISENABLED (intrStatus k iod set clr mask) (intrStatus k iod set clr mask).iod_imask =
      ISENABLED iod iod.iod_imask := rfl
  unfold fw_IOintr
  simp only [he]
  cases hen : ISENABLED iod iod.iod_imask
  · simp [Call.isRaise]
  · rw [hen, Bool.true_and] at h
    simp only [h, if_true, Bool.false_eq_true, if_false, List.countP_append,
      countP_isRaise_otherCalls]
    simp [Call.isRaise]

theorem or_and_eq_zero {a b c : Nat} (ha : c &&& a = 0) (hb : c &&& b = 0) :
    (a ||| b) &&& c = 0 := by
  rw [eq_zero_iff_testBit]
  intro i
  rw [Nat.testBit_and, Nat.testBit_or]
  cases hc : c.testBit i
  · simp
  · rw [testBit_of_and_eq_zero ha i hc, testBit_of_and_eq_zero hb i hc]
    rfl

/-- C11 as stated fails: with the data interrupt disabled, `IO_ST_INT` is still set
and `RaiseExternalInterrupt` still invoked when another source fires. (1) Only
the alarm interrupt is enabled ( `IO_DIR_DATA` clear in `iod_ienable` ), the
device-specific check is permitted and reports an interrupt. (2) `IO_DIR_DATA` is
not valid in `iod_imask` but is enabled in `iod_ienable`, and the alarm interrupt,
enabled and valid, opens the guard `ISENABLED(iod, iod->iod_imask)`. In both the
status left is `IO_ST_READY | IO_ST_INT | IO_ST_DATA`. -/
theorem fw_IOcompleteData_disabled_counterexample :
    (ISENABLED exIodAlarm cdc1700_defs.IO_DIR_DATA = false ∧
      DEVSTATUS exIodAlarm = cdc1700_defs.IO_ST_BUSY ∧
      DEVSTATUS (fw_IOcompleteData cdc1700_defs exBackendIntr true (exDev 0) exIodAlarm 0xFFFF
        (some "complete")).1 = 0x000D ∧
      (fw_IOcompleteData cdc1700_defs exBackendIntr true (exDev 0) exIodAlarm 0xFFFF
        (some "complete")).2.countP Call.isRaise = 1) ∧
    (exIodMasked.iod_imask &&& cdc1700_defs.IO_DIR_DATA = 0 ∧
      DEVSTATUS exIodMasked = cdc1700_defs.IO_ST_BUSY ∧
      DEVSTATUS (fw_IOcompleteData cdc1700_defs exBackend false (exDev 0) exIodMasked 0xFFFF
        (some "complete")).1 = 0x000D ∧
      (fw_IOcompleteData cdc1700_defs exBackend false (exDev 0) exIodMasked 0xFFFF
        (some "complete")).2.countP Call.isRaise = 1) := by
  refine ⟨⟨by decide, by decide, by decide, by decide⟩,
    ⟨by decide, by decide, by decide, by decide⟩⟩

/-- C11, amended. For a descriptor as in the enabled scenario ( `iod_smask = 0xFFFF`,
no forced bits, status `IO_ST_BUSY`, keep mask `0xFFFF` ) in which either no
interrupt of `iod_imask` is enabled, or `IO_DIR_DATA` is not enabled in `iod_ienable`
and the device-specific check (when permitted and present) reports no interrupt,
`fw_IOcompleteData` leaves the status `IO_ST_READY | IO_ST_DATA` - `IO_ST_READY` and
`IO_ST_DATA` set, `IO_ST_BUSY` and `IO_ST_INT` clear - and makes no call to
`RaiseExternalInterrupt`. In general the status bits other than `IO_ST_INT` after
`fw_IOintr` depend only on the status, forced bits and valid-status mask of the
descriptor and on the set, clear and keep arguments: not on `iod_ienable`,
`iod_imask`, the device-specific check or the reason. -/
theorem fw_IOcompleteData_disabled (k : Defs) (cb : Backend) (other : Bool) (dev : DEVICE)
    (iod : IO_DEVICE) (why : Option String) (hk : k.WF)
    (hs : iod.iod_smask = 0xFFFF) (hf : iod.iod_forced = 0)
    (hst : DEVSTATUS iod = k.IO_ST_BUSY)
    (hdis : ISENABLED iod iod.iod_imask = false ∨
      (ISENABLED iod k.IO_DIR_DATA = false ∧
        otherIntr cb other
          (intrStatus k iod (k.IO_ST_READY ||| k.IO_ST_DATA) k.IO_ST_BUSY 0xFFFF) = false)) :
    (DEVSTATUS (fw_IOcompleteData k cb other dev iod 0xFFFF why).1 =
        k.IO_ST_READY ||| k.IO_ST_DATA ∧
      DEVSTATUS (fw_IOcompleteData k cb other dev iod 0xFFFF why).1 &&& k.IO_ST_BUSY = 0 ∧
      DEVSTATUS (fw_IOcompleteData k cb other dev iod 0xFFFF why).1 &&& k.IO_ST_INT = 0 ∧
      (fw_IOcompleteData k cb other dev iod 0xFFFF why).2.countP Call.isRaise = 0) ∧
    ∀ (cb2 : Backend) (other2 : Bool) (dev2 : DEVICE) (iod2 : IO_DEVICE)
      (why2 : Option String) (set clr mask : Nat),
      DEVSTATUS iod2 = DEVSTATUS iod → iod2.iod_forced = iod.iod_forced →
      iod2.iod_smask = iod.iod_smask →
      DEVSTATUS (fw_IOintr k cb2 other2 dev2 iod2 set clr mask why2).1 &&& cnot k.IO_ST_INT =
        DEVSTATUS (fw_IOintr k cb other dev iod set clr mask why).1 &&& cnot k.IO_ST_INT := by
  have hd := hk.disjoint
  simp only [List.pairwise_cons, List.mem_cons, List.mem_singleton, forall_eq_or_imp,
    forall_eq, List.not_mem_nil, false_implies, implies_true, List.Pairwise.nil, and_true] at hd
  obtain ⟨⟨-, hAD, -, -, hAR⟩, ⟨hED, -, -, hER⟩, ⟨-, hDB, -⟩, ⟨hIB, hIR⟩, hBR⟩ := hd
  have hDI : k.IO_ST_DATA &&& k.IO_ST_INT = 0 := by
    have := hk.disjoint
    simp only [List.pairwise_cons, List.mem_cons, List.mem_singleton, forall_eq_or_imp,
      forall_eq, List.not_mem_nil, false_implies, implies_true, List.Pairwise.nil,
      and_true] at this
    exact this.2.2.1.1
  have hRD16 : k.IO_ST_READY ||| k.IO_ST_DATA < 65536 := or_lt_65536 hk.ready_lt hk.data_lt
  -- the status after the mask step
  have h3 : DEVSTATUS (intrStatus k iod (k.IO_ST_READY ||| k.IO_ST_DATA) k.IO_ST_BUSY 0xFFFF) =
      k.IO_ST_READY ||| k.IO_ST_DATA := by
    apply Nat.eq_of_testBit_eq
    intro i
    rw [testBit_intrStatus, hs, hf, hst, testBit_0xFFFF]
    cases hRD : (k.IO_ST_READY ||| k.IO_ST_DATA).testBit i
    · rw [Nat.testBit_or] at hRD
      simp only [hRD, Nat.zero_testBit, Bool.or_false]
      cases k.IO_ST_BUSY.testBit i <;> cases k.IO_ST_INT.testBit i <;> simp
    · have hi : i < 16 := testBit_lt_16 hRD16 hRD
      rw [Nat.testBit_or] at hRD
      simp [hRD, hi]
  -- the interrupt condition does not hold
  have hcond : (ISENABLED iod iod.iod_imask &&
      (stdIntr k (intrStatus k iod (k.IO_ST_READY ||| k.IO_ST_DATA) k.IO_ST_BUSY 0xFFFF) ||
        otherIntr cb other
          (intrStatus k iod (k.IO_ST_READY ||| k.IO_ST_DATA) k.IO_ST_BUSY 0xFFFF))) = false := by
    rcases hdis with hg | ⟨hen, hoth⟩
    · rw [hg]
      rfl
    · have e : ISENABLED (intrStatus k iod (k.IO_ST_READY ||| k.IO_ST_DATA) k.IO_ST_BUSY 0xFFFF)
          k.IO_DIR_DATA = ISENABLED iod k.IO_DIR_DATA := rfl
      have hstd : stdIntr k
          (intrStatus k iod (k.IO_ST_READY ||| k.IO_ST_DATA) k.IO_ST_BUSY 0xFFFF) = false := by
        unfold stdIntr
        rw [h3, e, hen, or_and_eq_zero hAR hAD, or_and_eq_zero hER hED]
        simp
      rw [hstd, hoth]
      simp
  have hfin : (fw_IOcompleteData k cb other dev iod 0xFFFF why).1 =
      intrStatus k iod (k.IO_ST_READY ||| k.IO_ST_DATA) k.IO_ST_BUSY 0xFFFF := by
    unfold fw_IOcompleteData
    rw [fw_IOintr_status, hcond]
    simp
  refine ⟨⟨?_, ?_, ?_, ?_⟩, ?_⟩
  · rw [hfin, h3]
  · rw [hfin, h3]
    exact or_and_eq_zero hBR (by rw [Nat.land_comm]; exact hDB)
  · rw [hfin, h3]
    exact or_and_eq_zero hIR (by rw [Nat.land_comm]; exact hDI)
  · unfold fw_IOcompleteData
    exact fw_IOintr_calls_no_raise k cb other dev iod _ _ _ why hcond
  · intro cb2 other2 dev2 iod2 why2 set clr mask e1 e2 e3
    rw [fw_IOintr_status_but_INT, fw_IOintr_status_but_INT, e1, e2, e3]

/-- Witness of C11 (amended): the scenario of the specification - every status bit
valid, no interrupt enabled, status `IO_ST_BUSY`; the status left is
`IO_ST_READY | IO_ST_DATA`. -/
theorem fw_IOcompleteData_disabled_witness :
    cdc1700_defs.WF ∧ exIodQuiet.iod_smask = 0xFFFF ∧ exIodQuiet.iod_forced = 0 ∧
    DEVSTATUS exIodQuiet = cdc1700_defs.IO_ST_BUSY ∧
    ISENABLED exIodQuiet exIodQuiet.iod_imask = false ∧
    DEVSTATUS (fw_IOcompleteData cdc1700_defs exBackend false (exDev 0) exIodQuiet 0xFFFF
      (some "complete")).1 = 0x0009 ∧
    (fw_IOcompleteData cdc1700_defs exBackend false (exDev 0) exIodQuiet 0xFFFF
      (some "complete")).2.countP Call.isRaise = 0 :=
  have w := fw_IOcompleteData_disabled cdc1700_defs exBackend false (exDev 0) exIodQuiet
    (some "complete") cdc1700_defs_WF (by decide) (by decide) (by decide) (Or.inl (by decide))
  ⟨cdc1700_defs_WF, by decide, by decide, by decide, by decide, w.1.1, w.1.2.2.2⟩

/-! ## Silent updates -/

theorem countP_isRebuild_otherCalls (cb : Backend) (other : Bool) (iod : IO_DEVICE) :
    (otherCalls cb other iod).countP Call.isRebuild = 0 := by
  unfold otherCalls
  cases other
  · simp
  · cases cb.iod_intr <;> simp [Call.isRebuild]

/-- C12 as stated fails: with no reason and the interrupt condition true (the data
interrupt enabled and valid, `IO_ST_DATA` among the set bits), `fw_IOintr` invokes
`rebuildPending` twice - after the mask step and again after setting
`IO_ST_INT` - and never `RaiseExternalInterrupt`. -/
theorem fw_IOintr_silent_counterexample :
    (fw_IOintr cdc1700_defs exBackend false (exDev 0) exIod 0x0008 0 0xFFFF none).2.countP
      Call.isRebuild = 2 ∧
    (fw_IOintr cdc1700_defs exBackend false (exDev 0) exIod 0x0008 0 0xFFFF none).2.countP
      Call.isRaise = 0 := by
  refine ⟨by decide, by decide⟩

/-- C12, amended. A call of `fw_IOintr` with no reason never invokes
`RaiseExternalInterrupt`, whatever the interrupt condition. Its first call is
`rebuildPending`, on the status as cleared, set and masked; the device-specific
check follows when some interrupt of `iod_imask` is enabled (and the check is
permitted and present); and when the interrupt condition holds `rebuildPending`
is invoked a second time, last, on the status with `IO_ST_INT` set. So
`rebuildPending` is invoked once when the condition does not hold, twice when it
does. -/
theorem fw_IOintr_silent (k : Defs) (cb : Backend) (other : Bool) (dev : DEVICE)
    (iod : IO_DEVICE) (set clr mask : Nat) :
    (fw_IOintr k cb other dev iod set clr mask none).2.countP Call.isRaise = 0 ∧
    (fw_IOintr k cb other dev iod set clr mask none).2 =
      [Call.rebuildPending (intrStatus k iod set clr mask)] ++
        (if ISENABLED iod iod.iod_imask then otherCalls cb other (intrStatus k iod set clr mask)
          else []) ++
        (if ISENABLED iod iod.iod_imask &&
            (stdIntr k (intrStatus k iod set clr mask) ||
              otherIntr cb other (intrStatus k iod set clr mask)) then
          [Call.rebuildPending (fw_IOintr k cb other dev iod set clr mask none).1] else []) ∧
    (fw_IOintr k cb other dev iod set clr mask none).2.countP Call.isRebuild =
      if ISENABLED iod iod.iod_imask &&
          (stdIntr k (intrStatus k iod set clr mask) ||
            otherIntr cb other (intrStatus k iod set clr mask)) then 2 else 1 := by
  have he : ISENABLED (intrStatus k iod set clr mask) (intrStatus k iod set clr mask).iod_imask =
      ISENABLED iod iod.iod_imask := rfl
  have hcalls : (fw_IOintr k cb other dev iod set clr mask none).2 =
      [Call.rebuildPending (intrStatus k iod set clr mask)] ++
        (if ISENABLED iod iod.iod_imask then otherCalls cb other (intrStatus k iod set clr mask)
          else []) ++
        (if ISENABLED iod iod.iod_imask &&
            (stdIntr k (intrStatus k iod set clr mask) ||
              otherIntr cb other (intrStatus k iod set clr mask)) then
          [Call.rebuildPending (fw_IOintr k cb other dev iod set clr mask none).1] else []) := by
    unfold fw_IOintr
    simp only [he]
    cases hen : ISENABLED iod iod.iod_imask
    · simp
    · cases hi : (stdIntr k (intrStatus k iod set clr mask) ||
          otherIntr cb other (intrStatus k iod set clr mask))
      · simp [hi]
      · simp [hi]
  refine ⟨?_, hcalls, ?_⟩
  · rw [hcalls]
    simp only [List.countP_append]
    cases hen : ISENABLED iod iod.iod_imask
    · simp [Call.isRaise]
    · cases hi : (stdIntr k (intrStatus k iod set clr mask) ||
          otherIntr cb other (intrStatus k iod set clr mask))
      · simp [countP_isRaise_otherCalls, Call.isRaise]
      · simp [countP_isRaise_otherCalls, Call.isRaise]
  · rw [hcalls]
    simp only [List.countP_append]
    cases hen : ISENABLED iod iod.iod_imask
    · simp [Call.isRebuild]
    · cases hi : (stdIntr k (intrStatus k iod set clr mask) ||
          otherIntr cb other (intrStatus k iod set clr mask))
      · simp [countP_isRebuild_otherCalls, Call.isRebuild]
      · simp [countP_isRebuild_otherCalls, Call.isRebuild]

/-! ## Generic reject check -/

/-- C13. `fw_reject` returns true if and only if the access is a write, the
register is not register 1 and `IO_ST_READY` is clear in the status; it never
rejects a read and never rejects a write to register 1. It is a function of the
descriptor, the direction and the register only and returns only its answer:
no state is changed. -/
theorem fw_reject_iff (k : Defs) (iod : IO_DEVICE) (output : Bool) (reg : Nat) :
    (fw_reject k iod output reg = true ↔
      output = true ∧ reg ≠ 1 ∧ DEVSTATUS iod &&& k.IO_ST_READY = 0) ∧
    fw_reject k iod false reg = false ∧
    fw_reject k iod output 1 = false := by
  unfold fw_reject
  refine ⟨?_, ?_, ?_⟩
  · cases output
    · simp
    · by_cases hr : reg = 1
      · simp [hr]
      · simp [hr]
  · simp
  · simp

/-! ## Channel device locator -/

theorem scanUnits_iff (ctxt : Option Nat) (units : List UNIT) :
    scanUnits ctxt units = true ↔ ∃ u ∈ units, u.up8 = ctxt := by
  induction units with
  | nil => simp [scanUnits]
  | cons u rest ih =>
    unfold scanUnits
    by_cases h : u.up8 = ctxt
    · simp [h]
    · simp [h, ih]

/-- C14. `fw_findChanDevice` returns a descriptor `x` if and only if the entry of the
device table selected by the equipment field of the address,
`IOdev[(addr & IO_EQUIPMENT) >> 7]`, is non-empty, `x` is the context of that
entry, and some unit of the owning device has `up8` pointing to `x`. In every
other case it returns `NULL`: the result is never a descriptor other than the
context of the selected entry, it is `NULL` when the selected entry is empty, and
it is `NULL` when the owning device has no units. -/
theorem fw_findChanDevice_iff (k : Defs) (IOdev : Nat → Option DEVICE) (dptr : DEVICE)
    (addr x : Nat) :
    (fw_findChanDevice k IOdev dptr addr = some x ↔
      ∃ target, IOdev ((addr &&& k.IO_EQUIPMENT) >>> 7) = some target ∧
        target.ctxt = some x ∧ ∃ u ∈ dptr.units, u.up8 = some x) ∧
    (fw_findChanDevice k IOdev dptr addr = none ∨
      ∃ target, IOdev ((addr &&& k.IO_EQUIPMENT) >>> 7) = some target ∧
        fw_findChanDevice k IOdev dptr addr = target.ctxt) ∧
    (IOdev ((addr &&& k.IO_EQUIPMENT) >>> 7) = none →
      fw_findChanDevice k IOdev dptr addr = none) ∧
    fw_findChanDevice k IOdev { dptr with units := [] } addr = none := by
  unfold fw_findChanDevice
  cases hT : IOdev ((addr &&& k.IO_EQUIPMENT) >>> 7) with
  | none => simp
  | some target =>
    simp only [Option.some.injEq, exists_eq_left']
    refine ⟨?_, ?_, fun h => Option.noConfusion h, by simp [scanUnits]⟩
    · by_cases hs : scanUnits target.ctxt dptr.units = true
      · rw [if_pos hs]
        rw [scanUnits_iff] at hs
        constructor
        · intro hx
          refine ⟨hx, ?_⟩
          rw [← hx]
          exact hs
        · intro hx
          exact hx.1
      · rw [if_neg hs]
        rw [scanUnits_iff] at hs
        constructor
        · intro hx
          exact Option.noConfusion hx
        · rintro ⟨hx, hu⟩
          exact absurd (hx ▸ hu) hs
    · by_cases hs : scanUnits target.ctxt dptr.units = true
      · rw [if_pos hs]
        exact Or.inr rfl
      · rw [if_neg hs]
        exact Or.inl rfl

/-- Witness of C14: the address `0x0180` selects equipment 3, whose entry is the
target device; an owner with a unit pointing to the target's context finds it,
an owner whose only unit points elsewhere does not, and an address selecting an
empty entry finds nothing. -/
theorem fw_findChanDevice_iff_witness :
    fw_findChanDevice cdc1700_defs exIOdev (exOwner [{ up8 := none }, { up8 := some exCtxt }])
      0x0180 = some exCtxt ∧
    fw_findChanDevice cdc1700_defs exIOdev (exOwner [{ up8 := some 9 }]) 0x0180 = none ∧
    exIOdev ((0x0200 &&& cdc1700_defs.IO_EQUIPMENT) >>> 7) = none ∧
    fw_findChanDevice cdc1700_defs exIOdev (exOwner [{ up8 := some exCtxt }]) 0x0200 = none :=
  have w1 := fw_findChanDevice_iff cdc1700_defs exIOdev
    (exOwner [{ up8 := none }, { up8 := some exCtxt }]) 0x0180 exCtxt
  have w2 := fw_findChanDevice_iff cdc1700_defs exIOdev
    (exOwner [{ up8 := some exCtxt }]) 0x0200 exCtxt
  ⟨w1.1.2 ⟨exTarget, by decide, by decide, { up8 := some exCtxt }, by decide, rfl⟩,
    by decide, by decide, w2.2.2.1 (by decide)⟩

/-! ## Once-only initialization -/

/-- What one pass of the loop of `fw_init` does to the descriptors. -/
theorem fw_init_dev_ok (k : Defs) (heap heap1 : Nat → IO_DEVICE) (i : Nat) (dptr : DEVICE)
    (h : fw_init_dev k heap i dptr = .ok heap1) :
    ∃ p, dptr.ctxt = some p ∧ (∀ q, q ≠ p → heap1 q = heap q) ∧
      (heap1 p).iod_equip = (heap p).iod_equip ∧
      (heap1 p).iod_interrupt = u16 (1 <<< (heap p).iod_equip) ∧
      (heap1 p).iod_indev =
        (if dptr.flags &&& k.DEV_INDEV != 0 then some i else (heap p).iod_indev) ∧
      (heap1 p).iod_outdev =
        (if dptr.flags &&& k.DEV_OUTDEV != 0 then some i else (heap p).iod_outdev) := by
  unfold fw_init_dev at h
  cases hc : dptr.ctxt with
  | none => simp [hc] at h
  | some p =>
    simp only [hc, Except.ok.injEq] at h
    subst h
    refine ⟨p, rfl, ?_, ?_, ?_, ?_, ?_⟩
    · intro q hq
      simp [Function.update_noteq hq]
    · simp only [Function.update_same]
      split_ifs <;> rfl
    · simp only [Function.update_same]
    · simp only [Function.update_same]
      split_ifs <;> rfl
    · simp only [Function.update_same]
      split_ifs <;> rfl

theorem fw_init_loop_cons (k : Defs) (dptr : DEVICE) (rest : List DEVICE) (i : Nat)
    (heap heap2 : Nat → IO_DEVICE) (h : fw_init_loop k (dptr :: rest) i heap = .ok heap2) :
    ∃ heap1, fw_init_dev k heap i dptr = .ok heap1 ∧
      fw_init_loop k rest (i + 1) heap1 = .ok heap2 := by
  unfold fw_init_loop at h
  cases hd : fw_init_dev k heap i dptr with
  | error e => simp [hd] at h
  | ok heap1 =>
    simp only [hd] at h
    exact ⟨heap1, rfl, h⟩

theorem fw_init_loop_total (k : Defs) (devs : List DEVICE) :
    ∀ (i : Nat) (heap : Nat → IO_DEVICE), (∀ d ∈ devs, d.ctxt ≠ none) →
      ∃ heap2, fw_init_loop k devs i heap = .ok heap2 := by
  induction devs with
  | nil => intro i heap _; exact ⟨heap, rfl⟩
  | cons d rest ih =>
    intro i heap hc
    have hd : d.ctxt ≠ none := hc d (List.mem_cons_self _ _)
    obtain ⟨p, hp⟩ := Option.ne_none_iff_exists'.mp hd
    unfold fw_init_loop
    unfold fw_init_dev
    simp only [hp]
    exact ih _ _ (fun d2 h2 => hc d2 (List.mem_cons_of_mem _ h2))

theorem fw_init_loop_equip (k : Defs) (devs : List DEVICE) :
    ∀ (i : Nat) (heap heap2 : Nat → IO_DEVICE), fw_init_loop k devs i heap = .ok heap2 →
      ∀ q, (heap2 q).iod_equip = (heap q).iod_equip := by
  induction devs with
  | nil =>
    intro i heap heap2 h q
    simp only [fw_init_loop, Except.ok.injEq] at h
    rw [h]
  | cons d rest ih =>
    intro i heap heap2 h q
    obtain ⟨heap1, h1, h2⟩ := fw_init_loop_cons k d rest i heap heap2 h
    obtain ⟨p, -, hne, heq, -⟩ := fw_init_dev_ok k heap heap1 i d h1
    rw [ih _ _ _ h2 q]
    by_cases hq : q = p
    · rw [hq, heq]
    · rw [hne q hq]

theorem fw_init_loop_untouched (k : Defs) (p : Nat) (devs : List DEVICE) :
    ∀ (i : Nat) (heap heap2 : Nat → IO_DEVICE), fw_init_loop k devs i heap = .ok heap2 →
      (∀ d ∈ devs, d.ctxt ≠ some p) → heap2 p = heap p := by
  induction devs with
  | nil =>
    intro i heap heap2 h _
    simp only [fw_init_loop, Except.ok.injEq] at h
    rw [h]
  | cons d rest ih =>
    intro i heap heap2 h hn
    obtain ⟨heap1, h1, h2⟩ := fw_init_loop_cons k d rest i heap heap2 h
    obtain ⟨p0, hp0, hne, -⟩ := fw_init_dev_ok k heap heap1 i d h1
    rw [ih _ _ _ h2 (fun d2 hd2 => hn d2 (List.mem_cons_of_mem _ hd2))]
    apply hne
    intro hpp
    apply hn d (List.mem_cons_self _ _)
    rw [hp0, hpp]

theorem fw_init_loop_interrupt (k : Defs) (p : Nat) (devs : List DEVICE) :
    ∀ (i : Nat) (heap heap2 : Nat → IO_DEVICE), fw_init_loop k devs i heap = .ok heap2 →
      (∃ d ∈ devs, d.ctxt = some p) →
      (heap2 p).iod_interrupt = u16 (1 <<< (heap p).iod_equip) := by
  induction devs with
  | nil =>
    intro i heap heap2 _ hex
    obtain ⟨d, hd, -⟩ := hex
    exact absurd hd (List.not_mem_nil d)
  | cons d rest ih =>
    intro i heap heap2 h hex
    obtain ⟨heap1, h1, h2⟩ := fw_init_loop_cons k d rest i heap heap2 h
    obtain ⟨p0, hp0, hne, heq, hint, -⟩ := fw_init_dev_ok k heap heap1 i d h1
    have hequip : (heap1 p).iod_equip = (heap p).iod_equip := by
      by_cases hq : p = p0
      · rw [hq, heq]
      · rw [hne p hq]
    by_cases hr : ∃ d2 ∈ rest, d2.ctxt = some p
    · rw [ih _ _ _ h2 hr, hequip]
    · have hun : ∀ d2 ∈ rest, d2.ctxt ≠ some p := fun d2 hd2 hc => hr ⟨d2, hd2, hc⟩
      rw [fw_init_loop_untouched k p rest _ _ _ h2 hun]
      obtain ⟨d2, hd2, hc2⟩ := hex
      rcases List.mem_cons.mp hd2 with hdd | hdd
      · rw [hdd, hp0] at hc2
        have hpp : p0 = p := Option.some.inj hc2
        rw [← hpp, hint]
      · exact absurd hc2 (hun d2 hdd)

theorem fw_init_loop_indev_kept (k : Defs) (p : Nat) (devs : List DEVICE) :
    ∀ (i : Nat) (heap heap2 : Nat → IO_DEVICE), fw_init_loop k devs i heap = .ok heap2 →
      (∀ d ∈ devs, d.ctxt = some p → d.flags &&& k.DEV_INDEV = 0) →
      (heap2 p).iod_indev = (heap p).iod_indev := by
  induction devs with
  | nil =>
    intro i heap heap2 h _
    simp only [fw_init_loop, Except.ok.injEq] at h
    rw [h]
  | cons d rest ih =>
    intro i heap heap2 h hn
    obtain ⟨heap1, h1, h2⟩ := fw_init_loop_cons k d rest i heap heap2 h
    obtain ⟨p0, hp0, hne, -, -, hin, hout⟩ := fw_init_dev_ok k heap heap1 i d h1
    rw [ih _ _ _ h2 (fun d2 hd2 => hn d2 (List.mem_cons_of_mem _ hd2))]
    by_cases hq : p = p0
    · have hfl : d.flags &&& k.DEV_INDEV = 0 := hn d (List.mem_cons_self _ _) (by rw [hp0, hq])
      rw [hq, hin, hfl]
      simp
    · rw [hne p hq]

theorem fw_init_loop_indev (k : Defs) (p : Nat) (devs : List DEVICE) :
    ∀ (i : Nat) (heap heap2 : Nat → IO_DEVICE) (j : Nat) (d : DEVICE),
      fw_init_loop k devs i heap = .ok heap2 →
      devs[j]? = some d → d.ctxt = some p → d.flags &&& k.DEV_INDEV ≠ 0 →
      (∀ j2 d2, j < j2 → devs[j2]? = some d2 → d2.ctxt = some p → d2.flags &&& k.DEV_INDEV = 0) →
      (heap2 p).iod_indev = some (i + j) := by
  induction devs with
  | nil =>
    intro i heap heap2 j d _ hj
    simp at hj
  | cons d0 rest ih =>
    intro i heap heap2 j d h hj hc hf hlast
    obtain ⟨heap1, h1, h2⟩ := fw_init_loop_cons k d0 rest i heap heap2 h
    obtain ⟨p0, hp0, hne, -, -, hin, hout⟩ := fw_init_dev_ok k heap heap1 i d0 h1
    cases j with
    | zero =>
      simp only [List.getElem?_cons_zero, Option.some.injEq] at hj
      subst hj
      have hpp : p0 = p := by
        rw [hp0] at hc
        exact Option.some.inj hc
      have hrest : ∀ d2 ∈ rest, d2.ctxt = some p → d2.flags &&& k.DEV_INDEV = 0 := by
        intro d2 hd2 hc2
        obtain ⟨n, hn⟩ := List.getElem?_of_mem hd2
        exact hlast (n + 1) d2 (Nat.succ_pos n) (by simpa using hn) hc2
      rw [fw_init_loop_indev_kept k p rest _ _ _ h2 hrest, ← hpp, hin]
      simp [hf]
    | succ n =>
      simp only [List.getElem?_cons_succ] at hj
      have := ih (i + 1) heap1 heap2 n d h2 hj hc hf (by
        intro j2 d2 hlt hj2 hc2
        exact hlast (j2 + 1) d2 (by omega) (by simpa using hj2) hc2)
      rw [this]
      congr 1
      omega

theorem fw_init_loop_outdev_kept (k : Defs) (p : Nat) (devs : List DEVICE) :
    ∀ (i : Nat) (heap heap2 : Nat → IO_DEVICE), fw_init_loop k devs i heap = .ok heap2 →
      (∀ d ∈ devs, d.ctxt = some p → d.flags &&& k.DEV_OUTDEV = 0) →
      (heap2 p).iod_outdev = (heap p).iod_outdev := by
  induction devs with
  | nil =>
    intro i heap heap2 h _
    simp only [fw_init_loop, Except.ok.injEq] at h
    rw [h]
  | cons d rest ih =>
    intro i heap heap2 h hn
    obtain ⟨heap1, h1, h2⟩ := fw_init_loop_cons k d rest i heap heap2 h
    obtain ⟨p0, hp0, hne, -, -, hin, hout⟩ := fw_init_dev_ok k heap heap1 i d h1
    rw [ih _ _ _ h2 (fun d2 hd2 => hn d2 (List.mem_cons_of_mem _ hd2))]
    by_cases hq : p = p0
    · have hfl : d.flags &&& k.DEV_OUTDEV = 0 := hn d (List.mem_cons_self _ _) (by rw [hp0, hq])
      rw [hq, hout, hfl]
      simp
    · rw [hne p hq]

theorem fw_init_loop_outdev (k : Defs) (p : Nat) (devs : List DEVICE) :
    ∀ (i : Nat) (heap heap2 : Nat → IO_DEVICE) (j : Nat) (d : DEVICE),
      fw_init_loop k devs i heap = .ok heap2 →
      devs[j]? = some d → d.ctxt = some p → d.flags &&& k.DEV_OUTDEV ≠ 0 →
      (∀ j2 d2, j < j2 → devs[j2]? = some d2 → d2.ctxt = some p → d2.flags &&& k.DEV_OUTDEV = 0) →
      (heap2 p).iod_outdev = some (i + j) := by
  induction devs with
  | nil =>
    intro i heap heap2 j d _ hj
    simp at hj
  | cons d0 rest ih =>
    intro i heap heap2 j d h hj hc hf hlast
    obtain ⟨heap1, h1, h2⟩ := fw_init_loop_cons k d0 rest i heap heap2 h
    obtain ⟨p0, hp0, hne, -, -, hin, hout⟩ := fw_init_dev_ok k heap heap1 i d0 h1
    cases j with
    | zero =>
      simp only [List.getElem?_cons_zero, Option.some.injEq] at hj
      subst hj
      have hpp : p0 = p := by
        rw [hp0] at hc
        exact Option.some.inj hc
      have hrest : ∀ d2 ∈ rest, d2.ctxt = some p → d2.flags &&& k.DEV_OUTDEV = 0 := by
        intro d2 hd2 hc2
        obtain ⟨n, hn⟩ := List.getElem?_of_mem hd2
        exact hlast (n + 1) d2 (Nat.succ_pos n) (by simpa using hn) hc2
      rw [fw_init_loop_outdev_kept k p rest _ _ _ h2 hrest, ← hpp, hout]
      simp [hf]
    | succ n =>
      simp only [List.getElem?_cons_succ] at hj
      have := ih (i + 1) heap1 heap2 n d h2 hj hc hf (by
        intro j2 d2 hlt hj2 hc2
        exact hlast (j2 + 1) d2 (by omega) (by simpa using hj2) hc2)
      rw [this]
      congr 1
      omega

theorem one_shiftLeft_lt_16 (e : Nat) (he : e < 16) :
    u16 (1 <<< e) = 1 <<< e ∧ ∀ b, (1 <<< e : Nat).testBit b = decide (e = b) := by
  have h2 : (1 <<< e : Nat) = 2 ^ e := by rw [Nat.shiftLeft_eq, Nat.one_mul]
  rw [h2]
  refine ⟨?_, fun b => Nat.testBit_two_pow⟩
  apply u16_of_lt
  have h16 : (65536 : Nat) = 2 ^ 16 := by norm_num
  rw [h16]
  exact Nat.pow_lt_pow_right (by norm_num) he

/-- C15 as stated fails. (1) The interrupt mask bit is stored in a `uint16`: for
equipment number 16, `1 << 16` is stored as 0, which is not `1 << 16` and has no
bit set. (2) The back-pointer is overwritten by each device that declares the
side: with two input devices sharing a descriptor, `iod_indev` points to the
second (entry 1) after `fw_init`, not to the first (entry 0). -/
theorem fw_init_counterexample :
    (∃ r, fw_init cdc1700_defs [exSimDev cdc1700_defs.DEV_INDEV 0] (exFW exIod16) = .ok r ∧
      (r.1.heap 0).iod_equip = 16 ∧ (r.1.heap 0).iod_interrupt = 0) ∧
    (∃ r, fw_init cdc1700_defs
        [exSimDev cdc1700_defs.DEV_INDEV 0, exSimDev cdc1700_defs.DEV_INDEV 0] (exFW exIod) =
        .ok r ∧ (r.1.heap 0).iod_indev = some 1) := by
  refine ⟨⟨_, rfl, by decide, by decide⟩, ⟨_, rfl, by decide⟩⟩

/-- C15, amended. When every entry of the device table has a descriptor, `fw_init`
returns with the framework-initialized flag set, after calling `buildIOtable`
and `buildDCtables`; and for every device of the table the interrupt mask bit of
its descriptor is `1 << iod_equip` truncated to 16 bits - for an equipment number
below 16 it equals `1 << iod_equip` and is one-hot (bit `iod_equip` and no other
is set) - and the input / output back-pointer of the descriptor is the device,
for each side the device's flags declare, provided no later device of the table
declares the same side for the same descriptor. -/
theorem fw_init_spec (k : Defs) (sim_devices : List DEVICE) (st : FWState)
    (hctxt : ∀ d ∈ sim_devices, d.ctxt ≠ none) :
    ∃ heap, fw_init k sim_devices st =
        .ok ({ heap := heap, IOFWinitialized := true },
          [Call.buildIOtable, Call.buildDCtables]) ∧
      ∀ (j : Nat) (d : DEVICE) (p : Nat), sim_devices[j]? = some d → d.ctxt = some p →
        (heap p).iod_equip = (st.heap p).iod_equip ∧
        (heap p).iod_interrupt = u16 (1 <<< (heap p).iod_equip) ∧
        ((heap p).iod_equip < 16 →
          (heap p).iod_interrupt = 1 <<< (heap p).iod_equip ∧
          ∀ b, (heap p).iod_interrupt.testBit b = decide ((heap p).iod_equip = b)) ∧
        (d.flags &&& k.DEV_INDEV ≠ 0 →
          (∀ j2 d2, j < j2 → sim_devices[j2]? = some d2 → d2.ctxt = some p →
            d2.flags &&& k.DEV_INDEV = 0) →
          (heap p).iod_indev = some j) ∧
        (d.flags &&& k.DEV_OUTDEV ≠ 0 →
          (∀ j2 d2, j < j2 → sim_devices[j2]? = some d2 → d2.ctxt = some p →
            d2.flags &&& k.DEV_OUTDEV = 0) →
          (heap p).iod_outdev = some j) := by
  obtain ⟨heap, hloop⟩ := fw_init_loop_total k sim_devices 0 st.heap hctxt
  refine ⟨heap, ?_, ?_⟩
  · unfold fw_init
    rw [hloop]
  · intro j d p hj hc
    have hmem : d ∈ sim_devices := List.getElem?_mem hj
    have he : (heap p).iod_equip = (st.heap p).iod_equip :=
      fw_init_loop_equip k sim_devices 0 st.heap heap hloop p
    have hi : (heap p).iod_interrupt = u16 (1 <<< (heap p).iod_equip) := by
      rw [he]
      exact fw_init_loop_interrupt k p sim_devices 0 st.heap heap hloop ⟨d, hmem, hc⟩
    refine ⟨he, hi, ?_, ?_, ?_⟩
    · intro h16
      rw [hi, (one_shiftLeft_lt_16 _ h16).1]
      exact ⟨rfl, (one_shiftLeft_lt_16 _ h16).2⟩
    · intro hf hlast
      have := fw_init_loop_indev k p sim_devices 0 st.heap heap j d hloop hj hc hf hlast
      rw [this, Nat.zero_add]
    · intro hf hlast
      have := fw_init_loop_outdev k p sim_devices 0 st.heap heap j d hloop hj hc hf hlast
      rw [this, Nat.zero_add]

/-- Witness of C15 (amended): a table of an input device and an output device
sharing the descriptor at address 0 (equipment number 1); the interrupt mask bit
is 2, the input back-pointer entry 0 and the output back-pointer entry 1. -/
theorem fw_init_spec_witness :
    (∀ d ∈ [exSimDev cdc1700_defs.DEV_INDEV 0, exSimDev cdc1700_defs.DEV_OUTDEV 0],
      d.ctxt ≠ none) ∧
    ∃ heap, fw_init cdc1700_defs
        [exSimDev cdc1700_defs.DEV_INDEV 0, exSimDev cdc1700_defs.DEV_OUTDEV 0] (exFW exIod) =
        .ok ({ heap := heap, IOFWinitialized := true },
          [Call.buildIOtable, Call.buildDCtables]) ∧
      (heap 0).iod_equip = 1 ∧ (heap 0).iod_interrupt = 1 <<< 1 ∧
      (heap 0).iod_indev = some 0 ∧ (heap 0).iod_outdev = some 1 := by
  have hc : ∀ d ∈ [exSimDev cdc1700_defs.DEV_INDEV 0, exSimDev cdc1700_defs.DEV_OUTDEV 0],
      d.ctxt ≠ none := by
    intro d hd
    simp only [List.mem_cons, List.mem_singleton, List.not_mem_nil, or_false] at hd
    rcases hd with h | h <;> subst h <;> decide
  obtain ⟨heap, h1, h2⟩ := fw_init_spec cdc1700_defs
    [exSimDev cdc1700_defs.DEV_INDEV 0, exSimDev cdc1700_defs.DEV_OUTDEV 0] (exFW exIod) hc
  have e0 := h2 0 (exSimDev cdc1700_defs.DEV_INDEV 0) 0 rfl rfl
  have e1 := h2 1 (exSimDev cdc1700_defs.DEV_OUTDEV 0) 0 rfl rfl
  have heq : (heap 0).iod_equip = 1 := e0.1
  refine ⟨hc, heap, h1, heq, ?_, ?_, ?_⟩
  · have := (e0.2.2.1 (by rw [heq]; decide)).1
    rw [heq] at this
    exact this
  · apply e0.2.2.2.1 (by decide)
    intro j2 d2 hlt hj2 _
    match j2, hlt, hj2 with
    | 1, _, hj2 =>
      simp only [List.getElem?_cons_succ, List.getElem?_cons_zero, Option.some.injEq] at hj2
      subst hj2
      decide
    | n + 2, _, hj2 => simp at hj2
  · apply e1.2.2.2.2 (by decide)
    intro j2 d2 hlt hj2 _
    match j2, hlt, hj2 with
    | n + 2, _, hj2 => simp at hj2

/-! ## The underway policies -/

theorem setDEVSTATUS_setDEVSTATUS (iod : IO_DEVICE) (a b : Nat) :
    setDEVSTATUS (setDEVSTATUS iod a) b = setDEVSTATUS iod b := by
  simp [setDEVSTATUS]

theorem fw_IOunderwayData_eq (k : Defs) (iod : IO_DEVICE) (clr : Nat) :
    fw_IOunderwayData k iod clr =
      setDEVSTATUS iod
        (u16 (u16 (u16 (u16 (DEVSTATUS iod &&& cnot (clr ||| k.IO_ST_READY ||| k.IO_ST_DATA)) |||
          k.IO_ST_BUSY) ||| iod.iod_forced) &&& iod.iod_smask)) := by
  unfold fw_IOunderwayData
  simp only [DEVSTATUS_setDEVSTATUS, setDEVSTATUS_forced, setDEVSTATUS_smask,
    setDEVSTATUS_setDEVSTATUS]

theorem fw_IOunderwayEOP_eq (k : Defs) (iod : IO_DEVICE) (clr : Nat) :
    fw_IOunderwayEOP k iod clr =
      setDEVSTATUS iod
        (u16 (u16 (u16 (u16 (DEVSTATUS iod &&& cnot (clr ||| k.IO_ST_READY ||| k.IO_ST_EOP)) |||
          k.IO_ST_BUSY) ||| iod.iod_forced) &&& iod.iod_smask)) := by
  unfold fw_IOunderwayEOP
  simp only [DEVSTATUS_setDEVSTATUS, setDEVSTATUS_forced, setDEVSTATUS_smask,
    setDEVSTATUS_setDEVSTATUS]

theorem fw_IOunderwayEOP2_eq (k : Defs) (iod : IO_DEVICE) (clr : Nat) :
    fw_IOunderwayEOP2 k iod clr =
      setDEVSTATUS iod
        (u16 (u16 (u16 (u16 (DEVSTATUS iod &&& cnot (clr ||| k.IO_ST_EOP)) |||
          k.IO_ST_BUSY) ||| iod.iod_forced) &&& iod.iod_smask)) := by
  unfold fw_IOunderwayEOP2
  simp only [DEVSTATUS_setDEVSTATUS, setDEVSTATUS_forced, setDEVSTATUS_smask,
    setDEVSTATUS_setDEVSTATUS]

theorem underway_value (st c b f m : Nat) (hst : st < 65536) (hb : b < 65536)
    (hf : f < 65536) :
    u16 (u16 (u16 (u16 (st &&& cnot c) ||| b) ||| f) &&& m) =
      ((st &&& cnot c) ||| b ||| f) &&& m := by
  have h1 : st &&& cnot c < 65536 := and_lt_65536 _ hst
  have h2 : (st &&& cnot c) ||| b < 65536 := or_lt_65536 h1 hb
  have h3 : (st &&& cnot c) ||| b ||| f < 65536 := or_lt_65536 h2 hf
  rw [u16_of_lt h1, u16_of_lt h2, u16_of_lt h3, u16_of_lt (and_lt_65536 _ h3)]

theorem testBit_underway (st c b f m i : Nat) :
    (u16 (u16 (u16 (u16 (st &&& cnot c) ||| b) ||| f) &&& m)).testBit i =
      (decide (i < 16) && (((st.testBit i && !c.testBit i) || b.testBit i) || f.testBit i) &&
        m.testBit i) := by
  simp only [testBit_u16, Nat.testBit_and, Nat.testBit_or, testBit_cnot]
  by_cases hi : i < 16
  · have h32 : i < 32 := by omega
    simp only [hi, h32, decide_True, Bool.true_and, Bool.true_xor]
  · simp [hi]

theorem underway_bits (st c b f m : Nat) (hb : b < 65536) :
    (∀ i, c.testBit i = true → b.testBit i = false → f.testBit i = false →
      (u16 (u16 (u16 (u16 (st &&& cnot c) ||| b) ||| f) &&& m)).testBit i = false) ∧
    (∀ i, b.testBit i = true → m.testBit i = true →
      (u16 (u16 (u16 (u16 (st &&& cnot c) ||| b) ||| f) &&& m)).testBit i = true) := by
  constructor
  · intro i hc hbi hfi
    rw [testBit_underway, hc, hbi, hfi]
    simp
  · intro i hbi hmi
    rw [testBit_underway, hbi, hmi]
    simp [testBit_lt_16 hb hbi]

/-- C16 as stated fails in its consequences. (1) A clear mask naming `IO_ST_BUSY`:
the bit is set afterwards, not clear. (2) A descriptor with `IO_ST_READY` forced:
`IO_ST_READY` is set afterwards. (3) A descriptor without `IO_ST_BUSY` among its
valid status bits: `IO_ST_BUSY` is clear afterwards. -/
theorem fw_IOunderway_counterexample :
    DEVSTATUS (fw_IOunderwayData cdc1700_defs exIod cdc1700_defs.IO_ST_BUSY) &&&
      cdc1700_defs.IO_ST_BUSY = cdc1700_defs.IO_ST_BUSY ∧
    DEVSTATUS (fw_IOunderwayData cdc1700_defs exIodForcedReady 0) &&&
      cdc1700_defs.IO_ST_READY = cdc1700_defs.IO_ST_READY ∧
    DEVSTATUS (fw_IOunderwayData cdc1700_defs exIodNoBusy 0) &&&
      cdc1700_defs.IO_ST_BUSY = 0 := by
  refine ⟨by decide, by decide, by decide⟩

/-- C16, amended. For a descriptor whose status and forced bits are 16-bit values
(and a 16-bit `IO_ST_BUSY` ), `fw_IOunderwayData` leaves the descriptor with the
status replaced by
`(((status & ~(clr | IO_ST_READY | IO_ST_DATA)) | IO_ST_BUSY | iod_forced) & iod_smask)`
and nothing else changed (it returns no call); so every bit of
`clr | IO_ST_READY | IO_ST_DATA` that is neither in `IO_ST_BUSY` nor forced is clear
afterwards, and every bit of `IO_ST_BUSY` that is a valid status bit is set.
`fw_IOunderwayEOP` is the same with `IO_ST_EOP` in place of `IO_ST_DATA`. -/
theorem fw_IOunderway_status (k : Defs) (iod : IO_DEVICE) (clr : Nat)
    (hst : DEVSTATUS iod < 65536) (hB : k.IO_ST_BUSY < 65536) (hf : iod.iod_forced < 65536) :
    (fw_IOunderwayData k iod clr =
        setDEVSTATUS iod
          (((DEVSTATUS iod &&& cnot (clr ||| k.IO_ST_READY ||| k.IO_ST_DATA)) |||
            k.IO_ST_BUSY ||| iod.iod_forced) &&& iod.iod_smask) ∧
      (∀ i, (clr ||| k.IO_ST_READY ||| k.IO_ST_DATA).testBit i = true →
        k.IO_ST_BUSY.testBit i = false → iod.iod_forced.testBit i = false →
        (DEVSTATUS (fw_IOunderwayData k iod clr)).testBit i = false) ∧
      (∀ i, k.IO_ST_BUSY.testBit i = true → iod.iod_smask.testBit i = true →
        (DEVSTATUS (fw_IOunderwayData k iod clr)).testBit i = true)) ∧
    (fw_IOunderwayEOP k iod clr =
        setDEVSTATUS iod
          (((DEVSTATUS iod &&& cnot (clr ||| k.IO_ST_READY ||| k.IO_ST_EOP)) |||
            k.IO_ST_BUSY ||| iod.iod_forced) &&& iod.iod_smask) ∧
      (∀ i, (clr ||| k.IO_ST_READY ||| k.IO_ST_EOP).testBit i = true →
        k.IO_ST_BUSY.testBit i = false → iod.iod_forced.testBit i = false →
        (DEVSTATUS (fw_IOunderwayEOP k iod clr)).testBit i = false) ∧
      (∀ i, k.IO_ST_BUSY.testBit i = true → iod.iod_smask.testBit i = true →
        (DEVSTATUS (fw_IOunderwayEOP k iod clr)).testBit i = true)) := by
  refine ⟨⟨?_, ?_, ?_⟩, ⟨?_, ?_, ?_⟩⟩
  · rw [fw_IOunderwayData_eq, underway_value _ _ _ _ _ hst hB hf]
  · rw [fw_IOunderwayData_eq, DEVSTATUS_setDEVSTATUS]
    exact (underway_bits _ _ _ _ _ hB).1
  · rw [fw_IOunderwayData_eq, DEVSTATUS_setDEVSTATUS]
    exact (underway_bits _ _ _ _ _ hB).2
  · rw [fw_IOunderwayEOP_eq, underway_value _ _ _ _ _ hst hB hf]
  · rw [fw_IOunderwayEOP_eq, DEVSTATUS_setDEVSTATUS]
    exact (underway_bits _ _ _ _ _ hB).1
  · rw [fw_IOunderwayEOP_eq, DEVSTATUS_setDEVSTATUS]
    exact (underway_bits _ _ _ _ _ hB).2

/-- Witness of C16 (amended): the sample descriptor with status
`IO_ST_READY | IO_ST_DATA | 0x0100` and clear bits `0x0100`; the status left is
`IO_ST_BUSY`. -/
theorem fw_IOunderway_status_witness :
    DEVSTATUS (setDEVSTATUS exIod 0x0109) < 65536 ∧ cdc1700_defs.IO_ST_BUSY < 65536 ∧
    (setDEVSTATUS exIod 0x0109).iod_forced < 65536 ∧
    fw_IOunderwayData cdc1700_defs (setDEVSTATUS exIod 0x0109) 0x0100 =
      setDEVSTATUS (setDEVSTATUS exIod 0x0109)
        (((DEVSTATUS (setDEVSTATUS exIod 0x0109) &&&
          cnot (0x0100 ||| cdc1700_defs.IO_ST_READY ||| cdc1700_defs.IO_ST_DATA)) |||
          cdc1700_defs.IO_ST_BUSY ||| (setDEVSTATUS exIod 0x0109).iod_forced) &&&
          (setDEVSTATUS exIod 0x0109).iod_smask) ∧
    DEVSTATUS (fw_IOunderwayData cdc1700_defs (setDEVSTATUS exIod 0x0109) 0x0100) = 0x0002 :=
  have w := fw_IOunderway_status cdc1700_defs (setDEVSTATUS exIod 0x0109) 0x0100
    (by decide) (by decide) (by decide)
  ⟨by decide, by decide, by decide, w.1.1, by decide⟩

/-! ## The policy that does not drop `IO_ST_READY` -/

theorem testBit_intrStatus_or (k : Defs) (iod : IO_DEVICE) (r e clr mask i : Nat)
    (hr : r.testBit i = false) :
    (DEVSTATUS (intrStatus k iod (r ||| e) clr mask)).testBit i =
      (DEVSTATUS (intrStatus k iod e clr mask)).testBit i := by
  rw [testBit_intrStatus, testBit_intrStatus, Nat.testBit_or, hr, Bool.false_or]

theorem and_cnot_congr {x y r : Nat} (hx : x < 65536) (hy : y < 65536)
    (h : ∀ i, r.testBit i = false → x.testBit i = y.testBit i) :
    x &&& cnot r = y &&& cnot r := by
  apply Nat.eq_of_testBit_eq
  intro i
  rw [Nat.testBit_and, Nat.testBit_and, testBit_cnot]
  cases hr : r.testBit i
  · rw [h i hr]
  · by_cases hi : i < 32
    · simp [hi]
    · have hxi : x.testBit i = false := by
        cases hxi : x.testBit i
        · rfl
        · exact absurd (testBit_lt_16 hx hxi) (by omega)
      have hyi : y.testBit i = false := by
        cases hyi : y.testBit i
        · rfl
        · exact absurd (testBit_lt_16 hy hyi) (by omega)
      rw [hxi, hyi]

theorem u16_lt (x : Nat) : u16 x < 65536 := Nat.mod_lt _ (by norm_num)

theorem and_congr_of_disjoint {x y r c : Nat} (hc : c &&& r = 0)
    (h : ∀ i, r.testBit i = false → x.testBit i = y.testBit i) :
    x &&& c = y &&& c := by
  apply Nat.eq_of_testBit_eq
  intro i
  rw [Nat.testBit_and, Nat.testBit_and]
  cases hci : c.testBit i
  · simp
  · rw [h i (testBit_of_and_eq_zero hc i hci)]

theorem testBit_or_INT (y c r i : Nat) (hr : (r ||| c).testBit i = false) :
    (u16 (u16 y ||| c)).testBit i = (u16 y).testBit i := by
  rw [Nat.testBit_or, Bool.or_eq_false_iff] at hr
  rw [testBit_u16, Nat.testBit_or, hr.2, Bool.or_false, testBit_u16]
  cases decide (i < 16) <;> simp

theorem DEVSTATUS_fw_IOintr_lt (k : Defs) (cb : Backend) (other : Bool) (dev : DEVICE)
    (iod : IO_DEVICE) (set clr mask : Nat) (why : Option String) :
    DEVSTATUS (fw_IOintr k cb other dev iod set clr mask why).1 < 65536 := by
  rw [fw_IOintr_status]
  split_ifs
  · rw [DEVSTATUS_setDEVSTATUS]
    exact u16_lt _
  · rw [DEVSTATUS_intrStatus]
    exact u16_lt _

theorem testBit_fw_IOintr_off_INT (k : Defs) (cb : Backend) (other : Bool) (dev : DEVICE)
    (iod : IO_DEVICE) (set clr mask : Nat) (why : Option String) (i : Nat)
    (hI : k.IO_ST_INT.testBit i = false) :
    (DEVSTATUS (fw_IOintr k cb other dev iod set clr mask why).1).testBit i =
      (DEVSTATUS (intrStatus k iod set clr mask)).testBit i := by
  rw [fw_IOintr_status]
  split_ifs
  · rw [DEVSTATUS_setDEVSTATUS, DEVSTATUS_intrStatus]
    exact testBit_or_INT _ _ 0 i (by rw [Nat.testBit_or, hI]; simp)
  · rfl

theorem stdIntr_intrStatus_or (k : Defs) (hk : k.WF) (iod : IO_DEVICE) (e clr mask : Nat) :
    stdIntr k (intrStatus k iod (k.IO_ST_READY ||| e) clr mask) =
      stdIntr k (intrStatus k iod e clr mask) := by
  have hd := hk.disjoint
  simp only [List.pairwise_cons, List.mem_cons, List.mem_singleton, forall_eq_or_imp,
    forall_eq, List.not_mem_nil, false_implies, implies_true, List.Pairwise.nil, and_true] at hd
  obtain ⟨⟨-, -, -, -, hAR⟩, ⟨-, -, -, hER⟩, ⟨-, -, hDR⟩, -, -⟩ := hd
  have hbits : ∀ i, k.IO_ST_READY.testBit i = false →
      (DEVSTATUS (intrStatus k iod (k.IO_ST_READY ||| e) clr mask)).testBit i =
        (DEVSTATUS (intrStatus k iod e clr mask)).testBit i :=
    fun i hr => testBit_intrStatus_or k iod _ e clr mask i hr
  unfold stdIntr
  have e1 : ∀ m, ISENABLED (intrStatus k iod (k.IO_ST_READY ||| e) clr mask) m =
      ISENABLED (intrStatus k iod e clr mask) m := fun _ => rfl
  rw [e1, e1, e1, and_congr_of_disjoint hAR hbits, and_congr_of_disjoint hER hbits,
    and_congr_of_disjoint hDR hbits]

/-- C17 as stated fails. (1) `fw_IOunderwayEOP2` clears `IO_ST_READY` when the
caller names it in the clear bits: the status `IO_ST_READY` becomes `IO_ST_BUSY`.
(2) `fw_IOcompleteEOP2` and `fw_IOcompleteEOP` can differ in `IO_ST_INT` as well:
with only the alarm interrupt enabled and a device-specific check for "ready
and not busy", `fw_IOcompleteEOP` leaves `IO_ST_READY | IO_ST_INT | IO_ST_EOP` and
`fw_IOcompleteEOP2` leaves `IO_ST_EOP`. -/
theorem fw_IO_EOP2_counterexample :
    (DEVSTATUS (setDEVSTATUS exIod 0x0001) &&& cdc1700_defs.IO_ST_READY = 0x0001 ∧
      DEVSTATUS (fw_IOunderwayEOP2 cdc1700_defs (setDEVSTATUS exIod 0x0001)
        cdc1700_defs.IO_ST_READY) = 0x0002) ∧
    (DEVSTATUS (fw_IOcompleteEOP cdc1700_defs exBackendReady true (exDev 0) exIodAlarm 0xFFFF
        (some "eop")).1 = 0x0015 ∧
      DEVSTATUS (fw_IOcompleteEOP2 cdc1700_defs exBackendReady true (exDev 0) exIodAlarm 0xFFFF
        (some "eop")).1 = 0x0010) := by
  refine ⟨⟨by decide, by decide⟩, ⟨by decide, by decide⟩⟩

/-- C17, amended. `fw_IOunderwayEOP2` leaves the same status as `fw_IOunderwayEOP` on
every bit other than `IO_ST_READY`: every bit of `clr | IO_ST_EOP` that is neither
in `IO_ST_BUSY` nor forced is clear and every valid status bit of `IO_ST_BUSY` is
set. It leaves `IO_ST_READY` as it was when the clear bits and the forced bits
do not contain `IO_ST_READY` and `IO_ST_READY` is a valid status bit.
`fw_IOcompleteEOP2` leaves the same status as `fw_IOcompleteEOP` on every bit other
than `IO_ST_READY` and `IO_ST_INT`, and on `IO_ST_INT` too when the device-specific
interrupt check gives the same answer with and without `IO_ST_READY` set (as it
does when it is not permitted or absent). -/
theorem fw_IO_EOP2_vs_EOP (k : Defs) (cb : Backend) (other : Bool) (dev : DEVICE)
    (iod : IO_DEVICE) (clr mask : Nat) (why : Option String) (hk : k.WF) :
    DEVSTATUS (fw_IOunderwayEOP2 k iod clr) &&& cnot k.IO_ST_READY =
      DEVSTATUS (fw_IOunderwayEOP k iod clr) &&& cnot k.IO_ST_READY ∧
    (∀ i, (clr ||| k.IO_ST_EOP).testBit i = true → k.IO_ST_BUSY.testBit i = false →
      iod.iod_forced.testBit i = false →
      (DEVSTATUS (fw_IOunderwayEOP2 k iod clr)).testBit i = false) ∧
    (∀ i, k.IO_ST_BUSY.testBit i = true → iod.iod_smask.testBit i = true →
      (DEVSTATUS (fw_IOunderwayEOP2 k iod clr)).testBit i = true) ∧
    (clr &&& k.IO_ST_READY = 0 → iod.iod_forced &&& k.IO_ST_READY = 0 →
      iod.iod_smask &&& k.IO_ST_READY = k.IO_ST_READY →
      DEVSTATUS (fw_IOunderwayEOP2 k iod clr) &&& k.IO_ST_READY =
        DEVSTATUS iod &&& k.IO_ST_READY) ∧
    DEVSTATUS (fw_IOcompleteEOP2 k cb other dev iod mask why).1 &&&
        cnot (k.IO_ST_READY ||| k.IO_ST_INT) =
      DEVSTATUS (fw_IOcompleteEOP k cb other dev iod mask why).1 &&&
        cnot (k.IO_ST_READY ||| k.IO_ST_INT) ∧
    (otherIntr cb other (intrStatus k iod (k.IO_ST_READY ||| k.IO_ST_EOP) k.IO_ST_BUSY mask) =
        otherIntr cb other (intrStatus k iod k.IO_ST_EOP k.IO_ST_BUSY mask) →
      DEVSTATUS (fw_IOcompleteEOP2 k cb other dev iod mask why).1 &&& cnot k.IO_ST_READY =
        DEVSTATUS (fw_IOcompleteEOP k cb other dev iod mask why).1 &&& cnot k.IO_ST_READY) := by
  have hd := hk.disjoint
  simp only [List.pairwise_cons, List.mem_cons, List.mem_singleton, forall_eq_or_imp,
    forall_eq, List.not_mem_nil, false_implies, implies_true, List.Pairwise.nil, and_true] at hd
  obtain ⟨-, ⟨-, -, -, hER⟩, -, ⟨-, hIR⟩, hBR⟩ := hd
  refine ⟨?_, ?_, ?_, ?_, ?_, ?_⟩
  · rw [fw_IOunderwayEOP2_eq, fw_IOunderwayEOP_eq, DEVSTATUS_setDEVSTATUS,
      DEVSTATUS_setDEVSTATUS]
    apply and_cnot_congr (u16_lt _) (u16_lt _)
    intro i hr
    rw [testBit_underway, testBit_underway]
    simp only [Nat.testBit_or, hr, Bool.or_false]
  · rw [fw_IOunderwayEOP2_eq, DEVSTATUS_setDEVSTATUS]
    exact (underway_bits _ _ _ _ _ hk.busy_lt).1
  · rw [fw_IOunderwayEOP2_eq, DEVSTATUS_setDEVSTATUS]
    exact (underway_bits _ _ _ _ _ hk.busy_lt).2
  · intro hc hf hs
    rw [fw_IOunderwayEOP2_eq, DEVSTATUS_setDEVSTATUS]
    apply Nat.eq_of_testBit_eq
    intro i
    rw [Nat.testBit_and, Nat.testBit_and, testBit_underway]
    cases hr : k.IO_ST_READY.testBit i
    · simp
    · have hi : i < 16 := testBit_lt_16 hk.ready_lt hr
      have h1 : clr.testBit i = false := by
        cases h1 : clr.testBit i
        · rfl
        · rw [testBit_of_and_eq_zero hc i h1] at hr
          exact Bool.noConfusion hr
      have h2 : k.IO_ST_EOP.testBit i = false := by
        cases h2 : k.IO_ST_EOP.testBit i
        · rfl
        · rw [testBit_of_and_eq_zero hER i h2] at hr
          exact Bool.noConfusion hr
      have h3 : k.IO_ST_BUSY.testBit i = false := by
        cases h3 : k.IO_ST_BUSY.testBit i
        · rfl
        · rw [testBit_of_and_eq_zero hBR i h3] at hr
          exact Bool.noConfusion hr
      have h4 : iod.iod_forced.testBit i = false := by
        cases h4 : iod.iod_forced.testBit i
        · rfl
        · rw [testBit_of_and_eq_zero hf i h4] at hr
          exact Bool.noConfusion hr
      have h5 : iod.iod_smask.testBit i = true := testBit_of_and_eq hs i hr
      simp [Nat.testBit_or, hi, h1, h2, h3, h4, h5]
  · unfold fw_IOcompleteEOP2 fw_IOcompleteEOP
    apply and_cnot_congr (DEVSTATUS_fw_IOintr_lt _ _ _ _ _ _ _ _ _)
      (DEVSTATUS_fw_IOintr_lt _ _ _ _ _ _ _ _ _)
    intro i hri
    rw [Nat.testBit_or, Bool.or_eq_false_iff] at hri
    rw [testBit_fw_IOintr_off_INT _ _ _ _ _ _ _ _ _ i hri.2,
      testBit_fw_IOintr_off_INT _ _ _ _ _ _ _ _ _ i hri.2,
      testBit_intrStatus_or k iod _ _ _ _ i hri.1]
  · intro hoth
    unfold fw_IOcompleteEOP2 fw_IOcompleteEOP
    apply and_cnot_congr (DEVSTATUS_fw_IOintr_lt _ _ _ _ _ _ _ _ _)
      (DEVSTATUS_fw_IOintr_lt _ _ _ _ _ _ _ _ _)
    intro i hr
    rw [fw_IOintr_status, fw_IOintr_status, stdIntr_intrStatus_or k hk, hoth]
    split_ifs
    · rw [DEVSTATUS_setDEVSTATUS, DEVSTATUS_setDEVSTATUS, testBit_u16, testBit_u16,
        Nat.testBit_or, Nat.testBit_or, testBit_intrStatus_or k iod _ _ _ _ i hr]
    · rw [testBit_intrStatus_or k iod _ _ _ _ i hr]

/-- Witness of C17 (amended): the sample descriptor with status `IO_ST_READY`, no
clear bits, no forced bits and every status bit valid: `fw_IOunderwayEOP2` leaves
`IO_ST_READY | IO_ST_BUSY`; and with the device-specific check not permitted the
two completions differ in `IO_ST_READY` only. -/
theorem fw_IO_EOP2_vs_EOP_witness :
    cdc1700_defs.WF ∧ (0 : Nat) &&& cdc1700_defs.IO_ST_READY = 0 ∧
    (setDEVSTATUS exIod 0x0001).iod_forced &&& cdc1700_defs.IO_ST_READY = 0 ∧
    (setDEVSTATUS exIod 0x0001).iod_smask &&& cdc1700_defs.IO_ST_READY =
      cdc1700_defs.IO_ST_READY ∧
    DEVSTATUS (fw_IOunderwayEOP2 cdc1700_defs (setDEVSTATUS exIod 0x0001) 0) &&&
        cdc1700_defs.IO_ST_READY =
      DEVSTATUS (setDEVSTATUS exIod 0x0001) &&& cdc1700_defs.IO_ST_READY ∧
    DEVSTATUS (fw_IOcompleteEOP2 cdc1700_defs exBackendReady false (exDev 0)
        (setDEVSTATUS exIod 0x0001) 0xFFFF none).1 &&& cnot cdc1700_defs.IO_ST_READY =
      DEVSTATUS (fw_IOcompleteEOP cdc1700_defs exBackendReady false (exDev 0)
        (setDEVSTATUS exIod 0x0001) 0xFFFF none).1 &&& cnot cdc1700_defs.IO_ST_READY :=
  have w := fw_IO_EOP2_vs_EOP cdc1700_defs exBackendReady false (exDev 0)
    (setDEVSTATUS exIod 0x0001) 0 0xFFFF none cdc1700_defs_WF
  ⟨cdc1700_defs_WF, by decide, by decide, by decide,
    w.2.2.2.1 (by decide) (by decide) (by decide), w.2.2.2.2.2 rfl⟩

/-! ## The state dump of buffered-channel dispatch -/

theorem countP_isState_rejectCalls (cb : Backend) (s : IOState) (output : Bool) (reg : Nat) :
    (rejectCalls cb s output reg).countP Call.isState = 0 := by
  unfold rejectCalls
  cases cb.iod_reject <;> simp [Call.isState]

theorem stateCalls_on (k : Defs) (cb : Backend) (dptr : DEVICE) (label : String) (s : IOState)
    (hflag : dptr.dctrl &&& k.DBG_DSTATE ≠ 0) (hcb : cb.iod_state = true) :
    stateCalls k cb dptr label s = [Call.state label s] := by
  unfold stateCalls
  simp [hflag, hcb]

/-- The calls of a buffered-channel dispatch that passed the dynamic reject check:
those of the check, the state dump, at most one backend routine, the state
dump. -/
theorem bdcDispatch_calls (k : Defs) (cb : Backend) (dptr : DEVICE) (s0 : IOState)
    (data : Nat) (output : Bool) (reg : Nat) (r : BDCResult)
    (h : bdcDispatch k cb dptr s0 data output reg = .ok r)
    (hc : rejectCheck cb s0 output reg = false) :
    ∃ mid l2 s2, r.calls = rejectCalls cb s0 output reg ++
        stateCalls k cb dptr "before BDC I/O" s0 ++ mid ++ stateCalls k cb dptr l2 s2 ∧
      mid.countP Call.isState = 0 ∧ mid.length ≤ 1 := by
  unfold bdcDispatch at h
  simp only [hc, Bool.false_eq_true, if_false] at h
  cases output with
  | true =>
    simp only [if_true, bankGet, bankSet, bind, Except.bind] at h
    by_cases h8 : reg < 8
    · simp only [h8, dite_true] at h
      cases hw : cb.iod_BDCwrite with
      | none => simp [hw] at h
      | some w =>
        simp only [hw, Except.ok.injEq] at h
        subst h
        refine ⟨[Call.BDCwrite { s0 with iod := storeWrite s0.iod ⟨reg, h8⟩ data } data reg],
          "after BDC I/O",
          (w { s0 with iod := storeWrite s0.iod ⟨reg, h8⟩ data } data reg).2.1, ?_, ?_, ?_⟩
        · rfl
        · simp [Call.isState]
        · simp
    · simp [h8] at h
  | false =>
    simp only [Bool.false_eq_true, if_false] at h
    by_cases hm : (s0.iod.iod_readmap &&& (1 <<< reg) != 0) = true
    · simp only [hm, if_true, bankGet, bind, Except.bind] at h
      by_cases h8 : reg < 8
      · simp only [h8, dite_true, Except.ok.injEq] at h
        subst h
        exact ⟨[], "after cached BDC I/O", s0, by simp, by simp, by simp⟩
      · simp [h8] at h
    · simp only [hm, Bool.false_eq_true, if_false] at h
      cases hw : cb.iod_BDCread with
      | none => simp [hw] at h
      | some w =>
        simp only [hw, Except.ok.injEq] at h
        subst h
        refine ⟨[Call.BDCread s0 data reg], "after BDC I/O", (w s0 data reg).2.1, ?_, ?_, ?_⟩
        · rfl
        · simp [Call.isState]
        · simp

/-- The outcome of a buffered-channel dispatch from the dynamic reject check on
does not depend on the debug flags of the device or on the presence of a state
dump. -/
theorem bdcDispatch_outcome (k : Defs) (cb : Backend) (dptr dptr2 : DEVICE) (b : Bool)
    (s0 : IOState) (data : Nat) (output : Bool) (reg : Nat) :
    (bdcDispatch k cb dptr s0 data output reg).map BDCResult.outcome =
      (bdcDispatch k { cb with iod_state := b } dptr2 s0 data output reg).map
        BDCResult.outcome := by
  have hrc : rejectCheck { cb with iod_state := b } s0 output reg =
      rejectCheck cb s0 output reg := rfl
  unfold bdcDispatch
  simp only [hrc]
  by_cases hc : rejectCheck cb s0 output reg = true
  · simp only [hc, if_true, Except.map, BDCResult.outcome]
  · simp only [hc, Bool.false_eq_true, if_false]
    by_cases ho : output = true
    · simp only [ho, if_true, bankGet, bankSet, bind, Except.bind]
      by_cases h8 : reg < 8
      · simp only [h8, dite_true]
        cases hw : cb.iod_BDCwrite with
        | none => simp [Except.map]
        | some w => simp [Except.map, BDCResult.outcome]
      · simp [h8, Except.map]
    · simp only [ho, Bool.false_eq_true, if_false]
      by_cases hm : (s0.iod.iod_readmap &&& (1 <<< reg) != 0) = true
      · simp only [hm, if_true, bankGet, bind, Except.bind]
        by_cases h8 : reg < 8
        · simp [h8, Except.map, BDCResult.outcome]
        · simp [h8, Except.map]
      · simp only [hm, Bool.false_eq_true, if_false]
        cases hw : cb.iod_BDCread with
        | none => simp [Except.map]
        | some w => simp [Except.map, BDCResult.outcome]

/-- C18. The state dump of `fw_doBDCIO` only surrounds actual dispatch and does not
influence it. (a) An access rejected by the address check, by the static bitmap
or by the dynamic reject check returns `IO_REJECT` without any call of
`iod_state`, whatever the debug flags. (b) The status returned, the state left
(with the register banks) and the data slot are the same for any debug flags of
the device and with or without a state dump callback. (c) An access that passes
the three checks, with `DBG_DSTATE` set and the callback present, calls
`iod_state` exactly twice when it returns: once right after the reject check,
before any backend routine, and once as its last call. -/
theorem fw_doBDCIO_state_dump (k : Defs) (cb : Backend) (dptr : DEVICE) (s : IOState)
    (data : Nat) (output : Bool) (reg : Nat) :
    ((s.iod.iod_regs ≤ reg ∨ rejmap s.iod output &&& (1 <<< reg) ≠ 0 ∨
        rejectCheck cb { s with IOAreg := data } output reg = true) →
      ∃ r, fw_doBDCIO k cb dptr s data output reg = .ok r ∧
        r.status = IOstatus.IO_REJECT ∧ r.calls.countP Call.isState = 0) ∧
    (∀ (dptr2 : DEVICE) (b : Bool),
      ( fw_doBDCIO k cb dptr s data output reg).map BDCResult.outcome =
        ( fw_doBDCIO k { cb with iod_state := b } dptr2 s data output reg).map
          BDCResult.outcome) ∧
    (∀ r, fw_doBDCIO k cb dptr s data output reg = .ok r →
      reg < s.iod.iod_regs → rejmap s.iod output &&& (1 <<< reg) = 0 →
      rejectCheck cb { s with IOAreg := data } output reg = false →
      dptr.dctrl &&& k.DBG_DSTATE ≠ 0 → cb.iod_state = true →
      r.calls.countP Call.isState = 2 ∧
      ∃ mid l2 s2, r.calls = rejectCalls cb { s with IOAreg := data } output reg ++
          [Call.state "before BDC I/O" { s with IOAreg := data }] ++ mid ++
          [Call.state l2 s2] ∧ mid.countP Call.isState = 0 ∧ mid.length ≤ 1) := by
  refine ⟨?_, ?_, ?_⟩
  · intro hrej
    unfold fw_doBDCIO
    by_cases h1 : reg ≥ s.iod.iod_regs
    · simp only [h1, if_true]
      exact ⟨_, rfl, rfl, rfl⟩
    · simp only [h1, if_false]
      by_cases h2 : (rejmap s.iod output &&& (1 <<< reg) != 0) = true
      · simp only [h2, if_true]
        exact ⟨_, rfl, rfl, rfl⟩
      · simp only [h2, Bool.false_eq_true, if_false]
        have h3 : rejectCheck cb { s with IOAreg := data } output reg = true := by
          rcases hrej with h | h | h
          · exact absurd h h1
          · exact absurd (by simpa using h) h2
          · exact h
        unfold bdcDispatch
        simp only [h3, if_true]
        exact ⟨_, rfl, rfl, countP_isState_rejectCalls _ _ _ _⟩
  · intro dptr2 b
    unfold fw_doBDCIO
    by_cases h1 : reg ≥ s.iod.iod_regs
    · simp only [h1, if_true, Except.map, BDCResult.outcome]
    · simp only [h1, if_false]
      by_cases h2 : (rejmap s.iod output &&& (1 <<< reg) != 0) = true
      · simp only [h2, if_true, Except.map, BDCResult.outcome]
      · simp only [h2, Bool.false_eq_true, if_false]
        exact bdcDispatch_outcome k cb dptr dptr2 b _ data output reg
  · intro r h hreg hstat hc hflag hcb
    unfold fw_doBDCIO at h
    simp only [ge_iff_le, Nat.not_le.mpr hreg, if_false, hstat] at h
    have h' : bdcDispatch k cb dptr { s with IOAreg := data } data output reg = .ok r := by
      simpa using h
    obtain ⟨mid, l2, s2, hcalls, hmid, hlen⟩ :=
      bdcDispatch_calls k cb dptr _ data output reg r h' hc
    rw [stateCalls_on k cb dptr _ _ hflag hcb, stateCalls_on k cb dptr _ _ hflag hcb] at hcalls
    refine ⟨?_, mid, l2, s2, hcalls, hmid, hlen⟩
    rw [hcalls]
    simp only [List.countP_append, countP_isState_rejectCalls, hmid]
    simp [Call.isState]

/-- Witness of C18: register index equal to the register count of the sample
descriptor (two) with the debug flag set and the state dump present: rejected,
no state dump; and a write to register 0 with the flag set: two state dumps. -/
theorem fw_doBDCIO_state_dump_witness :
    exIod.iod_regs ≤ 2 ∧ (exDev 2).dctrl &&& cdc1700_defs.DBG_DSTATE ≠ 0 ∧
    exBackend.iod_state = true ∧
    (∃ r, fw_doBDCIO cdc1700_defs exBackend (exDev 2) (exState exIod 0) 7 true 2 = .ok r ∧
      r.status = IOstatus.IO_REJECT ∧ r.calls.countP Call.isState = 0) ∧
    (∃ r, fw_doBDCIO cdc1700_defs exBackend (exDev 2) (exState exIod 0) 7 true 0 = .ok r ∧
      r.calls.countP Call.isState = 2) :=
  have w := fw_doBDCIO_state_dump cdc1700_defs exBackend (exDev 2) (exState exIod 0) 7 true 2
  have w0 := fw_doBDCIO_state_dump cdc1700_defs exBackend (exDev 2) (exState exIod 0) 7 true 0
  ⟨by decide, by decide, rfl, w.1 (Or.inl (by decide)),
    ⟨_, rfl, (w0.2.2 _ rfl (by decide) (by decide) rfl (by decide) rfl).1⟩⟩

/-! ## The order of the checks -/

theorem rejectCalls_counts (cb : Backend) (s : IOState) (output : Bool) (reg : Nat) :
    (rejectCalls cb s output reg).countP Call.isReject =
      (if cb.iod_reject.isSome then 1 else 0) ∧
    (rejectCalls cb s output reg).countP (fun c => c.isRead || c.isWrite) = 0 ∧
    (rejectCalls cb s output reg).countP Call.isRead = 0 ∧
    (rejectCalls cb s output reg).countP Call.isWrite = 0 ∧
    ∀ c ∈ rejectCalls cb s output reg, c = Call.reject s output reg := by
  unfold rejectCalls
  cases cb.iod_reject <;> simp [Call.isReject, Call.isRead, Call.isWrite]

theorem stateCalls_counts (k : Defs) (cb : Backend) (dptr : DEVICE) (label : String)
    (s : IOState) :
    (stateCalls k cb dptr label s).countP Call.isReject = 0 ∧
    (stateCalls k cb dptr label s).countP (fun c => c.isRead || c.isWrite) = 0 ∧
    (stateCalls k cb dptr label s).countP Call.isRead = 0 ∧
    (stateCalls k cb dptr label s).countP Call.isWrite = 0 := by
  unfold stateCalls
  split_ifs <;> simp [Call.isReject, Call.isRead, Call.isWrite]

/-- The calls of `fw_doIO` from the dynamic reject check on: those of the check,
then at most one backend routine, of the direction requested, and only when the
check did not reject. -/
theorem ioDispatch_calls (cb : Backend) (s : IOState) (output : Bool) (reg : Nat)
    (r : Result) (h : ioDispatch cb s output reg = .ok r) :
    ∃ tail, r.calls = rejectCalls cb s output reg ++ tail ∧
      tail.countP Call.isReject = 0 ∧
      tail.countP (fun c => c.isRead || c.isWrite) ≤ 1 ∧
      tail.countP (if output then Call.isRead else Call.isWrite) = 0 ∧
      (0 < tail.countP (fun c => c.isRead || c.isWrite) →
        rejectCheck cb s output reg = false) := by
  unfold ioDispatch at h
  by_cases hc : rejectCheck cb s output reg = true
  · simp only [hc, if_true, Except.ok.injEq] at h
    subst h
    exact ⟨[], by simp, by simp, by simp, by simp, by simp⟩
  · simp only [hc, Bool.false_eq_true, if_false] at h
    have hc' : rejectCheck cb s output reg = false := by simpa using hc
    cases output with
    | true =>
      simp only [if_true, bankGet, bankSet, bind, Except.bind] at h
      by_cases h8 : reg < 8
      · simp only [h8, dite_true] at h
        cases hw : cb.iod_IOwrite with
        | none => simp [hw] at h
        | some w =>
          simp only [hw, Except.ok.injEq] at h
          subst h
          refine ⟨[Call.IOwrite { s with iod := storeWrite s.iod ⟨reg, h8⟩ s.Areg } reg],
            ?_, ?_, ?_, ?_, ?_⟩
          · rfl
          · simp [Call.isReject]
          · exact List.countP_le_length _
          · simp [Call.isRead]
          · intro _
            exact hc'
      · simp [h8] at h
    | false =>
      simp only [Bool.false_eq_true, if_false] at h
      by_cases hm : (s.iod.iod_readmap &&& (1 <<< reg) != 0) = true
      · simp only [hm, if_true, bankGet, bind, Except.bind] at h
        by_cases h8 : reg < 8
        · simp only [h8, dite_true, Except.ok.injEq] at h
          subst h
          exact ⟨[], by simp, by simp, by simp, by simp, by simp⟩
        · simp [h8] at h
      · simp only [hm, Bool.false_eq_true, if_false] at h
        cases hw : cb.iod_IOread with
        | none => simp [hw] at h
        | some w =>
          simp only [hw, Except.ok.injEq] at h
          subst h
          refine ⟨[Call.IOread s reg], ?_, ?_, ?_, ?_, ?_⟩
          · rfl
          · simp [Call.isReject]
          · exact List.countP_le_length _
          · simp [Call.isWrite]
          · intro _
            exact hc'

/-- The calls of `fw_doBDCIO` from the dynamic reject check on: those of the check,
then state dumps and at most one backend routine, of the direction requested,
and only when the check did not reject. -/
theorem bdcDispatch_calls_order (k : Defs) (cb : Backend) (dptr : DEVICE) (s0 : IOState)
    (data : Nat) (output : Bool) (reg : Nat) (r : BDCResult)
    (h : bdcDispatch k cb dptr s0 data output reg = .ok r) :
    ∃ tail, r.calls = rejectCalls cb s0 output reg ++ tail ∧
      tail.countP Call.isReject = 0 ∧
      tail.countP (fun c => c.isRead || c.isWrite) ≤ 1 ∧
      tail.countP (if output then Call.isRead else Call.isWrite) = 0 ∧
      (0 < tail.countP (fun c => c.isRead || c.isWrite) →
        rejectCheck cb s0 output reg = false) := by
  by_cases hc : rejectCheck cb s0 output reg = true
  · unfold bdcDispatch at h
    simp only [hc, if_true, Except.ok.injEq] at h
    subst h
    exact ⟨[], by simp, by simp, by simp, by simp, by simp⟩
  · have hc' : rejectCheck cb s0 output reg = false := by simpa using hc
    unfold bdcDispatch at h
    simp only [hc', Bool.false_eq_true, if_false] at h
    have hs1 := stateCalls_counts k cb dptr
    cases output with
    | true =>
      simp only [if_true, bankGet, bankSet, bind, Except.bind] at h
      by_cases h8 : reg < 8
      · simp only [h8, dite_true] at h
        cases hw : cb.iod_BDCwrite with
        | none => simp [hw] at h
        | some w =>
          simp only [hw, Except.ok.injEq] at h
          subst h
          refine ⟨stateCalls k cb dptr "before BDC I/O" s0 ++
            [Call.BDCwrite { s0 with iod := storeWrite s0.iod ⟨reg, h8⟩ data } data reg] ++
            stateCalls k cb dptr "after BDC I/O"
              (w { s0 with iod := storeWrite s0.iod ⟨reg, h8⟩ data } data reg).2.1,
            ?_, ?_, ?_, ?_, ?_⟩
          · simp only [List.append_assoc]
            rfl
          · simp only [List.countP_append, (hs1 _ _).1]
            simp [Call.isReject]
          · simp only [List.countP_append, (hs1 _ _).2.1, Nat.zero_add, Nat.add_zero]
            exact List.countP_le_length _
          · simp only [if_true, List.countP_append, (hs1 _ _).2.2.1]
            simp [Call.isRead]
          · intro _
            exact hc'
      · simp [h8] at h
    | false =>
      simp only [Bool.false_eq_true, if_false] at h
      by_cases hm : (s0.iod.iod_readmap &&& (1 <<< reg) != 0) = true
      · simp only [hm, if_true, bankGet, bind, Except.bind] at h
        by_cases h8 : reg < 8
        · simp only [h8, dite_true, Except.ok.injEq] at h
          subst h
          refine ⟨stateCalls k cb dptr "before BDC I/O" s0 ++
            stateCalls k cb dptr "after cached BDC I/O" s0, ?_, ?_, ?_, ?_, ?_⟩
          · simp only [List.append_assoc]
          · simp only [List.countP_append, (hs1 _ _).1]
          · simp only [List.countP_append, (hs1 _ _).2.1]
            decide
          · simp only [Bool.false_eq_true, if_false, List.countP_append, (hs1 _ _).2.2.2]
          · intro hpos
            simp only [List.countP_append, (hs1 _ _).2.1] at hpos
            exact absurd hpos (by decide)
        · simp [h8] at h
      · simp only [hm, Bool.false_eq_true, if_false] at h
        cases hw : cb.iod_BDCread with
        | none => simp [hw] at h
        | some w =>
          simp only [hw, Except.ok.injEq] at h
          subst h
          refine ⟨stateCalls k cb dptr "before BDC I/O" s0 ++ [Call.BDCread s0 data reg] ++
            stateCalls k cb dptr "after BDC I/O" (w s0 data reg).2.1, ?_, ?_, ?_, ?_, ?_⟩
          · simp only [List.append_assoc]
          · simp only [List.countP_append, (hs1 _ _).1]
            simp [Call.isReject]
          · simp only [List.countP_append, (hs1 _ _).2.1, Nat.zero_add, Nat.add_zero]
            exact List.countP_le_length _
          · simp only [Bool.false_eq_true, if_false, List.countP_append, (hs1 _ _).2.2.2]
            simp [Call.isWrite]
          · intro _
            exact hc'

theorem order_of_calls (calls pre tail : List Call) (c0 : Call) (output : Bool) (n : Nat)
    (hcalls : calls = pre ++ tail)
    (hpre : pre.countP Call.isReject = n ∧
      pre.countP (fun c => c.isRead || c.isWrite) = 0 ∧
      pre.countP Call.isRead = 0 ∧ pre.countP Call.isWrite = 0 ∧ ∀ c ∈ pre, c = c0)
    (h1 : tail.countP Call.isReject = 0)
    (h2 : tail.countP (fun c => c.isRead || c.isWrite) ≤ 1)
    (h3 : tail.countP (if output then Call.isRead else Call.isWrite) = 0) :
    calls.countP Call.isReject = n ∧
    (∀ c ∈ calls, c.isReject = true → c = c0) ∧
    calls.countP (fun c => c.isRead || c.isWrite) ≤ 1 ∧
    calls.countP (if output then Call.isRead else Call.isWrite) = 0 ∧
    calls.countP (fun c => c.isRead || c.isWrite) =
      tail.countP (fun c => c.isRead || c.isWrite) := by
  subst hcalls
  obtain ⟨p1, p2, p3, p4, p5⟩ := hpre
  refine ⟨?_, ?_, ?_, ?_, ?_⟩
  · rw [List.countP_append, p1, h1, Nat.add_zero]
  · intro c hc hr
    rcases List.mem_append.mp hc with hc | hc
    · exact p5 c hc
    · exact absurd hr (List.countP_eq_zero.mp h1 c hc)
  · rw [List.countP_append, p2, Nat.zero_add]
    exact h2
  · rw [List.countP_append, h3]
    cases output
    · simpa using p4
    · simpa using p3
  · rw [List.countP_append, p2, Nat.zero_add]

/-- C19. The checks are made in order, the first match winning, in `fw_doIO` (for
the register index it decodes) and in `fw_doBDCIO` (for the index it is given).
In every run that returns: the dynamic reject check `iod_reject` is invoked only
when the index is in range and not statically rejected, and then - if the
callback exists - exactly once, with the descriptor state, the direction and
the index; at most one backend read or write routine is invoked, never one of
the other direction, and only when the index is in range, not statically
rejected and not rejected by the dynamic check. -/
theorem fw_dispatch_check_order (k : Defs) (cb : Backend) (dptr : DEVICE) (s : IOState)
    (data : Nat) (output : Bool) (reg : Nat) :
    (∀ r, fw_doIO k cb s output = .ok r →
      r.calls.countP Call.isReject =
        (if decodeReg k s.iod s.IOQreg < s.iod.iod_regs ∧
            rejmap s.iod output &&& (1 <<< decodeReg k s.iod s.IOQreg) = 0 ∧
            cb.iod_reject.isSome = true then 1 else 0) ∧
      (∀ c ∈ r.calls, c.isReject = true →
        c = Call.reject s output (decodeReg k s.iod s.IOQreg)) ∧
      r.calls.countP (fun c => c.isRead || c.isWrite) ≤ 1 ∧
      r.calls.countP (if output then Call.isRead else Call.isWrite) = 0 ∧
      (0 < r.calls.countP (fun c => c.isRead || c.isWrite) →
        decodeReg k s.iod s.IOQreg < s.iod.iod_regs ∧
        rejmap s.iod output &&& (1 <<< decodeReg k s.iod s.IOQreg) = 0 ∧
        rejectCheck cb s output (decodeReg k s.iod s.IOQreg) = false)) ∧
    (∀ r, fw_doBDCIO k cb dptr s data output reg = .ok r →
      r.calls.countP Call.isReject =
        (if reg < s.iod.iod_regs ∧ rejmap s.iod output &&& (1 <<< reg) = 0 ∧
            cb.iod_reject.isSome = true then 1 else 0) ∧
      (∀ c ∈ r.calls, c.isReject = true →
        c = Call.reject { s with IOAreg := data } output reg) ∧
      r.calls.countP (fun c => c.isRead || c.isWrite) ≤ 1 ∧
      r.calls.countP (if output then Call.isRead else Call.isWrite) = 0 ∧
      (0 < r.calls.countP (fun c => c.isRead || c.isWrite) →
        reg < s.iod.iod_regs ∧ rejmap s.iod output &&& (1 <<< reg) = 0 ∧
        rejectCheck cb { s with IOAreg := data } output reg = false)) := by
  constructor
  · intro r h
    unfold fw_doIO at h
    by_cases h1 : decodeReg k s.iod s.IOQreg ≥ s.iod.iod_regs
    · simp only [h1, if_true, Except.ok.injEq] at h
      subst h
      have hn : ¬ decodeReg k s.iod s.IOQreg < s.iod.iod_regs := Nat.not_lt.mpr h1
      refine ⟨by simp [hn], by simp, by simp, by simp, by simp⟩
    · simp only [h1, if_false] at h
      have hlt : decodeReg k s.iod s.IOQreg < s.iod.iod_regs := Nat.lt_of_not_ge h1
      by_cases h2 : (rejmap s.iod output &&& (1 <<< decodeReg k s.iod s.IOQreg) != 0) = true
      · simp only [h2, if_true, Except.ok.injEq] at h
        subst h
        have hn : ¬ rejmap s.iod output &&& (1 <<< decodeReg k s.iod s.IOQreg) = 0 := by
          simpa using h2
        refine ⟨by simp [hn], by simp, by simp, by simp, by simp⟩
      · simp only [h2, Bool.false_eq_true, if_false] at h
        have hz : rejmap s.iod output &&& (1 <<< decodeReg k s.iod s.IOQreg) = 0 := by
          simpa using h2
        obtain ⟨tail, hcalls, t1, t2, t3, t4⟩ := ioDispatch_calls cb s output _ r h
        obtain ⟨o1, o2, o3, o4, o5⟩ := order_of_calls r.calls _ tail _ output _ hcalls
          (rejectCalls_counts cb s output _) t1 t2 t3
        refine ⟨?_, o2, o3, o4, ?_⟩
        · rw [o1]
          simp [hlt, hz]
        · intro hpos
          rw [o5] at hpos
          exact ⟨hlt, hz, t4 hpos⟩
  · intro r h
    unfold fw_doBDCIO at h
    by_cases h1 : reg ≥ s.iod.iod_regs
    · simp only [h1, if_true, Except.ok.injEq] at h
      subst h
      have hn : ¬ reg < s.iod.iod_regs := Nat.not_lt.mpr h1
      refine ⟨by simp [hn], by simp, by simp, by simp, by simp⟩
    · simp only [h1, if_false] at h
      have hlt : reg < s.iod.iod_regs := Nat.lt_of_not_ge h1
      by_cases h2 : (rejmap s.iod output &&& (1 <<< reg) != 0) = true
      · simp only [h2, if_true, Except.ok.injEq] at h
        subst h
        have hn : ¬ rejmap s.iod output &&& (1 <<< reg) = 0 := by
          simpa using h2
        refine ⟨by simp [hn], by simp, by simp, by simp, by simp⟩
      · simp only [h2, Bool.false_eq_true, if_false] at h
        have hz : rejmap s.iod output &&& (1 <<< reg) = 0 := by
          simpa using h2
        obtain ⟨tail, hcalls, t1, t2, t3, t4⟩ :=
          bdcDispatch_calls_order k cb dptr _ data output reg r h
        obtain ⟨o1, o2, o3, o4, o5⟩ := order_of_calls r.calls _ tail _ output _ hcalls
          (rejectCalls_counts cb _ output reg) t1 t2 t3
        refine ⟨?_, o2, o3, o4, ?_⟩
        · rw [o1]
          simp [hlt, hz]
        · intro hpos
          rw [o5] at hpos
          exact ⟨hlt, hz, t4 hpos⟩

/-- Witness of C19: with `fw_reject` as the dynamic check and the status
`IO_ST_BUSY` (not ready), a write to register 0 of the sample descriptor is
rejected after one call of the check and no backend call; a read of register 1
calls the check once and the read routine once. -/
theorem fw_dispatch_check_order_witness :
    (∃ r, fw_doIO cdc1700_defs exBackendReject (exState exIod 0) true = .ok r ∧
      r.status = IOstatus.IO_REJECT ∧ r.calls.countP Call.isReject = 1 ∧
      r.calls.countP (fun c => c.isRead || c.isWrite) ≤ 1 ∧
      r.calls.countP Call.isRead = 0) ∧
    (∃ r, fw_doBDCIO cdc1700_defs exBackendReject (exDev 0) (exState exIod 0) 0 false 1 =
        .ok r ∧ r.calls.countP Call.isReject = 1 ∧
      r.calls.countP (fun c => c.isRead || c.isWrite) ≤ 1 ∧
      r.calls.countP Call.isWrite = 0) :=
  have w := fw_dispatch_check_order cdc1700_defs exBackendReject (exDev 0) (exState exIod 0)
    0 true 1
  have w2 := fw_dispatch_check_order cdc1700_defs exBackendReject (exDev 0) (exState exIod 0)
    0 false 1
  ⟨⟨_, rfl, rfl, (w.1 _ rfl).1, (w.1 _ rfl).2.2.1, (w.1 _ rfl).2.2.2.1⟩,
    ⟨_, rfl, (w2.2 _ rfl).1, (w2.2 _ rfl).2.2.1, (w2.2 _ rfl).2.2.2.1⟩⟩

/-! ## Register decode -/

theorem dc_index_bounds (q w b : Nat) (hq : q < 65536) (hb : b < 65536) :
    -32 ≤ (((q &&& w : Nat) : Int) - (b : Int)) >>> (11 : Nat) ∧
    (((q &&& w : Nat) : Int) - (b : Int)) >>> (11 : Nat) < 32 := by
  have h1 : q &&& w ≤ q := Nat.and_le_left
  have h2 : ((q &&& w : Nat) : Int) < 65536 := by omega
  have h3 : (0 : Int) ≤ ((q &&& w : Nat) : Int) := Int.ofNat_nonneg _
  have h4 : ((b : Nat) : Int) < 65536 := by omega
  have h5 : (0 : Int) ≤ ((b : Nat) : Int) := Int.ofNat_nonneg _
  rw [Int.shiftRight_eq_div_pow]
  have h6 : ((2 : Nat) ^ 11 : Nat) = 2048 := by norm_num
  rw [h6]
  constructor <;> omega

/-- C20 as stated fails: the decoded index is stored in a `uint8`. (1) With a
register mask of sixteen bits, the address `0x0100` masks to 256, which is not
below the register count 2, yet the index stored is 0 and the write is
dispatched to register 0. (2) For a buffered data channel with base `0x1000`
declaring 255 registers, address 0 gives the index -2, stored as 254, and the
read is dispatched to the backend with register 254. -/
theorem fw_doIO_decode_counterexample :
    (0x0100 &&& exIodWide.iod_rmask = 256 ∧ exIodWide.iod_regs = 2 ∧
      decodeReg cdc1700_defs exIodWide 0x0100 = 0 ∧
      ∃ r, fw_doIO cdc1700_defs exBackend (exState exIodWide 0x0100) true = .ok r ∧
        r.status = IOstatus.IO_REPLY ∧ r.calls.countP Call.isWrite = 1) ∧
    ((((0 &&& cdc1700_defs.IO_W : Nat) : Int) - (exIodDC.iod_dcbase : Int)) >>> (11 : Nat) = -2 ∧
      decodeReg cdc1700_defs exIodDC 0 = 254 ∧
      ∃ r, fw_doIO cdc1700_defs exBackend (exState exIodDC 0) false = .ok r ∧
        r.calls.countP Call.isRead = 1) := by
  refine ⟨⟨by decide, by decide, by decide, _, rfl, by decide, by decide⟩,
    ⟨by decide, by decide, _, rfl, by decide⟩⟩

/-- C20, amended. The register index `fw_doIO` uses is the decoded index truncated
to 8 bits: `(IOQreg & iod_rmask) mod 256` for a descriptor that is not a buffered
data channel, `(((IOQreg & IO_W) - iod_dcbase) >> 11) mod 256` (arithmetic shift)
for one that is. When the masked address is below 256 (as with
`iod_rmask ≤ 0xFF` ) the index is the masked address, and an index not below
`iod_regs` is rejected. For a buffered data channel with 16-bit address and
channel base and `iod_regs ≤ 224`, a decoded index that is negative (an address
below the channel base) or not below `iod_regs` is rejected; a decoded index in
the range 0..255 is the index used. A rejected access makes no call and
changes nothing. -/
theorem fw_doIO_decode (k : Defs) (cb : Backend) (s : IOState) (output : Bool) :
    (s.iod.iod_flags &&& DEVICE_DC = 0 →
      decodeReg k s.iod s.IOQreg = (s.IOQreg &&& s.iod.iod_rmask) % 256 ∧
      (s.IOQreg &&& s.iod.iod_rmask < 256 →
        decodeReg k s.iod s.IOQreg = s.IOQreg &&& s.iod.iod_rmask ∧
        (s.iod.iod_regs ≤ s.IOQreg &&& s.iod.iod_rmask →
          fw_doIO k cb s output =
            .ok { status := IOstatus.IO_REJECT, s := s, calls := [] }))) ∧
    (s.iod.iod_flags &&& DEVICE_DC ≠ 0 →
      decodeReg k s.iod s.IOQreg =
        (((((s.IOQreg &&& k.IO_W : Nat) : Int) - (s.iod.iod_dcbase : Int)) >>> (11 : Nat)) %
          256).toNat ∧
      (s.IOQreg < 65536 → s.iod.iod_dcbase < 65536 → s.iod.iod_regs ≤ 224 →
        ((((s.IOQreg &&& k.IO_W : Nat) : Int) - (s.iod.iod_dcbase : Int)) >>> (11 : Nat) < 0 ∨
          (s.iod.iod_regs : Int) ≤
            (((s.IOQreg &&& k.IO_W : Nat) : Int) - (s.iod.iod_dcbase : Int)) >>> (11 : Nat)) →
        fw_doIO k cb s output =
          .ok { status := IOstatus.IO_REJECT, s := s, calls := [] }) ∧
      (0 ≤ (((s.IOQreg &&& k.IO_W : Nat) : Int) - (s.iod.iod_dcbase : Int)) >>> (11 : Nat) →
        (((s.IOQreg &&& k.IO_W : Nat) : Int) - (s.iod.iod_dcbase : Int)) >>> (11 : Nat) < 256 →
        (decodeReg k s.iod s.IOQreg : Int) =
          (((s.IOQreg &&& k.IO_W : Nat) : Int) - (s.iod.iod_dcbase : Int)) >>> (11 : Nat))) := by
  constructor
  · intro hdc
    have hd : decodeReg k s.iod s.IOQreg = (s.IOQreg &&& s.iod.iod_rmask) % 256 := by
      unfold decodeReg
      simp [hdc, u8]
    refine ⟨hd, ?_⟩
    intro hlt
    have hd2 : decodeReg k s.iod s.IOQreg = s.IOQreg &&& s.iod.iod_rmask := by
      rw [hd, Nat.mod_eq_of_lt hlt]
    refine ⟨hd2, ?_⟩
    intro hge
    exact fw_doIO_reject_of_le k cb s output (by rw [hd2]; exact hge)
  · intro hdc
    have hd : decodeReg k s.iod s.IOQreg =
        (((((s.IOQreg &&& k.IO_W : Nat) : Int) - (s.iod.iod_dcbase : Int)) >>> (11 : Nat)) %
          256).toNat := by
      unfold decodeReg
      simp [hdc]
    refine ⟨hd, ?_, ?_⟩
    · intro hq hb hregs hout
      obtain ⟨hlo, hhi⟩ := dc_index_bounds s.IOQreg k.IO_W s.iod.iod_dcbase hq hb
      apply fw_doIO_reject_of_le k cb s output
      rw [hd]
      omega
    · intro h0 h256
      rw [hd]
      omega

/-- Witness of C20 (amended): the sample descriptor (register mask `0xFF`, two
registers) and the address 5; and a buffered data channel with base `0x1000`
and the address `0x0800`, below the base, which gives the index -1. -/
theorem fw_doIO_decode_witness :
    (exIod.iod_flags &&& DEVICE_DC = 0 ∧ 5 &&& exIod.iod_rmask < 256 ∧
      exIod.iod_regs ≤ 5 &&& exIod.iod_rmask ∧
      decodeReg cdc1700_defs exIod 5 = 5 ∧
      fw_doIO cdc1700_defs exBackend (exState exIod 5) false =
        .ok { status := IOstatus.IO_REJECT, s := exState exIod 5, calls := [] }) ∧
    (exIodDC2.iod_flags &&& DEVICE_DC ≠ 0 ∧ exIodDC2.iod_regs ≤ 224 ∧
      (((0x0800 &&& cdc1700_defs.IO_W : Nat) : Int) - (exIodDC2.iod_dcbase : Int)) >>>
        (11 : Nat) = -1 ∧
      fw_doIO cdc1700_defs exBackend (exState exIodDC2 0x0800) true =
        .ok { status := IOstatus.IO_REJECT, s := exState exIodDC2 0x0800, calls := [] }) :=
  have w := (fw_doIO_decode cdc1700_defs exBackend (exState exIod 5) false).1 (by decide)
  have w2 := (fw_doIO_decode cdc1700_defs exBackend (exState exIodDC2 0x0800) true).2
    (by decide)
  ⟨⟨by decide, by decide, by decide, (w.2 (by decide)).1, (w.2 (by decide)).2 (by decide)⟩,
    ⟨by decide, by decide, by decide,
      w2.2.1 (by decide) (by decide) (by decide) (Or.inl (by decide))⟩⟩

end CDC1700
